import Mathlib

/-!
# cozy-stack: process bootstrap of the job system and the auth handlers

A shallow embedding of

* `pkg/stack/main.go`  (package `stack`): the package-level `broker` / `sched`
  handles, `Start`, `startJobSystem`, `GetBroker`, `GetScheduler`;
* `web/auth/auth.go`   (package `auth`): `checkRedirectParam`, `login`,
  `loginForm`, `redirectSuccessLogin`;

together with a model of the distributed scheduler as the specification
describes it, and a model of the functions of Go's `net/url` that
`checkRedirectParam` calls.

Go package-level variables become fields of an explicit state record, calls into
collaborators that are not part of these files (configuration, the scheduler's
`Start`, the instance, sessions) become fields of an environment record, a Go
`panic` becomes `Except.error`, and a Go `error` result becomes an `Option`
(`none` is `nil`).
-/

set_option autoImplicit false

namespace stack

/-- Go `error` values of this package, identified by their message. -/
abbrev Error := String

/-- The `*redis.Client` handed out by the configuration. -/
structure RedisClient where
  addr : String
deriving DecidableEq, Repr

/-- A `jobs.Broker` handle.  The handle records which constructor of package
`jobs` built it and with which arguments. -/
inductive Broker where
  | NewMemBroker (nbWorkers : Int) (workersList : List String)
  | NewRedisBroker (nbWorkers : Int) (client : RedisClient)
deriving DecidableEq, Repr

/-- A `scheduler.Scheduler` handle, recorded the same way. -/
inductive Scheduler where
  | NewMemScheduler
  | NewRedisScheduler (client : RedisClient)
deriving DecidableEq, Repr

/-- The two interchangeable backends. -/
inductive Backend where
  | memory
  | redis
deriving DecidableEq, Repr

/-- Backend of a broker handle. -/
def Broker.backend : Broker → Backend
  | .NewMemBroker _ _ => .memory
  | .NewRedisBroker _ _ => .redis

/-- Backend of a scheduler handle. -/
def Scheduler.backend : Scheduler → Backend
  | .NewMemScheduler => .memory
  | .NewRedisScheduler _ => .redis

/-- What one call of `Start` reads from outside the package: the configuration
(`config.IsDevRelease()`, `config.FsURL()`, `config.GetConfig().Jobs`), the
worker catalogue, and the results of the two fallible collaborators. -/
structure Env where
  /-- Embeds `config.IsDevRelease()` -/
  IsDevRelease : Bool
  /-- Embeds `config.FsURL().Scheme` -/
  FsURLScheme : String
  /-- Embeds `config.SchemeSwift` -/
  SchemeSwift : String
  /-- result of `config.InitSwiftConnection(fsURL)` when it is called -/
  InitSwiftConnection : Option Error
  /-- Embeds `cfg.Redis.Client()`; `none` is the nil client -/
  RedisCli : Option RedisClient
  /-- Embeds `cfg.Workers` -/
  Workers : Int
  /-- Embeds `jobs.GetWorkersList()` -/
  GetWorkersList : List String
  /-- result of `sched.Start(broker)` -/
  SchedStart : Scheduler → Broker → Option Error

/-- The package-level variables `broker` and `sched` (`none` is nil), together
with a record of the observable effects of the package: what was printed, how
often the Swift connection was initialised, and every `sched.Start(broker)`
call in order. -/
structure State where
  broker : Option Broker
  sched : Option Scheduler
  stdout : List String
  swiftInits : Nat
  started : List (Scheduler × Broker)
deriving DecidableEq, Repr

/-- The state of a fresh process: both handles hold Go's zero value, nil. -/
def State.init : State :=
  { broker := none, sched := none, stdout := [], swiftInits := 0, started := [] }

/-- The text printed by a development release. -/
def devReleaseBanner : String :=
  "                           !! DEVELOPMENT RELEASE !!\nYou are running a development release which may deactivate some very important\nsecurity features. Please do not use this binary as your production server.\n"

/-- Embeds `startMemJobSystem(nbWorkers)`. -/
def startMemJobSystem (env : Env) (nbWorkers : Int) (s : State) : Option Error × State :=
  let broker := Broker.NewMemBroker nbWorkers env.GetWorkersList
  let sched := Scheduler.NewMemScheduler
  (env.SchedStart sched broker,
    { s with broker := some broker, sched := some sched,
             started := s.started ++ [(sched, broker)] })

/-- Embeds `startRedisJobSystem(nbWorkers, client)`. -/
def startRedisJobSystem (env : Env) (nbWorkers : Int) (client : RedisClient) (s : State) :
    Option Error × State :=
  let broker := Broker.NewRedisBroker nbWorkers client
  let sched := Scheduler.NewRedisScheduler client
  (env.SchedStart sched broker,
    { s with broker := some broker, sched := some sched,
             started := s.started ++ [(sched, broker)] })

/-- Embeds `startJobSystem()`: starts the jobs and scheduler systems. -/
def startJobSystem (env : Env) (s : State) : Option Error × State :=
  match env.RedisCli with
  | none => startMemJobSystem env env.Workers s
  | some cli => startRedisJobSystem env env.Workers cli s

/-- Embeds `Start()`. -/
def Start (env : Env) (s : State) : Option Error × State :=
  let s1 := if env.IsDevRelease then { s with stdout := s.stdout ++ [devReleaseBanner] } else s
  if env.FsURLScheme = env.SchemeSwift then
    let s2 := { s1 with swiftInits := s1.swiftInits + 1 }
    match env.InitSwiftConnection with
    | some err => (some err, s2)
    | none => startJobSystem env s2
  else
    startJobSystem env s1

/-- Embeds `GetBroker()`: the global job broker; `Except.error` is the panic. -/
def GetBroker (s : State) : Except String Broker :=
  match s.broker with
  | none => .error "Job system not initialized"
  | some b => .ok b

/-- Embeds `GetScheduler()`: the global job scheduler; `Except.error` is the panic. -/
def GetScheduler (s : State) : Except String Scheduler :=
  match s.sched with
  | none => .error "Job system not initialized"
  | some sc => .ok sc

/-- The pair of handles `startJobSystem` builds for a configuration. -/
def installedPair (env : Env) : Scheduler × Broker :=
  match env.RedisCli with
  | none => (.NewMemScheduler, .NewMemBroker env.Workers env.GetWorkersList)
  | some cli => (.NewRedisScheduler cli, .NewRedisBroker env.Workers cli)

/-- A configuration without Redis, on a local file system. -/
def envMem : Env :=
  { IsDevRelease := false, FsURLScheme := "file", SchemeSwift := "swift",
    InitSwiftConnection := none, RedisCli := none, Workers := 4,
    GetWorkersList := ["sendmail"], SchedStart := fun _ _ => none }

/-- The same configuration with a Redis client. -/
def envRedis : Env :=
  { envMem with RedisCli := some { addr := "localhost:6379" } }

end stack

/-!
## The distributed scheduler

`startRedisJobSystem` only constructs the Redis scheduler; its fire loop lives in
package `scheduler`.  The definitions of this section follow the specification
of the distributed backend: a shared sorted set of due times, claimed by an
atomic range-pop.  Several scheduler instances are modelled by interleaving
their steps: a claim is one atomic step on the shared store, and firing a
claimed entry is a later step of the instance that claimed it.
-/

namespace scheduler

/-- Modelled from the spec: the kinds of trigger of the data model (the fire
loop of package `scheduler` is not among the sources): `cron`, `at`, `event`
and `@every`. -/
inductive Kind where
  | cron
  | atTime
  | event
  | every
deriving DecidableEq, Repr

/-- Modelled from the spec: a trigger, "a persisted rule (run worker W with
payload P on schedule/condition C)", identified by its document id. -/
structure Trigger where
  id : String
  kind : Kind
  worker : String
  payload : List Nat
deriving DecidableEq, Repr

/-- Modelled from the spec: "a `cron`/`@every` trigger is perpetual until
deleted; an `at` trigger self-deletes after firing once". -/
def Trigger.perpetual (t : Trigger) : Bool :=
  t.kind = .cron || t.kind = .every

/-- Modelled from the spec: the job built when a trigger fires: the worker type
and payload of the trigger; `trigger` records which trigger fired. -/
structure Job where
  trigger : String
  worker : String
  payload : List Nat
deriving DecidableEq, Repr

/-- Modelled from the spec: two scheduler instances (server processes) running
against the same shared store. -/
inductive Inst where
  | A
  | B
deriving DecidableEq, Repr

/-- Modelled from the spec: the "shared sorted-set keyed by trigger id with
score = next-fire Unix timestamp". -/
abbrev SortedSet := List (String × Nat)

/-- Modelled from the spec: insertion into the sorted set; a set keyed by
trigger id holds one score per id. -/
def zadd (id : String) (score : Nat) (z : SortedSet) : SortedSet :=
  (id, score) :: z.filter fun e => e.1 ≠ id

/-- Modelled from the spec: the atomic range-pop, which "atomically claims all
entries with score ≤ now": the claimed entries and what is left in the set. -/
def rangePop (now : Nat) (z : SortedSet) : SortedSet × SortedSet :=
  (z.filter fun e => e.2 ≤ now, z.filter fun e => ¬ e.2 ≤ now)

/-- Modelled from the spec: the state of the fleet: the shared sorted set of due
times, for each instance the entries it has claimed and not fired yet, and, in
order, every job submitted to a broker with the instance that submitted it. -/
structure Fleet where
  store : SortedSet
  pendingA : SortedSet
  pendingB : SortedSet
  pushed : List (Inst × Job)
deriving DecidableEq, Repr

/-- Modelled from the spec: the entries an instance has claimed and not fired
yet. -/
def Fleet.pending (w : Fleet) : Inst → SortedSet
  | .A => w.pendingA
  | .B => w.pendingB

/-- Modelled from the spec: the fleet after the claimed entries of one instance
have been replaced. -/
def Fleet.setPending (w : Fleet) (i : Inst) (l : SortedSet) : Fleet :=
  match i with
  | .A => { w with pendingA := l }
  | .B => { w with pendingB := l }

/-- Modelled from the spec: firing one claimed entry: the instance "submits a
Job to the Broker" and "re-inserts perpetual triggers with their recomputed
score" (`next t now`).  An entry whose trigger document is gone fires nothing. -/
def fire (triggers : List Trigger) (next : Trigger → Nat → Nat) (i : Inst) (now : Nat)
    (w : Fleet) (e : String × Nat) : Fleet :=
  match triggers.find? fun t => t.id = e.1 with
  | none => w
  | some t =>
    { w with
      store := if t.perpetual then zadd e.1 (next t now) w.store else w.store
      pushed := w.pushed ++ [(i, { trigger := e.1, worker := t.worker, payload := t.payload })] }

/-- Modelled from the spec: the steps of the fleet: an instance claims the due
entries, or fires the oldest entry it has claimed. -/
inductive Action where
  | claim (i : Inst)
  | fire (i : Inst)
deriving DecidableEq, Repr

/-- Modelled from the spec: one step of the fleet.  A claim is the atomic
range-pop: the due entries leave the shared set and belong to the claiming
instance.  A fire step fires the oldest claimed entry of the instance. -/
def step (triggers : List Trigger) (next : Trigger → Nat → Nat) (now : Nat) (w : Fleet) :
    Action → Fleet
  | .claim i =>
    { w with store := (rangePop now w.store).2 }.setPending i
      (w.pending i ++ (rangePop now w.store).1)
  | .fire i =>
    match w.pending i with
    | [] => w
    | e :: es => fire triggers next i now (w.setPending i es) e

/-- Modelled from the spec: a run of the fleet: the steps of the instances,
interleaved in the order given by `schedule`. -/
def run (triggers : List Trigger) (next : Trigger → Nat → Nat) (now : Nat)
    (schedule : List Action) (w : Fleet) : Fleet :=
  schedule.foldl (step triggers next now) w

/-- Number of jobs submitted for the trigger `id`, over all brokers. -/
def jobsFor (id : String) (pushed : List (Inst × Job)) : Nat :=
  (pushed.filter fun p => p.2.trigger = id).length

/-- Number of entries of the trigger `id` that are claimed and not fired yet,
over all instances. -/
def claimedFor (id : String) (w : Fleet) : Nat :=
  (w.pendingA.filter fun e => e.1 = id).length + (w.pendingB.filter fun e => e.1 = id).length

/-- The trigger `id`, due at `due`, waits in the shared set: the set holds
exactly this entry for it, no instance has claimed it, and `k` jobs have been
submitted for it so far. -/
def Waiting (id : String) (due k : Nat) (w : Fleet) : Prop :=
  w.store.filter (fun x => x.1 = id) = [(id, due)] ∧ claimedFor id w = 0 ∧
    jobsFor id w.pushed = k

/-- The trigger `id` has been claimed: its entry has left the shared set and is
held by exactly one instance, which has not fired it yet. -/
def Claimed (id : String) (k : Nat) (w : Fleet) : Prop :=
  w.store.filter (fun x => x.1 = id) = [] ∧ claimedFor id w = 1 ∧ jobsFor id w.pushed = k

/-- The trigger `id` has fired: one more job has been submitted for it, no
instance holds an entry of it, and the shared set holds at most an entry for a
time after `now`. -/
def Fired (id : String) (now k : Nat) (w : Fleet) : Prop :=
  (∀ e ∈ w.store.filter (fun x => x.1 = id), now < e.2) ∧ claimedFor id w = 0 ∧
    jobsFor id w.pushed = k + 1

/-- A cron trigger. -/
def everyMinute : Trigger :=
  { id := "t1", kind := .cron, worker := "echo", payload := [104, 105] }

/-- A fleet before any claim: the trigger `t1` is due at 100, `t0` at 500. -/
def fleet0 : Fleet :=
  { store := [("t0", 500), ("t1", 100)], pendingA := [], pendingB := [], pushed := [] }

end scheduler

/-!
## Go's `net/url`

`checkRedirectParam` relies on `url.Parse` and `(*URL).String` of Go's standard
library.  The handlers below take these two functions as a parameter (`NetURL`),
so that statements about every redirect hold for whatever the library does;
`url.std` is a byte-level model of the library (as of Go 1.8, the release the
repository was written against), used to evaluate the handlers on concrete
redirects.  A Go string is a sequence of bytes, modelled as a list of numbers
below 256.
-/

namespace url

/-- A Go string: its bytes. -/
abbrev Str := List Nat

/-- The bytes of an ASCII literal. -/
def ascii (s : String) : Str := s.data.map Char.toNat

/-- Embeds `strings.Index(s, sep)`: position of the first occurrence of `sep` in `s`
(`none` is -1). -/
def index (sep : Str) : Str → Option Nat
  | [] => if sep = [] then some 0 else none
  | c :: cs => if sep.isPrefixOf (c :: cs) then some 0 else (index sep cs).map (· + 1)

/-- Embeds `strings.LastIndex(s, string(c))` for a single byte `c`. -/
def lastIndexByte (c : Nat) : Str → Option Nat
  | [] => none
  | x :: xs =>
    match lastIndexByte c xs with
    | some i => some (i + 1)
    | none => if x = c then some 0 else none

/-- Embeds `strings.ToLower` on ASCII bytes. -/
def toLower (s : Str) : Str := s.map fun c => if 65 ≤ c ∧ c ≤ 90 then c + 32 else c

/-- The escaping modes of `net/url`. -/
inductive encoding where
  | encodePath
  | encodePathSegment
  | encodeHost
  | encodeZone
  | encodeUserPassword
  | encodeQueryComponent
  | encodeFragment
deriving DecidableEq, Repr

open encoding

/-- Embeds `ishex(c)`. -/
def ishex (c : Nat) : Bool :=
  (48 ≤ c && c ≤ 57) || (97 ≤ c && c ≤ 102) || (65 ≤ c && c ≤ 70)

/-- Embeds `unhex(c)`. -/
def unhex (c : Nat) : Nat :=
  if 48 ≤ c ∧ c ≤ 57 then c - 48
  else if 97 ≤ c ∧ c ≤ 102 then c - 97 + 10
  else if 65 ≤ c ∧ c ≤ 70 then c - 65 + 10
  else 0

/-- Embeds `shouldEscape(c, mode)`: whether the byte must be escaped when it appears in
the given part of a URL (RFC 3986). -/
def shouldEscape (c : Nat) (mode : encoding) : Bool :=
  -- unreserved characters (alphanum)
  if (65 ≤ c ∧ c ≤ 90) ∨ (97 ≤ c ∧ c ≤ 122) ∨ (48 ≤ c ∧ c ≤ 57) then false
  -- host: sub-delims, ':', '[', ']', '<', '>', '"'
  else if (mode = encodeHost ∨ mode = encodeZone) ∧
      c ∈ [33, 36, 38, 39, 40, 41, 42, 43, 44, 59, 61, 58, 91, 93, 60, 62, 34] then false
  -- unreserved characters (mark): '-', '_', '.', '~'
  else if c ∈ [45, 95, 46, 126] then false
  -- reserved characters: '$', '&', '+', ',', '/', ':', ';', '=', '?', '@'
  else if c ∈ [36, 38, 43, 44, 47, 58, 59, 61, 63, 64] then
    match mode with
    | encodePath => c = 63
    | encodePathSegment => c = 47 ∨ c = 59 ∨ c = 44 ∨ c = 63
    | encodeUserPassword => c = 64 ∨ c = 47 ∨ c = 63 ∨ c = 58
    | encodeQueryComponent => true
    | encodeFragment => false
    | _ => true
  else true

/-- First loop of `unescape(s, mode)`: checks that the `%` escapes are well
formed and allowed in this part of the URL; `none` when they are. -/
def unescapeCheck (mode : encoding) : Str → Option String
  | [] => none
  | 37 :: h1 :: h2 :: rest =>
    if !ishex h1 || !ishex h2 then some "invalid URL escape"
    else if mode = encodeHost ∧ unhex h1 < 8 ∧ [37, h1, h2] ≠ [37, 50, 53] then
      some "invalid URL escape"
    else if mode = encodeZone ∧ [37, h1, h2] ≠ [37, 50, 53] ∧ unhex h1 * 16 + unhex h2 ≠ 32 ∧
        shouldEscape (unhex h1 * 16 + unhex h2) encodeHost then
      some "invalid URL escape"
    else unescapeCheck mode rest
  | 37 :: _ => some "invalid URL escape"
  | 43 :: rest => unescapeCheck mode rest
  | c :: rest =>
    if (mode = encodeHost ∨ mode = encodeZone) ∧ c < 128 ∧ shouldEscape c encodeHost then
      some "invalid character in host name"
    else unescapeCheck mode rest

/-- Second loop of `unescape(s, mode)`: decodes the escapes. -/
def unescapeDecode (mode : encoding) : Str → Str
  | [] => []
  | 37 :: h1 :: h2 :: rest => (unhex h1 * 16 + unhex h2) :: unescapeDecode mode rest
  | 43 :: rest => (if mode = encodeQueryComponent then 32 else 43) :: unescapeDecode mode rest
  | c :: rest => c :: unescapeDecode mode rest

/-- Embeds `unescape(s, mode)`. -/
def unescape (s : Str) (mode : encoding) : Except String Str :=
  match unescapeCheck mode s with
  | some err => .error err
  | none => .ok (unescapeDecode mode s)

/-- The digit `"0123456789ABCDEF"[n]`. -/
def hexDigit (n : Nat) : Nat := if n < 10 then 48 + n else 55 + n

/-- Embeds `escape(s, mode)`. -/
def escape (s : Str) (mode : encoding) : Str :=
  s.flatMap fun c =>
    if c = 32 ∧ mode = encodeQueryComponent then [43]
    else if shouldEscape c mode then [37, hexDigit (c / 16), hexDigit (c % 16)]
    else [c]

/-- Embeds `Userinfo`: username and password of a URL. -/
structure Userinfo where
  username : Str
  password : Str
  passwordSet : Bool
deriving DecidableEq, Repr

/-- Embeds `(*Userinfo).String()`. -/
def Userinfo.String (u : Userinfo) : Str :=
  escape u.username encodeUserPassword ++
    (if u.passwordSet then 58 :: escape u.password encodeUserPassword else [])

/-- Embeds `url.URL`: a parsed URL. -/
structure URL where
  Scheme : Str
  Opaque : Str
  User : Option Userinfo
  Host : Str
  Path : Str
  RawPath : Str
  ForceQuery : Bool
  RawQuery : Str
  Fragment : Str
deriving DecidableEq, Repr

/-- The zero value `new(URL)`. -/
def URL.zero : URL :=
  { Scheme := [], Opaque := [], User := none, Host := [], Path := [], RawPath := [],
    ForceQuery := false, RawQuery := [], Fragment := [] }

/-- Loop of `getscheme(rawurl)`, at position `i` with `rest = rawurl[i:]`. -/
def getschemeLoop (rawurl : Str) : Nat → Str → Except String (Str × Str)
  | _, [] => .ok ([], rawurl)
  | i, c :: cs =>
    if (97 ≤ c ∧ c ≤ 122) ∨ (65 ≤ c ∧ c ≤ 90) then getschemeLoop rawurl (i + 1) cs
    else if (48 ≤ c ∧ c ≤ 57) ∨ c = 43 ∨ c = 45 ∨ c = 46 then
      if i = 0 then .ok ([], rawurl) else getschemeLoop rawurl (i + 1) cs
    else if c = 58 then
      if i = 0 then .error "missing protocol scheme"
      else .ok (rawurl.take i, rawurl.drop (i + 1))
    else .ok ([], rawurl)

/-- Embeds `getscheme(rawurl)`: splits a leading `scheme:` off. -/
def getscheme (rawurl : Str) : Except String (Str × Str) := getschemeLoop rawurl 0 rawurl

/-- Embeds `split(s, c, cutc)`: cuts `s` at the first occurrence of `c`. -/
def split (s c : Str) (cutc : Bool) : Str × Str :=
  match index c s with
  | none => (s, [])
  | some i => if cutc then (s.take i, s.drop (i + c.length)) else (s.take i, s.drop i)

/-- Embeds `validOptionalPort(port)`: empty, or a colon followed by digits. -/
def validOptionalPort (port : Str) : Bool :=
  match port with
  | [] => true
  | c :: ds => c = 58 && ds.all fun b => 48 ≤ b && b ≤ 57

/-- Embeds `parseHost(host)`. -/
def parseHost (host : Str) : Except String Str :=
  let plain : Except String Str := unescape host encodeHost
  if (ascii "[").isPrefixOf host then
    match lastIndexByte 93 host with
    | none => .error "missing ']' in host"
    | some i =>
      if !validOptionalPort (host.drop (i + 1)) then .error "invalid port after host"
      else
        match index (ascii "%25") (host.take i) with
        | some zone =>
          match unescape (host.take zone) encodeHost with
          | .error e => .error e
          | .ok host1 =>
            match unescape ((host.take i).drop zone) encodeZone with
            | .error e => .error e
            | .ok host2 =>
              match unescape (host.drop i) encodeHost with
              | .error e => .error e
              | .ok host3 => .ok (host1 ++ host2 ++ host3)
        | none => plain
  else plain

/-- Embeds `parseAuthority(authority)`: user information and host. -/
def parseAuthority (authority : Str) : Except String (Option Userinfo × Str) :=
  match lastIndexByte 64 authority with
  | none =>
    match parseHost authority with
    | .error e => .error e
    | .ok host => .ok (none, host)
  | some i =>
    match parseHost (authority.drop (i + 1)) with
    | .error e => .error e
    | .ok host =>
      let userinfo := authority.take i
      if index (ascii ":") userinfo = none then
        match unescape userinfo encodeUserPassword with
        | .error e => .error e
        | .ok name => .ok (some { username := name, password := [], passwordSet := false }, host)
      else
        match unescape (split userinfo (ascii ":") true).1 encodeUserPassword with
        | .error e => .error e
        | .ok name =>
          match unescape (split userinfo (ascii ":") true).2 encodeUserPassword with
          | .error e => .error e
          | .ok pass =>
            .ok (some { username := name, password := pass, passwordSet := true }, host)

/-- Embeds `(*URL).setPath(p)`: sets `Path` and, when the default escaping of the path
differs from `p`, `RawPath`. -/
def URL.setPath (u : URL) (p : Str) : Except String URL :=
  match unescape p encodePath with
  | .error e => .error e
  | .ok path =>
    if p = escape path encodePath then .ok { u with Path := path, RawPath := [] }
    else .ok { u with Path := path, RawPath := p }

/-- The test `colon >= 0 && (slash < 0 || colon < slash)` of `parse`, with
`colon` and `slash` the positions of the first `:` and the first `/`. -/
def firstSegmentHasColon (rest : Str) : Bool :=
  match index (ascii ":") rest, index (ascii "/") rest with
  | some colon, some slash => decide (colon < slash)
  | some _, none => true
  | none, _ => false

/-- The step of `parse` that cuts the query off: a lone trailing `?` sets
`ForceQuery`, otherwise what follows the first `?` is the raw query.  Returns
the URL and what is left to parse. -/
def parseQuery (u : URL) (rest : Str) : URL × Str :=
  if rest.getLast? = some 63 ∧ rest.count 63 = 1 then
    ({ u with ForceQuery := true }, rest.take (rest.length - 1))
  else
    ({ u with RawQuery := (split rest (ascii "?") true).2 }, (split rest (ascii "?") true).1)

/-- The steps of `parse` after the query has been cut off: an opaque rest, or
an authority and a path. -/
def parseHier (u : URL) (rest : Str) (viaRequest : Bool) : Except String URL :=
  if ¬ (ascii "/").isPrefixOf rest ∧ u.Scheme ≠ [] then
    -- rootless paths are opaque
    .ok { u with Opaque := rest }
  else if ¬ (ascii "/").isPrefixOf rest ∧ viaRequest then
    .error "invalid URI for request"
  else if ¬ (ascii "/").isPrefixOf rest ∧ firstSegmentHasColon rest then
    .error "first path segment in URL cannot contain colon"
  else if (u.Scheme ≠ [] ∨ (!viaRequest ∧ ¬ (ascii "///").isPrefixOf rest)) ∧
      (ascii "//").isPrefixOf rest then
    match parseAuthority (split (rest.drop 2) (ascii "/") false).1 with
    | .error e => .error e
    | .ok (user, host) =>
      URL.setPath { u with User := user, Host := host } (split (rest.drop 2) (ascii "/") false).2
  else URL.setPath u rest

/-- Embeds `parse(rawurl, viaRequest)`, for a URL without its fragment. -/
def parse (rawurl : Str) (viaRequest : Bool) : Except String URL :=
  if rawurl = [] ∧ viaRequest then .error "empty url"
  else if rawurl = ascii "*" then .ok { URL.zero with Path := ascii "*" }
  else
    match getscheme rawurl with
    | .error e => .error e
    | .ok (scheme, rest) =>
      parseHier (parseQuery { URL.zero with Scheme := toLower scheme } rest).1
        (parseQuery { URL.zero with Scheme := toLower scheme } rest).2 viaRequest

/-- Embeds `url.Parse(rawurl)`: parses a URL, possibly relative, with its fragment. -/
def Parse (rawurl : Str) : Except String URL :=
  match parse (split rawurl (ascii "#") true).1 false with
  | .error e => .error e
  | .ok u =>
    if (split rawurl (ascii "#") true).2 = [] then .ok u
    else
      match unescape (split rawurl (ascii "#") true).2 encodeFragment with
      | .error e => .error e
      | .ok frag => .ok { u with Fragment := frag }

/-- Embeds `validEncodedPath(s)`: whether `s` is a valid encoded path. -/
def validEncodedPath (s : Str) : Bool :=
  s.all fun c =>
    if c ∈ [33, 36, 38, 39, 40, 41, 42, 43, 44, 59, 61, 58, 64] then true
    else if c = 91 ∨ c = 93 then true
    else if c = 37 then true
    else !shouldEscape c encodePath

/-- The test `err == nil && p == u.Path` of `EscapedPath`, for
`p, err := unescape(raw, encodePath)`. -/
def unescapesTo (raw path : Str) : Bool :=
  match unescape raw encodePath with
  | .ok p => decide (p = path)
  | .error _ => false

/-- The test of `String` for a relative path whose first segment has a colon:
`i := strings.IndexByte(path, ':'); i > -1 && strings.IndexByte(path[:i], '/') == -1`. -/
def colonInFirstSegment (path : Str) : Bool :=
  match index (ascii ":") path with
  | some i => decide (index (ascii "/") (path.take i) = none)
  | none => false

/-- Embeds `(*URL).EscapedPath()`. -/
def URL.EscapedPath (u : URL) : Str :=
  if u.RawPath ≠ [] ∧ validEncodedPath u.RawPath ∧ unescapesTo u.RawPath u.Path then u.RawPath
  else if u.Path = ascii "*" then ascii "*"
  else escape u.Path encodePath

/-- The part of `(*URL).String()` written before the fragment. -/
def URL.stringNoFragment (u : URL) : Str :=
  let scheme : Str := if u.Scheme ≠ [] then u.Scheme ++ [58] else []
  let body : Str :=
    if u.Opaque ≠ [] then scheme ++ u.Opaque
    else
      let auth : Str :=
        if u.Scheme ≠ [] ∨ u.Host ≠ [] ∨ u.User ≠ none then
          ascii "//" ++
            (match u.User with
              | some ui => ui.String ++ [64]
              | none => []) ++
            (if u.Host ≠ [] then escape u.Host encodeHost else [])
        else []
      let path := u.EscapedPath
      let buf1 := scheme ++ auth
      let buf2 :=
        if path ≠ [] ∧ path.head? ≠ some 47 ∧ u.Host ≠ [] then buf1 ++ [47] else buf1
      let buf3 :=
        if buf2 = [] ∧ colonInFirstSegment path then buf2 ++ ascii "./" else buf2
      buf3 ++ path
  if u.ForceQuery ∨ u.RawQuery ≠ [] then body ++ [63] ++ u.RawQuery else body

/-- Embeds `(*URL).String()`: reassembles the URL into a string. -/
def URL.String (u : URL) : Str :=
  if u.Fragment ≠ [] then u.stringNoFragment ++ [35] ++ escape u.Fragment encodeFragment
  else u.stringNoFragment

/-- Embeds `url.QueryEscape(s)`: escapes the string so that it can be placed inside
a URL query. -/
def QueryEscape (s : Str) : Str := escape s encodeQueryComponent

/-- The functions of `net/url` that the handlers use. -/
structure NetURL where
  /-- Embeds `url.Parse` -/
  Parse : Str → Except String URL
  /-- Embeds `(*URL).String` -/
  URLString : URL → Str
  /-- Embeds `url.QueryEscape` -/
  QueryEscape : Str → Str

/-- Go's `net/url`. -/
def std : NetURL := { Parse := Parse, URLString := URL.String, QueryEscape := QueryEscape }

end url

/-!
## Go's `encoding/hex`

`register` decodes the register token with `hex.DecodeString` of Go's standard
library.  As for `net/url`, the handler takes the function as a parameter and
`hex.DecodeString` below is a model of the library (as of Go 1.8).
-/

namespace hex

open url

/-- Embeds `fromHexChar(c)`: the value of a hexadecimal digit, `none` when the
byte is not one. -/
def fromHexChar (c : Nat) : Option Nat :=
  if 48 ≤ c ∧ c ≤ 57 then some (c - 48)
  else if 97 ≤ c ∧ c ≤ 102 then some (c - 97 + 10)
  else if 65 ≤ c ∧ c ≤ 70 then some (c - 65 + 10)
  else none

/-- Embeds `strconv.IsPrint(r)` for a rune up to U+00FF, the runes a byte
converts to: the printable ASCII characters, and the Latin-1 characters from
U+00A1 on except the soft hyphen U+00AD. -/
def IsPrint (r : Nat) : Bool :=
  if 32 ≤ r ∧ r ≤ 126 then true
  else if 161 ≤ r ∧ r ≤ 255 then r ≠ 173
  else false

/-- An upper-case hexadecimal digit, as in `"0123456789ABCDEF"[n]`. -/
def udigit (n : Nat) : Char :=
  if n < 10 then Char.ofNat (48 + n) else Char.ofNat (55 + n)

/-- Embeds the verb `%#U` of package `fmt` for the rune of a byte: `U+` and the code
point on four upper-case hexadecimal digits, followed by the quoted character
when it is printable. -/
def fmtUnicode (b : Nat) : String :=
  "U+00" ++ String.mk [udigit (b / 16 % 16), udigit (b % 16)] ++
    (if IsPrint b then " " ++ String.mk [Char.ofNat 39, Char.ofNat b, Char.ofNat 39] else "")

/-- Embeds `InvalidByteError(b).Error()`:
`fmt.Sprintf("encoding/hex: invalid byte: %#U", rune(b))`. -/
def InvalidByteError (b : Nat) : String :=
  "encoding/hex: invalid byte: " ++ fmtUnicode b

/-- The loop of `hex.Decode` over the pairs of digits. -/
def decodePairs : Str → Except String Str
  | a :: b :: rest =>
    match fromHexChar a with
    | none => .error (InvalidByteError a)
    | some x =>
      match fromHexChar b with
      | none => .error (InvalidByteError b)
      | some y =>
        match decodePairs rest with
        | .error e => .error e
        | .ok bytes => .ok ((x * 16 + y) :: bytes)
  | _ => .ok []

/-- Embeds `hex.DecodeString(s)`: the bytes represented by the hexadecimal string;
a string of odd length is an error, and so is a byte that is not a hexadecimal
digit. -/
def DecodeString (s : Str) : Except String Str :=
  if s.length % 2 = 1 then .error "encoding/hex: odd length hex string"
  else decodePairs s

end hex

/-!
## Package `auth` (`web/auth/auth.go`)

A handler of the source takes the echo context, calls collaborators, sets
cookies on the response and answers (or returns an error, which the router turns
into the response).  Here a handler is a function of the context and of the
results of its collaborators; it returns the ordered list of the effects it
performed together with its reply.
-/

namespace auth

open url

/-- The Go errors a handler can return. -/
inductive Error where
  /-- Embeds `echo.NewHTTPError(code, message)` -/
  | HTTPError (code : Nat) (message : String)
  /-- an error of a collaborator (instance, session store, ...) -/
  | other (message : String)
  /-- the JSON-API error built by package `web/jsonapi` from a status and the
  error it reports -/
  | JSONAPI (status : Nat) (cause : Error)
deriving DecidableEq, Repr

/-- Modelled from the spec: `jsonapi.NewError(status, err)` of package
`web/jsonapi`, which is not among these files (the "JSON-API serialization" of the
spec): the JSON-API error with the given status. -/
def jsonapi.NewError (status : Nat) (err : Error) : Error := .JSONAPI status err

/-- Modelled from the spec: `jsonapi.BadRequest(err)` of package `web/jsonapi`,
which is not among these files: the JSON-API error with status 400 Bad Request,
as its name says. -/
def jsonapi.BadRequest (err : Error) : Error := .JSONAPI 400 err

/-- Modelled from the spec: the type `Client` (declared in a file of package
`auth` that is not among these files): an OAuth client document, with the fields
the handlers and the tests use. -/
structure Client where
  CouchID : Str
  ClientID : Str
  ClientSecret : Str
  ClientName : Str
  RedirectURIs : List Str
deriving DecidableEq, Repr

/-- Modelled from the spec: the type `ClientRegistrationError` (not among these
files), the error of `client.Create`; the handler uses its field `Code`. -/
structure ClientRegistrationError where
  Code : Nat
  Error : String
  Description : String
deriving DecidableEq, Repr

/-- Modelled from the spec: the type `AccessCode` (not among these files), an
access-code document made by `CreateAccessCode(instance, clientID, scope)`;
`Code` is its document id. -/
structure AccessCode where
  Code : Str
  ClientID : Str
  Scope : Str
deriving DecidableEq, Repr

/-- Modelled from the spec: the documents of the instance in "the underlying
document store (CouchDB)" (package `couchdb`, which is not among these files), an
external collaborator with `Get` and `Delete` by document id: the registered
OAuth clients and the access codes. -/
structure Store where
  clients : List Client
  codes : List AccessCode
deriving DecidableEq, Repr

/-- Modelled from the spec: `couchdb.GetDoc(instance, ClientDocType, id, client)`,
the client document with this id; `none` stands for any error, which the
handlers do not tell apart. -/
def Store.GetClient (store : Store) (id : Str) : Option Client :=
  store.clients.find? fun c => c.CouchID = id

/-- Modelled from the spec: `couchdb.GetDoc(instance, AccessCodeDocType, code,
accessCode)`, the access-code document with this id; `none` stands for any
error. -/
def Store.GetAccessCode (store : Store) (code : Str) : Option AccessCode :=
  store.codes.find? fun a => a.Code = code

/-- Modelled from the spec: the store after a successful
`couchdb.DeleteDoc(instance, accessCode)`, which holds no document with that id
any more. -/
def Store.DeleteAccessCode (store : Store) (accessCode : AccessCode) : Store :=
  { store with codes := store.codes.filter fun a => a.Code ≠ accessCode.Code }

/-- The audiences of a JWT: `RefreshTokenAudience` and `AccessTokenAudience`. -/
inductive Audience where
  | RefreshTokenAudience
  | AccessTokenAudience
deriving DecidableEq, Repr

/-- A session of the instance. -/
structure Session where
  id : Str
deriving DecidableEq, Repr

/-- An `http.Cookie`. -/
structure Cookie where
  name : String
  value : Str
deriving DecidableEq, Repr

/-- The `*instance.Instance` of a request: its domain and the results of the
methods the handlers call. -/
structure Instance where
  /-- Embeds `instance.Domain` -/
  Domain : Str
  /-- Embeds `instance.SubDomain(slug)` -/
  SubDomain : String → Str
  /-- Embeds `instance.CheckPassphrase(passphrase)`; `none` is a nil error -/
  CheckPassphrase : Str → Option Error
  /-- Embeds `instance.RegisterPassphrase(passphrase, registerToken)` -/
  RegisterPassphrase : Str → Str → Option Error
  /-- Embeds `instance.PageURL(path)` -/
  PageURL : Str → Str

/-- The `echo.Context` of a request, as far as the handlers read it. -/
structure Context where
  /-- Embeds `c.FormValue(name)`; empty when the parameter is absent -/
  FormValue : String → Str
  /-- Embeds `middlewares.GetInstance(c)` -/
  GetInstance : Instance
  /-- Embeds `GetSession(c)` -/
  GetSession : Except Error Session
  /-- Embeds `c.QueryParam(name)`; empty when the parameter is absent -/
  QueryParam : String → Str
  /-- Embeds `c.Request().Header.Get(name)`; empty when the header is absent -/
  Header : String → Str
  /-- Embeds `c.Request().URL.String()` -/
  RequestURL : Str
  /-- result of `c.Bind(client)`: the client decoded from the body -/
  Bind : Except Error Client
  /-- Embeds `c.Get("csrf")` -/
  csrf : Str

/-- What the handlers use from outside the package. -/
structure Env where
  /-- Go's `net/url` -/
  net : NetURL
  /-- Embeds `apps.HomeSlug` -/
  HomeSlug : String
  /-- result of `NewSession(instance)` -/
  NewSession : Instance → Except Error Session
  /-- result of `session.ToCookie()` -/
  ToCookie : Session → Except Error Cookie
  /-- Embeds `apps.OnboardingSlug` -/
  OnboardingSlug : String
  /-- Go's `hex.DecodeString` -/
  DecodeString : Str → Except Error Str
  /-- result of `client.Create(instance)`: the client as created, or the
  registration error -/
  CreateClient : Client → Except ClientRegistrationError Client
  /-- Embeds `client.AcceptRedirectURI(redirectURI)` -/
  AcceptRedirectURI : Client → Str → Bool
  /-- result of `client.CreateJWT(instance, audience, scope)` -/
  CreateJWT : Client → Audience → Str → Except Error Str
  /-- result of `client.ValidRefreshToken(instance, token)`: the scope of the
  claims, `none` when the token is not valid -/
  ValidRefreshToken : Client → Str → Option Str
  /-- the error of `couchdb.DeleteDoc(instance, accessCode)` when the store fails
  to delete the document; `none` when it deletes it -/
  DeleteDocError : Option Error

/-- A value of an `echo.Map` handed to a template. -/
inductive Value where
  | bool (b : Bool)
  | str (s : Str)
  | text (s : String)
  | strs (l : List Str)
  | client (c : Client)
deriving DecidableEq, Repr

/-- The type `accessTokenReponse`. -/
structure accessTokenReponse where
  /-- the field `Type`, JSON `token_type` -/
  TokenType : String
  Scope : Str
  Access : Str
  Refresh : Str
deriving DecidableEq, Repr

/-- The value handed to `c.JSON`. -/
inductive Body where
  /-- an `echo.Map` -/
  | map (fields : List (String × Value))
  | client (c : Client)
  | registrationError (err : ClientRegistrationError)
  | token (out : accessTokenReponse)
deriving DecidableEq, Repr

/-- What a handler did before replying, in order. -/
inductive Effect where
  | CheckPassphrase (passphrase : Str)
  | NewSession
  | ToCookie (session : Session)
  | SetCookie (cookie : Cookie)
  | RegisterPassphrase (passphrase registerToken : Str)
  | Bind
  | CreateClient (client : Client)
  /-- a `couchdb.GetDoc` of a client document -/
  | GetClient (id : Str)
  /-- a `couchdb.GetDoc` of an access-code document -/
  | GetAccessCode (code : Str)
  /-- a `couchdb.DeleteDoc` of an access-code document -/
  | DeleteAccessCode (code : Str)
  | CreateJWT (clientID : Str) (audience : Audience) (scope : Str)
  | ValidRefreshToken (clientID : Str) (token : Str)
  /-- a `log.Errorf` -/
  | LogError (message : String) (err : Error)
deriving DecidableEq, Repr

/-- The reply of a handler. -/
inductive Reply where
  /-- Embeds `c.Redirect(code, url)` -/
  | Redirect (code : Nat) (location : Str)
  /-- Embeds `c.Render(code, name, data)` -/
  | Render (code : Nat) (name : String) (data : List (String × Value))
  /-- Embeds `c.JSON(code, body)` -/
  | JSON (code : Nat) (body : Body)
  /-- the handler returned this error -/
  | Err (err : Error)
deriving DecidableEq, Repr

/-- Outcome of a handler. -/
structure Result where
  effects : List Effect
  reply : Reply
deriving DecidableEq, Repr

/-- The cookies set on the response. -/
def Result.cookies (r : Result) : List Cookie :=
  r.effects.filterMap fun e =>
    match e with
    | .SetCookie ck => some ck
    | _ => none

/-- Embeds `http.StatusOK`. -/
abbrev StatusOK : Nat := 200

/-- Embeds `http.StatusSeeOther`. -/
abbrev StatusSeeOther : Nat := 303

/-- Embeds `http.StatusBadRequest`. -/
abbrev StatusBadRequest : Nat := 400

/-- Embeds `http.StatusUnauthorized`. -/
abbrev StatusUnauthorized : Nat := 401

/-- Embeds `http.StatusCreated`. -/
abbrev StatusCreated : Nat := 201

/-- Embeds `http.StatusInternalServerError`. -/
abbrev StatusInternalServerError : Nat := 500

/-- Embeds `strings.SplitN(s, sep, n)` for a non-empty `sep` and `n ≥ 0`: at most `n`
substrings, the last one being the unsplit remainder. -/
def SplitN (s sep : Str) : Nat → List Str
  | 0 => []
  | 1 => [s]
  | n + 2 =>
    match index sep s with
    | none => [s]
    | some m => s.take m :: SplitN (s.drop (m + sep.length)) sep (n + 1)

/-- Embeds `IsLoggedIn(c)`: true if the context has a valid session cookie. -/
def IsLoggedIn (c : Context) : Bool :=
  match c.GetSession with
  | .ok _ => true
  | .error _ => false

/-- The first lines of `checkRedirectParam`: the `redirect` form value, or the
default when it is empty. -/
def redirectParam (c : Context) (defaultRedirect : Str) : Str :=
  if c.FormValue "redirect" = [] then defaultRedirect else c.FormValue "redirect"

/-- The host test of `checkRedirectParam`:
`len(parts) != 2 || parts[1] != instance.Domain || parts[0] == ""`
for `parts := strings.SplitN(u.Host, ".", 2)`. -/
def notSubdomain (host domain : Str) : Bool :=
  match SplitN host (ascii ".") 2 with
  | [p0, p1] => p1 ≠ domain || p0 = []
  | _ => true

/-- A host that is a sub-domain of the instance: one non-empty label without a
dot, a dot, and the domain. -/
def IsSubdomain (host domain : Str) : Prop :=
  ∃ label : Str, label ≠ [] ∧ 46 ∉ label ∧ host = label ++ ascii "." ++ domain

/-- Embeds `checkRedirectParam(c, defaultRedirect)`: returns the optional redirect
query parameter, checked; the second component is the error (`none` is nil). -/
def checkRedirectParam (env : Env) (c : Context) (defaultRedirect : Str) : Str × Option Error :=
  let redirect := redirectParam c defaultRedirect
  match env.net.Parse redirect with
  | .error _ => ([], some (.HTTPError StatusBadRequest "bad url: could not parse"))
  | .ok u =>
    if u.Scheme ≠ ascii "http" ∧ u.Scheme ≠ ascii "https" then
      ([], some (.HTTPError StatusBadRequest "bad url: bad scheme"))
    else
      let inst := c.GetInstance
      if u.Host ≠ inst.Domain ∧ notSubdomain u.Host inst.Domain then
        ([], some (.HTTPError StatusBadRequest "bad url: should be subdomain"))
      else
        -- the fragment is always overriden: we put an empty one
        (env.net.URLString { u with Fragment := [] } ++ ascii "#", none)

/-- Embeds `redirectSuccessLogin(c, redirect)`. -/
def redirectSuccessLogin (env : Env) (c : Context) (redirect : Str) : Result :=
  match env.NewSession c.GetInstance with
  | .error err => { effects := [.NewSession], reply := .Err err }
  | .ok session =>
    match env.ToCookie session with
    | .error err => { effects := [.NewSession, .ToCookie session], reply := .Err err }
    | .ok cookie =>
      { effects := [.NewSession, .ToCookie session, .SetCookie cookie],
        reply := .Redirect StatusSeeOther redirect }

/-- Embeds `loginForm(c)`: `GET /auth/login`. -/
def loginForm (env : Env) (c : Context) : Result :=
  match checkRedirectParam env c (c.GetInstance.SubDomain env.HomeSlug) with
  | (_, some err) => { effects := [], reply := .Err err }
  | (redirect, none) =>
    if IsLoggedIn c then { effects := [], reply := .Redirect StatusSeeOther redirect }
    else
      { effects := [],
        reply := .Render StatusOK "login.html"
          [("InvalidPassphrase", .bool false), ("Redirect", .str redirect)] }

/-- Embeds `login(c)`: `POST /auth/login`. -/
def login (env : Env) (c : Context) : Result :=
  match checkRedirectParam env c (c.GetInstance.SubDomain env.HomeSlug) with
  | (_, some err) => { effects := [], reply := .Err err }
  | (redirect, none) =>
    if IsLoggedIn c then { effects := [], reply := .Redirect StatusSeeOther redirect }
    else
      let passphrase := c.FormValue "passphrase"
      match c.GetInstance.CheckPassphrase passphrase with
      | none =>
        let r := redirectSuccessLogin env c redirect
        { r with effects := .CheckPassphrase passphrase :: r.effects }
      | some _ =>
        { effects := [.CheckPassphrase passphrase],
          reply := .Render StatusUnauthorized "login.html"
            [("InvalidPassphrase", .bool true), ("Redirect", .str redirect)] }

/-- Embeds `register(c)`: `POST /register`. -/
def register (env : Env) (c : Context) : Result :=
  let inst := c.GetInstance
  match env.DecodeString (c.FormValue "registerToken") with
  | .error err => { effects := [], reply := .Err (jsonapi.NewError StatusBadRequest err) }
  | .ok registerToken =>
    let passphrase := c.FormValue "passphrase"
    match inst.RegisterPassphrase passphrase registerToken with
    | some err =>
      { effects := [.RegisterPassphrase passphrase registerToken],
        reply := .Err (jsonapi.BadRequest err) }
    | none =>
      let r := redirectSuccessLogin env c (inst.SubDomain env.OnboardingSlug)
      { r with effects := .RegisterPassphrase passphrase registerToken :: r.effects }

/-- Embeds `strings.Split(s, sep)` for a non-empty `sep`: all the substrings between
the separators (a string of length `n` has at most `n + 1` of them). -/
def Split (s sep : Str) : List Str := SplitN s sep (s.length + 1)

/-- The first lines of `registerClient`: the `Content-Type` header, cut at its
first `;` when it is not empty (`strings.Split(contentType, ";")[0]`). -/
def contentType (c : Context) : Str :=
  if c.Header "Content-Type" ≠ [] then (Split (c.Header "Content-Type") (ascii ";")).headD []
  else c.Header "Content-Type"

/-- Embeds `registerClient(c)`: `POST /auth/register`. -/
def registerClient (env : Env) (c : Context) : Result :=
  if contentType c ≠ ascii "application/json" then
    { effects := [],
      reply := .JSON StatusBadRequest (.map [("error", .text "bad_content_type")]) }
  else
    match c.Bind with
    | .error err => { effects := [.Bind], reply := .Err err }
    | .ok client =>
      match env.CreateClient client with
      | .error err =>
        { effects := [.Bind, .CreateClient client], reply := .JSON err.Code (.registrationError err) }
      | .ok created =>
        { effects := [.Bind, .CreateClient client], reply := .JSON StatusCreated (.client created) }

/-- The type `authorizeParams`; `client` is the zero client until
`checkAuthorizeParams` has read it from the store. -/
structure authorizeParams where
  inst : Instance
  state : Str
  clientID : Str
  redirectURI : Str
  scope : Str
  client : Client

/-- The zero value of `Client`. -/
def Client.zero : Client :=
  { CouchID := [], ClientID := [], ClientSecret := [], ClientName := [], RedirectURIs := [] }

/-- The page `c.Render(code, "error.html", echo.Map{"Error": message})`. -/
def errorPage (code : Nat) (message : String) : Reply :=
  .Render code "error.html" [("Error", .text message)]

/-- What `checkAuthorizeParams` returns and does.  It returns either
`true, c.Render(...)`, having rendered an error page, or `false, nil`; in both
cases it has made some store accesses and may have filled in the client of the
parameters. -/
inductive Checked where
  /-- the result `true, c.Render(...)` -/
  | failed (page : Reply) (effects : List Effect) (params : authorizeParams)
  /-- the result `false, nil` -/
  | passed (effects : List Effect) (params : authorizeParams)

/-- The first result of `checkAuthorizeParams`. -/
def Checked.hasError : Checked → Bool
  | .failed _ _ _ => true
  | .passed _ _ => false

/-- The page `checkAuthorizeParams` has rendered, if any. -/
def Checked.page : Checked → Option Reply
  | .failed page _ _ => some page
  | .passed _ _ => none

/-- The store accesses `checkAuthorizeParams` has made. -/
def Checked.effects : Checked → List Effect
  | .failed _ effects _ => effects
  | .passed effects _ => effects

/-- The parameters as `checkAuthorizeParams` leaves them. -/
def Checked.params : Checked → authorizeParams
  | .failed _ _ params => params
  | .passed _ params => params

/-- Embeds `checkAuthorizeParams(c, params)`. -/
def checkAuthorizeParams (env : Env) (store : Store) (params : authorizeParams) : Checked :=
  if params.state = [] then
    .failed (errorPage StatusBadRequest "The state parameter is mandatory") [] params
  else if params.clientID = [] then
    .failed (errorPage StatusBadRequest "The client_id parameter is mandatory") [] params
  else if params.redirectURI = [] then
    .failed (errorPage StatusBadRequest "The redirect_uri parameter is mandatory") [] params
  else if params.scope = [] then
    .failed (errorPage StatusBadRequest "The scope parameter is mandatory") [] params
  else
    match store.GetClient params.clientID with
    | none =>
      .failed (errorPage StatusBadRequest "The client must be registered")
        [.GetClient params.clientID] params
    | some client =>
      if !env.AcceptRedirectURI client params.redirectURI then
        .failed
          (errorPage StatusBadRequest "The redirect_uri parameter doesn't match the registered ones")
          [.GetClient params.clientID] { params with client := client }
      else .passed [.GetClient params.clientID] { params with client := client }

/-- Embeds `authorizeForm(c)`: `GET /auth/authorize`. -/
def authorizeForm (env : Env) (c : Context) (store : Store) : Result :=
  let params : authorizeParams :=
    { inst := c.GetInstance
      state := c.QueryParam "state"
      clientID := c.QueryParam "client_id"
      redirectURI := c.QueryParam "redirect_uri"
      scope := c.QueryParam "scope"
      client := Client.zero }
  if c.QueryParam "response_type" ≠ ascii "code" then
    { effects := [], reply := errorPage StatusBadRequest "Invalid response type" }
  else
    match checkAuthorizeParams env store params with
    | .failed page effects _ => { effects := effects, reply := page }
    | .passed effects params =>
      if !IsLoggedIn c then
        -- the query `url.Values{"redirect": {...}}.Encode()`
        let query := ascii "redirect=" ++ env.net.QueryEscape (params.inst.PageURL c.RequestURL)
        let u : URL :=
          { URL.zero with
            Scheme := ascii "https", Host := params.inst.Domain,
            Path := ascii "/auth/login", RawQuery := query }
        { effects := effects, reply := .Redirect StatusSeeOther (env.net.URLString u) }
      else
        -- TODO Trust On First Use
        let permissions := Split params.scope (ascii " ")
        let client := { params.client with ClientID := params.client.CouchID }
        { effects := effects,
          reply := .Render StatusOK "authorize.html"
            [("Client", .client client),
              ("State", .str params.state),
              ("RedirectURI", .str params.redirectURI),
              ("Scope", .str params.scope),
              ("Permissions", .strs permissions),
              ("CSRF", .str c.csrf)] }

/-- Embeds `subtle.ConstantTimeCompare(x, y)`: 1 if the two slices have equal
contents and 0 otherwise. -/
def ConstantTimeCompare (x y : Str) : Nat := if x = y then 1 else 0

/-- The answer `c.JSON(code, echo.Map{"error": message})`. -/
def jsonError (code : Nat) (message : String) : Reply :=
  .JSON code (.map [("error", .text message)])

/-- The last lines of `accessToken`, after the grant has been handled: the
access token is created and the response sent. -/
def sendAccessToken (env : Env) (client : Client) (out : accessTokenReponse)
    (effects : List Effect) (store : Store) : Result × Store :=
  match env.CreateJWT client .AccessTokenAudience out.Scope with
  | .error _ =>
    ({ effects := effects ++ [.CreateJWT client.CouchID .AccessTokenAudience out.Scope],
       reply := jsonError StatusInternalServerError "Can't generate access token" }, store)
  | .ok access =>
    ({ effects := effects ++ [.CreateJWT client.CouchID .AccessTokenAudience out.Scope],
       reply := .JSON StatusOK (.token { out with Access := access }) }, store)

/-- The case `"authorization_code"` of `accessToken`, followed by the last
lines of the handler. -/
def authorizationCodeGrant (env : Env) (c : Context) (client : Client)
    (out : accessTokenReponse) (effects : List Effect) (store : Store) : Result × Store :=
  let code := c.FormValue "code"
  if code = [] then
    ({ effects := effects, reply := jsonError StatusBadRequest "the code parameter is mandatory" },
      store)
  else
    match store.GetAccessCode code with
    | none =>
      ({ effects := effects ++ [.GetAccessCode code],
         reply := jsonError StatusBadRequest "invalid code" }, store)
    | some accessCode =>
      let out := { out with Scope := accessCode.Scope }
      match env.CreateJWT client .RefreshTokenAudience out.Scope with
      | .error _ =>
        ({ effects := effects ++
             [.GetAccessCode code, .CreateJWT client.CouchID .RefreshTokenAudience out.Scope],
           reply := jsonError StatusInternalServerError "Can't generate refresh token" }, store)
      | .ok refresh =>
        let out := { out with Refresh := refresh }
        -- Delete the access code, it can be used only once
        match env.DeleteDocError with
        | some err =>
          sendAccessToken env client out
            (effects ++
              [.GetAccessCode code, .CreateJWT client.CouchID .RefreshTokenAudience out.Scope,
                .DeleteAccessCode accessCode.Code,
                .LogError "[oauth] Failed to delete the access code: %s" err])
            store
        | none =>
          sendAccessToken env client out
            (effects ++
              [.GetAccessCode code, .CreateJWT client.CouchID .RefreshTokenAudience out.Scope,
                .DeleteAccessCode accessCode.Code])
            (store.DeleteAccessCode accessCode)

/-- The case `"refresh_token"` of `accessToken`, followed by the last lines of
the handler. -/
def refreshTokenGrant (env : Env) (c : Context) (client : Client)
    (out : accessTokenReponse) (effects : List Effect) (store : Store) : Result × Store :=
  match env.ValidRefreshToken client (c.FormValue "refresh_token") with
  | none =>
    ({ effects := effects ++ [.ValidRefreshToken client.CouchID (c.FormValue "refresh_token")],
       reply := jsonError StatusBadRequest "invalid refresh token" }, store)
  | some scope =>
    sendAccessToken env client { out with Scope := scope }
      (effects ++ [.ValidRefreshToken client.CouchID (c.FormValue "refresh_token")]) store

/-- Embeds `accessToken(c)`: `POST /auth/access_token`.  Returns the outcome and the
document store as the handler leaves it. -/
def accessToken (env : Env) (c : Context) (store : Store) : Result × Store :=
  let grant := c.FormValue "grant_type"
  let clientID := c.FormValue "client_id"
  let clientSecret := c.FormValue "client_secret"
  if grant = [] then
    ({ effects := [], reply := jsonError StatusBadRequest "the grant_type parameter is mandatory" },
      store)
  else if clientID = [] then
    ({ effects := [], reply := jsonError StatusBadRequest "the client_id parameter is mandatory" },
      store)
  else if clientSecret = [] then
    ({ effects := [],
       reply := jsonError StatusBadRequest "the client_secret parameter is mandatory" }, store)
  else
    match store.GetClient clientID with
    | none =>
      ({ effects := [.GetClient clientID],
         reply := jsonError StatusBadRequest "the client must be registered" }, store)
    | some client =>
      if ConstantTimeCompare clientSecret client.ClientSecret = 0 then
        ({ effects := [.GetClient clientID],
           reply := jsonError StatusBadRequest "invalid client_secret" }, store)
      else
        let out : accessTokenReponse := { TokenType := "bearer", Scope := [], Access := [], Refresh := [] }
        if grant = ascii "authorization_code" then
          authorizationCodeGrant env c client out [.GetClient clientID] store
        else if grant = ascii "refresh_token" then
          refreshTokenGrant env c client out [.GetClient clientID] store
        else
          ({ effects := [.GetClient clientID],
             reply := jsonError StatusBadRequest "invalid grant type" }, store)

/-- The request carries the credentials of the registered client `client`: the
three parameters are present, client_id names `client` in the store, and
client_secret is its stored secret. -/
def Authenticated (c : Context) (store : Store) (client : Client) : Prop :=
  c.FormValue "grant_type" ≠ [] ∧ c.FormValue "client_id" ≠ [] ∧
    c.FormValue "client_secret" ≠ [] ∧
    store.GetClient (c.FormValue "client_id") = some client ∧
    c.FormValue "client_secret" = client.ClientSecret

/-- The access-code document with the client id recorded inside it replaced by
`clientID`, if it is the document `code`. -/
def AccessCode.withClient (a : AccessCode) (code clientID : Str) : AccessCode :=
  if a.Code = code then { a with ClientID := clientID } else a

/-- The store after the client id recorded inside the access-code document
`code` has been replaced by `clientID`. -/
def Store.withCodeClient (store : Store) (code clientID : Str) : Store :=
  { store with codes := store.codes.map fun a => a.withClient code clientID }

/-! ### The instance and the requests of `auth_test.go` -/

/-- The domain of the test instance, `cozy.example.net`. -/
def domain : Str := ascii "cozy.example.net"

/-- The instance of the tests: its passphrase is `MyPassphrase`, and its
sub-domains are the ones the tests expect (`https://onboarding.cozy.example.net/`
for the slug `onboarding`). -/
def testInstance : Instance :=
  { Domain := domain
    SubDomain := fun slug => ascii "https://" ++ ascii slug ++ ascii "." ++ domain ++ ascii "/"
    CheckPassphrase := fun p =>
      if p = ascii "MyPassphrase" then none else some (.other "invalid passphrase")
    RegisterPassphrase := fun _ token =>
      if token = [222, 173, 190, 239] then none else some (.other "invalid register token")
    PageURL := fun path => ascii "https://" ++ domain ++ path }

/-- The client registered on the test instance. -/
def clientA : Client :=
  { CouchID := ascii "clientA", ClientID := [], ClientSecret := ascii "secretA",
    ClientName := ascii "cozy-test",
    RedirectURIs := [ascii "https://example.org/oauth/callback"] }

/-- A second client registered on the test instance. -/
def clientB : Client :=
  { CouchID := ascii "clientB", ClientID := [], ClientSecret := ascii "secretB",
    ClientName := ascii "other-app",
    RedirectURIs := [ascii "https://other.example.org/callback"] }

/-- The documents of the test instance: the two clients, and one access code
issued to the first of them. -/
def testStore : Store :=
  { clients := [clientA, clientB]
    codes := [{ Code := ascii "code1", ClientID := ascii "clientA", Scope := ascii "files:read" }] }

/-- A working session store with Go's `net/url`. -/
def testEnv : Env :=
  { net := url.std
    HomeSlug := "home"
    NewSession := fun _ => .ok { id := ascii "s1" }
    ToCookie := fun s => .ok { name := "cozysessid", value := s.id }
    OnboardingSlug := "onboarding"
    DecodeString := fun s =>
      match hex.DecodeString s with
      | .ok bytes => .ok bytes
      | .error e => .error (.other e)
    CreateClient := fun client =>
      if client.RedirectURIs = [] then
        .error { Code := 400, Error := "invalid_redirect_uri",
                 Description := "redirect_uris is mandatory" }
      else .ok { client with ClientID := ascii "generated-id", ClientSecret := ascii "generated" }
    AcceptRedirectURI := fun client uri => decide (uri ∈ client.RedirectURIs)
    CreateJWT := fun client audience scope =>
      .ok ((match audience with
        | .RefreshTokenAudience => ascii "refresh:"
        | .AccessTokenAudience => ascii "access:") ++ client.CouchID ++ ascii ":" ++ scope)
    ValidRefreshToken := fun client token =>
      if token = ascii "refresh:" ++ client.CouchID ++ ascii ":files:read" then
        some (ascii "files:read")
      else none
    DeleteDocError := none }

/-- The same with a session store that fails. -/
def brokenStoreEnv : Env :=
  { testEnv with NewSession := fun _ => .error (.other "session store unavailable") }

/-- An anonymous request to the test instance without parameters, header or
body. -/
def anonymous : Context :=
  { FormValue := fun _ => []
    GetInstance := testInstance
    GetSession := .error (.other "no session cookie")
    QueryParam := fun _ => []
    Header := fun _ => []
    RequestURL := ascii "/"
    Bind := .error (.other "EOF")
    csrf := [] }

/-- An anonymous request to the test instance with the given `redirect` and
`passphrase` parameters. -/
def request (redirect passphrase : String) : Context :=
  { anonymous with
    FormValue := fun name =>
      if name = "redirect" then ascii redirect
      else if name = "passphrase" then ascii passphrase
      else [] }

/-- An anonymous request with the given form values. -/
def formRequest (form : List (String × String)) : Context :=
  { anonymous with
    FormValue := fun name =>
      match form.find? fun kv => kv.1 = name with
      | some kv => ascii kv.2
      | none => [] }

/-- A request with the given query parameters, from a logged-in user or not. -/
def queryRequest (loggedIn : Bool) (query : List (String × String)) : Context :=
  { anonymous with
    GetSession := if loggedIn then .ok { id := ascii "s1" } else .error (.other "no session cookie")
    QueryParam := fun name =>
      match query.find? fun kv => kv.1 = name with
      | some kv => ascii kv.2
      | none => [] }

/-- A request to register the client `clientA`, with the given `Content-Type`
header. -/
def jsonRequest (contentType : String) : Context :=
  { anonymous with
    Bind := .ok { clientA with CouchID := [] }
    Header := fun name => if name = "Content-Type" then ascii contentType else [] }

/-- The session store works, the document store fails to delete. -/
def deleteFailsEnv : Env :=
  { testEnv with DeleteDocError := some (.other "conflict") }

/-- The session store and the document store work, no JWT can be created. -/
def jwtFailsEnv : Env :=
  { testEnv with CreateJWT := fun _ _ _ => .error (.other "no signing key") }

end auth

/-!
## Package `settings` (`web/settings/disk_usage.go`)
-/

namespace settings

/-- Go `error` values of this package, identified by their message. -/
abbrev Error := String

/-- The `echo.Context` of a request to `diskUsage`, with the results of the
collaborators the handler calls. -/
structure Context where
  /-- result of `permissions.Allow(c, permissions.GET, &result)`; `none` is nil -/
  Allow : Option Error
  /-- result of `middlewares.IsLoggedIn(c)` -/
  IsLoggedIn : Bool
  /-- result of `vfs.DiskUsage(instance)` -/
  DiskUsage : Except Error Int

/-- The type `apiDiskUsage`. -/
structure apiDiskUsage where
  Used : Int
deriving DecidableEq, Repr

/-- The collaborators a handler called, in order. -/
inductive Effect where
  | Allow
  | IsLoggedIn
  | DiskUsage
deriving DecidableEq, Repr

/-- The reply of the handler. -/
inductive Reply where
  /-- the answer `jsonapi.Data(c, code, &result, nil)` -/
  | Data (code : Nat) (result : apiDiskUsage)
  /-- the handler returned this error -/
  | Err (err : Error)
deriving DecidableEq, Repr

/-- Outcome of the handler. -/
structure Result where
  effects : List Effect
  reply : Reply
deriving DecidableEq, Repr

/-- Embeds `diskUsage(c)`: checks permissions, but also allows every request from
the logged-in user. -/
def diskUsage (c : Context) : Result :=
  let result : apiDiskUsage := { Used := 0 }
  let afterAllow (effects : List Effect) : Result :=
    match c.DiskUsage with
    | .error err => { effects := effects ++ [.DiskUsage], reply := .Err err }
    | .ok used =>
      { effects := effects ++ [.DiskUsage], reply := .Data 200 { result with Used := used } }
  match c.Allow with
  | some err =>
    if !c.IsLoggedIn then { effects := [.Allow, .IsLoggedIn], reply := .Err err }
    else afterAllow [.Allow, .IsLoggedIn]
  | none => afterAllow [.Allow]

end settings

/-!
## Package `client` (`client/apps.go`)

`readAppManifest` ranges over a channel fed by `request.ReadSSE`; the events
sent on the channel until it is closed are modelled as a list.
-/

namespace client

open url

/-- Go `error` values of this package. -/
inductive Error where
  /-- the error `errors.New(message)` -/
  | New (message : Str)
  /-- an error of a collaborator (the event reader, the JSON-API decoder) -/
  | other (message : String)
deriving DecidableEq, Repr

/-- The type `request.SSEEvent`: one server-sent event. -/
structure SSEEvent where
  Name : Str
  Data : Str
  Error : Option Error
deriving DecidableEq, Repr

/-- The type `AppManifest`: the JSON-API representation of an application (its
identity and the first attributes). -/
structure AppManifest where
  ID : Str
  Rev : Str
  Name : Str
  Slug : Str
  Source : Str
  State : Str
deriving DecidableEq, Repr

/-- The loop of `readAppManifest` over the events still to come, `lastevt` being
the last event seen: the error that ends the loop, or the last sent event. -/
def readLoop : Option SSEEvent → List SSEEvent → Except Error (Option SSEEvent)
  | lastevt, [] => .ok lastevt
  | _, evt :: rest =>
    match evt.Error with
    | some err => .error err
    | none =>
      if evt.Name = ascii "error" then .error (.New evt.Data)
      else readLoop (some evt) rest

/-- Embeds `readAppManifest(res)`, for the events read from `res.Body`;
`readJSONAPI` decodes the data of an event into a manifest.  Returns the
manifest and the error, one of them nil. -/
def readAppManifest (readJSONAPI : Str → Except Error AppManifest) (events : List SSEEvent) :
    Option AppManifest × Option Error :=
  match readLoop none events with
  | .error err => (none, some err)
  | .ok none => (none, some (.New (ascii "No application data was sent")))
  | .ok (some lastevt) =>
    match readJSONAPI lastevt.Data with
    | .error err => (none, some err)
    | .ok app => (some app, none)

/-- An event that ends the loop of `readAppManifest`: it carries an error or is
named "error". -/
def SSEEvent.isError (evt : SSEEvent) : Bool :=
  evt.Error ≠ none || evt.Name = ascii "error"

/-- The error `readAppManifest` returns for an event that ends its loop. -/
def SSEEvent.toError (evt : SSEEvent) : client.Error :=
  match evt.Error with
  | some err => err
  | none => .New evt.Data

/-- A decoder for the examples: the manifest whose id is the data. -/
def idManifest (data : Str) : Except Error AppManifest :=
  if data = [] then .error (.other "unexpected end of JSON input")
  else .ok { ID := data, Rev := [], Name := [], Slug := [], Source := [], State := [] }

end client

/-! # Theorems -/

namespace stack

/-- C1: `GetBroker` and `GetScheduler` panic with "Job system not initialized"
exactly while the handle is nil - so in a fresh process, before the job system
has been started - and otherwise return exactly the stored handle. -/
theorem GetBroker_GetScheduler_contract (s : State) :
    GetBroker State.init = .error "Job system not initialized" ∧
    GetScheduler State.init = .error "Job system not initialized" ∧
    (s.broker = none ↔ GetBroker s = .error "Job system not initialized") ∧
    (s.sched = none ↔ GetScheduler s = .error "Job system not initialized") ∧
    (∀ b, GetBroker s = .ok b ↔ s.broker = some b) ∧
    (∀ sc, GetScheduler s = .ok sc ↔ s.sched = some sc) := by
  refine ⟨rfl, rfl, ?_, ?_, ?_, ?_⟩
  · cases h : s.broker <;> simp [GetBroker, h]
  · cases h : s.sched <;> simp [GetScheduler, h]
  · intro b
    cases h : s.broker <;> simp [GetBroker, h]
  · intro sc
    cases h : s.sched <;> simp [GetScheduler, h]

/-- C2: `startJobSystem` always installs a matched backend pair.  If the
configured Redis client is nil the handles become the in-memory broker and the
in-memory scheduler, otherwise the Redis broker and the Redis scheduler (built on
that client); the two handles always have the same backend; and the scheduler is
started, once, with the very broker that `GetBroker` afterwards returns, the
result of that start being the result of `startJobSystem`. -/
theorem startJobSystem_matched_pair (env : Env) (s : State) :
    (env.RedisCli = none →
      (startJobSystem env s).2.broker = some (.NewMemBroker env.Workers env.GetWorkersList) ∧
      (startJobSystem env s).2.sched = some .NewMemScheduler) ∧
    (∀ cli, env.RedisCli = some cli →
      (startJobSystem env s).2.broker = some (.NewRedisBroker env.Workers cli) ∧
      (startJobSystem env s).2.sched = some (.NewRedisScheduler cli)) ∧
    (∃ b sc, (startJobSystem env s).2.broker = some b ∧
      (startJobSystem env s).2.sched = some sc ∧
      b.backend = sc.backend ∧
      (startJobSystem env s).2.started = s.started ++ [(sc, b)] ∧
      (startJobSystem env s).1 = env.SchedStart sc b ∧
      GetBroker (startJobSystem env s).2 = .ok b ∧
      GetScheduler (startJobSystem env s).2 = .ok sc) := by
  cases h : env.RedisCli with
  | none =>
    simp [startJobSystem, startMemJobSystem, h, GetBroker, GetScheduler, Broker.backend,
      Scheduler.backend]
  | some cli =>
    simp [startJobSystem, startRedisJobSystem, h, GetBroker, GetScheduler, Broker.backend,
      Scheduler.backend]

/-- C3, as stated, fails: a later call to `Start` does change the handles.  A
process starts without Redis and gets the in-memory pair; `Start` (or
`startJobSystem`) is called again when the configuration holds a Redis client,
and both handles are replaced by the Redis pair, so that `GetBroker` and
`GetScheduler` no longer return what they returned before. -/
theorem Start_reinitializes :
    GetBroker (Start envMem State.init).2 = .ok (.NewMemBroker 4 ["sendmail"]) ∧
    GetScheduler (Start envMem State.init).2 = .ok .NewMemScheduler ∧
    GetBroker (Start envRedis (Start envMem State.init).2).2
      = .ok (.NewRedisBroker 4 { addr := "localhost:6379" }) ∧
    GetScheduler (Start envRedis (Start envMem State.init).2).2
      = .ok (.NewRedisScheduler { addr := "localhost:6379" }) ∧
    (Start envRedis (Start envMem State.init).2).2.broker ≠ (Start envMem State.init).2.broker ∧
    (Start envRedis (Start envMem State.init).2).2.sched ≠ (Start envMem State.init).2.sched ∧
    (startJobSystem envRedis (Start envMem State.init).2).2.broker
      ≠ (Start envMem State.init).2.broker ∧
    (startJobSystem envRedis (Start envMem State.init).2).2.sched
      ≠ (Start envMem State.init).2.sched := by
  refine ⟨rfl, rfl, rfl, rfl, by decide, by decide, by decide, by decide⟩

/-- C3, amended: the handles are set by every call, not only by the first.
Every call to `startJobSystem` stores the pair built for the configuration read
at that call, whatever the handles held before; so does every call to `Start`,
except one whose Swift initialisation fails, which leaves both handles as they
were.  Between such calls the handles do not change: `GetBroker` and
`GetScheduler` only read them. -/
theorem Start_replaces_handles (env : Env) (s : State) :
    ((startJobSystem env s).2.broker = some (installedPair env).2 ∧
      (startJobSystem env s).2.sched = some (installedPair env).1) ∧
    ((env.FsURLScheme = env.SchemeSwift ∧ env.InitSwiftConnection ≠ none ∧
        (Start env s).2.broker = s.broker ∧ (Start env s).2.sched = s.sched) ∨
      (¬ (env.FsURLScheme = env.SchemeSwift ∧ env.InitSwiftConnection ≠ none) ∧
        (Start env s).2.broker = some (installedPair env).2 ∧
        (Start env s).2.sched = some (installedPair env).1)) := by
  have h1 : ∀ s', (startJobSystem env s').2.broker = some (installedPair env).2 ∧
      (startJobSystem env s').2.sched = some (installedPair env).1 := by
    intro s'
    cases h : env.RedisCli <;>
      simp [startJobSystem, startMemJobSystem, startRedisJobSystem, installedPair, h]
  refine ⟨h1 s, ?_⟩
  unfold Start
  by_cases hs : env.FsURLScheme = env.SchemeSwift
  · cases hi : env.InitSwiftConnection with
    | none =>
      right
      simp only [hs, if_true, hi]
      exact ⟨by simp, h1 _⟩
    | some e =>
      left
      simp only [hs, if_true, hi]
      refine ⟨trivial, by simp, ?_, ?_⟩ <;> split <;> rfl
  · right
    simp only [hs, if_false]
    exact ⟨by simp, h1 _⟩

/-- C4: errors are surfaced to the caller of `Start`.  When the file-system
scheme is swift and the Swift connection initialisation fails, `Start` returns
that very error and the job system is not started at all: broker and sched are
left untouched and no scheduler is started.  Otherwise the scheduler of the
installed pair is started with its broker and `Start` returns exactly the result
of that `Start(broker)`.  Hence `Start` returns a non-nil error exactly when the
Swift initialisation fails or the scheduler's start fails. -/
theorem Start_surfaces_errors (env : Env) (s : State) :
    (∀ e, env.FsURLScheme = env.SchemeSwift → env.InitSwiftConnection = some e →
      (Start env s).1 = some e ∧ (Start env s).2.broker = s.broker ∧
      (Start env s).2.sched = s.sched ∧ (Start env s).2.started = s.started) ∧
    (¬ (env.FsURLScheme = env.SchemeSwift ∧ env.InitSwiftConnection ≠ none) →
      (Start env s).1 = env.SchedStart (installedPair env).1 (installedPair env).2 ∧
      (Start env s).2.started = s.started ++ [installedPair env]) ∧
    ((Start env s).1 ≠ none ↔
      (env.FsURLScheme = env.SchemeSwift ∧ env.InitSwiftConnection ≠ none) ∨
      (¬ (env.FsURLScheme = env.SchemeSwift ∧ env.InitSwiftConnection ≠ none) ∧
        env.SchedStart (installedPair env).1 (installedPair env).2 ≠ none)) := by
  have h1 : ∀ s', (startJobSystem env s').1
        = env.SchedStart (installedPair env).1 (installedPair env).2 ∧
      (startJobSystem env s').2.started = s'.started ++ [installedPair env] := by
    intro s'
    cases h : env.RedisCli <;>
      simp [startJobSystem, startMemJobSystem, startRedisJobSystem, installedPair, h]
  have hst : ∀ b : Bool, (if b then { s with stdout := s.stdout ++ [devReleaseBanner] }
      else s).started = s.started ∧
      (if b then { s with stdout := s.stdout ++ [devReleaseBanner] } else s).broker = s.broker ∧
      (if b then { s with stdout := s.stdout ++ [devReleaseBanner] } else s).sched = s.sched := by
    intro b
    cases b <;> simp
  by_cases hs : env.FsURLScheme = env.SchemeSwift
  · cases hi : env.InitSwiftConnection with
    | none =>
      have hS : Start env s = startJobSystem env
          { (if env.IsDevRelease then { s with stdout := s.stdout ++ [devReleaseBanner] }
              else s) with
            swiftInits := (if env.IsDevRelease then
              { s with stdout := s.stdout ++ [devReleaseBanner] } else s).swiftInits + 1 } := by
        simp [Start, hs, hi]
      rw [hS]
      refine ⟨(fun e _ h => by cases h), ?_, ?_⟩
      · intro _
        refine ⟨(h1 _).1, ?_⟩
        rw [(h1 _).2]
        simp [(hst env.IsDevRelease).1]
      · rw [(h1 _).1]
        simp [hs]
    | some e =>
      have hS : Start env s = (some e,
          { (if env.IsDevRelease then { s with stdout := s.stdout ++ [devReleaseBanner] }
              else s) with
            swiftInits := (if env.IsDevRelease then
              { s with stdout := s.stdout ++ [devReleaseBanner] } else s).swiftInits + 1 }) := by
        simp [Start, hs, hi]
      rw [hS]
      refine ⟨?_, ?_, ?_⟩
      · intro e' _ he'
        cases he'
        exact ⟨rfl, (hst env.IsDevRelease).2.1, (hst env.IsDevRelease).2.2,
          (hst env.IsDevRelease).1⟩
      · intro hn
        exact absurd ⟨hs, by simp⟩ hn
      · simp [hs]
  · have hS : Start env s = startJobSystem env
        (if env.IsDevRelease then { s with stdout := s.stdout ++ [devReleaseBanner] }
          else s) := by
      simp [Start, hs]
    rw [hS]
    refine ⟨fun e h => absurd h hs, ?_, ?_⟩
    · intro _
      refine ⟨(h1 _).1, ?_⟩
      rw [(h1 _).2, (hst env.IsDevRelease).1]
    · rw [(h1 _).1]
      simp [hs]

end stack

namespace scheduler

/-- Firing an entry of another trigger leaves the entries and the jobs of the
trigger `tid` alone. -/
theorem fire_other (triggers : List Trigger) (next : Trigger → Nat → Nat) (i : Inst) (now : Nat)
    (w : Fleet) (e : String × Nat) (tid : String) (h : e.1 ≠ tid) :
    (fire triggers next i now w e).store.filter (fun x => x.1 = tid)
        = w.store.filter (fun x => x.1 = tid) ∧
      jobsFor tid (fire triggers next i now w e).pushed = jobsFor tid w.pushed ∧
      claimedFor tid (fire triggers next i now w e) = claimedFor tid w := by
  unfold fire
  cases hf : triggers.find? (fun t => decide (t.id = e.1)) with
  | none => simp
  | some t =>
    refine ⟨?_, ?_, rfl⟩
    · by_cases hp : t.perpetual = true
      · simp only [hp, if_true, zadd, List.filter_cons, List.filter_filter]
        simp only [decide_eq_true_eq, h, if_false]
        congr 1
        funext x
        by_cases hx : x.1 = tid
        · simp [hx, Ne.symm h]
        · simp [hx]
      · simp [hp]
    · simp [jobsFor, List.filter_append, h]

/-- Firing the entry of a registered trigger submits one job for it; a perpetual
trigger is re-inserted with its recomputed score, a one-shot trigger is not. -/
theorem fire_self (triggers : List Trigger) (next : Trigger → Nat → Nat) (i : Inst) (now : Nat)
    (w : Fleet) (t : Trigger) (s : Nat)
    (hreg : triggers.find? (fun x => x.id = t.id) = some t) :
    (fire triggers next i now w (t.id, s)).store.filter (fun x => x.1 = t.id)
        = (if t.perpetual then [(t.id, next t now)] else w.store.filter (fun x => x.1 = t.id)) ∧
      jobsFor t.id (fire triggers next i now w (t.id, s)).pushed = jobsFor t.id w.pushed + 1 ∧
      claimedFor t.id (fire triggers next i now w (t.id, s)) = claimedFor t.id w := by
  unfold fire
  simp only [hreg]
  refine ⟨?_, ?_, rfl⟩
  · by_cases hp : t.perpetual = true
    · simp only [hp, if_true, zadd, List.filter_cons, List.filter_filter]
      simp
    · simp [hp]
  · simp [jobsFor, List.filter_append]

/-- Filtering by trigger id commutes with filtering by a condition on entries. -/
theorem filter_id_comm (tid : String) (p : String × Nat → Bool) (l : SortedSet) :
    (l.filter p).filter (fun x => x.1 = tid) = (l.filter (fun x => x.1 = tid)).filter p := by
  simp only [List.filter_filter]
  congr 1
  funext x
  exact Bool.and_comm _ _

/-- Replacing the claimed entries of an instance changes nothing else. -/
theorem setPending_fields (w : Fleet) (i : Inst) (l : SortedSet) :
    (w.setPending i l).store = w.store ∧ (w.setPending i l).pushed = w.pushed ∧
      (w.setPending i l).pending i = l := by
  cases i <;> simp [Fleet.setPending, Fleet.pending]

/-- The count of claimed entries after the claimed entries of one instance have
been replaced. -/
theorem claimedFor_setPending (tid : String) (w : Fleet) (i : Inst) (l : SortedSet) :
    claimedFor tid (w.setPending i l) + ((w.pending i).filter fun e => e.1 = tid).length
      = claimedFor tid w + (l.filter fun e => e.1 = tid).length := by
  cases i <;> simp [Fleet.setPending, Fleet.pending, claimedFor] <;> omega

/-- A claim by any instance takes a waiting trigger out of the shared set. -/
theorem claim_waiting (triggers : List Trigger) (next : Trigger → Nat → Nat) (now : Nat)
    (w : Fleet) (i : Inst) (tid : String) (due k : Nat) (hdue : due ≤ now)
    (h : Waiting tid due k w) : Claimed tid k (step triggers next now w (.claim i)) := by
  obtain ⟨hs, hc, hj⟩ := h
  have hd : (rangePop now w.store).1.filter (fun x => x.1 = tid) = [(tid, due)] := by
    simp only [rangePop]
    rw [filter_id_comm, hs]
    simp [hdue]
  have hr : (rangePop now w.store).2.filter (fun x => x.1 = tid) = [] := by
    simp only [rangePop]
    rw [filter_id_comm, hs]
    simp [hdue]
  have hf := setPending_fields { w with store := (rangePop now w.store).2 } i
    (w.pending i ++ (rangePop now w.store).1)
  have hcl := claimedFor_setPending tid { w with store := (rangePop now w.store).2 } i
    (w.pending i ++ (rangePop now w.store).1)
  have hc0 : claimedFor tid { w with store := (rangePop now w.store).2 } = 0 := hc
  have hp0 : (({ w with store := (rangePop now w.store).2 } : Fleet).pending i).filter
      (fun e => e.1 = tid) = (w.pending i).filter (fun e => e.1 = tid) := by
    cases i <;> rfl
  have hpl : ((w.pending i).filter (fun e => decide (e.1 = tid))).length = 0 := by
    have : claimedFor tid w = 0 := hc
    cases i <;> simp only [claimedFor, Fleet.pending] at this ⊢ <;> omega
  rw [hp0, hc0, List.filter_append, List.length_append, hd, hpl] at hcl
  refine ⟨?_, ?_, ?_⟩
  · show (step triggers next now w (.claim i)).store.filter _ = []
    simp only [step]
    rw [hf.1]
    exact hr
  · simp only [step]
    simpa using hcl
  · show jobsFor tid (step triggers next now w (.claim i)).pushed = k
    simp only [step]
    rw [hf.2.1]
    exact hj

/-- A claim finds nothing of a trigger that has no due entry in the shared set. -/
theorem claim_not_due (triggers : List Trigger) (next : Trigger → Nat → Nat) (now : Nat)
    (w : Fleet) (i : Inst) (tid : String)
    (h : ∀ e ∈ w.store.filter (fun x => x.1 = tid), now < e.2) :
    (step triggers next now w (.claim i)).store.filter (fun x => x.1 = tid)
        = w.store.filter (fun x => x.1 = tid) ∧
      claimedFor tid (step triggers next now w (.claim i)) = claimedFor tid w ∧
      jobsFor tid (step triggers next now w (.claim i)).pushed = jobsFor tid w.pushed := by
  have hd : (rangePop now w.store).1.filter (fun x => x.1 = tid) = [] := by
    simp only [rangePop]
    rw [filter_id_comm]
    apply List.filter_eq_nil_iff.2
    intro e he
    have := h e he
    simp only [decide_eq_true_eq, not_le]
    exact this
  have hr : (rangePop now w.store).2.filter (fun x => x.1 = tid)
      = w.store.filter (fun x => x.1 = tid) := by
    simp only [rangePop]
    rw [filter_id_comm]
    apply List.filter_eq_self.2
    intro e he
    have := h e he
    simp only [decide_eq_true_eq, not_le]
    exact this
  have hf := setPending_fields { w with store := (rangePop now w.store).2 } i
    (w.pending i ++ (rangePop now w.store).1)
  have hcl := claimedFor_setPending tid { w with store := (rangePop now w.store).2 } i
    (w.pending i ++ (rangePop now w.store).1)
  have hc0 : claimedFor tid { w with store := (rangePop now w.store).2 } = claimedFor tid w := rfl
  have hp0 : (({ w with store := (rangePop now w.store).2 } : Fleet).pending i).filter
      (fun e => e.1 = tid) = (w.pending i).filter (fun e => e.1 = tid) := by
    cases i <;> rfl
  rw [hp0, hc0, List.filter_append, List.length_append, hd] at hcl
  refine ⟨?_, ?_, ?_⟩
  · simp only [step]
    rw [hf.1]
    exact hr
  · simp only [step]
    simp only [List.length_nil, Nat.add_zero] at hcl
    omega
  · simp only [step]
    rw [hf.2.1]

/-- A fire step of an instance whose oldest claimed entry belongs to another
trigger (or that has nothing claimed) leaves the trigger `tid` alone. -/
theorem fire_step_other (triggers : List Trigger) (next : Trigger → Nat → Nat) (now : Nat)
    (w : Fleet) (i : Inst) (tid : String)
    (h : ∀ e es, w.pending i = e :: es → e.1 ≠ tid) :
    (step triggers next now w (.fire i)).store.filter (fun x => x.1 = tid)
        = w.store.filter (fun x => x.1 = tid) ∧
      claimedFor tid (step triggers next now w (.fire i)) = claimedFor tid w ∧
      jobsFor tid (step triggers next now w (.fire i)).pushed = jobsFor tid w.pushed := by
  simp only [step]
  cases hp : w.pending i with
  | nil => simp
  | cons e es =>
    have hne := h e es hp
    have hf := fire_other triggers next i now (w.setPending i es) e tid hne
    have hs := setPending_fields w i es
    have hcl := claimedFor_setPending tid w i es
    rw [hp] at hcl
    simp only [List.filter_cons, hne, decide_False, Bool.false_eq_true, if_false] at hcl
    refine ⟨?_, ?_, ?_⟩
    · rw [hf.1, hs.1]
    · rw [hf.2.2]
      omega
    · rw [hf.2.1, hs.2.1]

/-- A waiting trigger keeps waiting through a fire step. -/
theorem fire_waiting (triggers : List Trigger) (next : Trigger → Nat → Nat) (now : Nat)
    (w : Fleet) (i : Inst) (tid : String) (due k : Nat) (h : Waiting tid due k w) :
    Waiting tid due k (step triggers next now w (.fire i)) := by
  obtain ⟨hs, hc, hj⟩ := h
  have hn : ∀ e es, w.pending i = e :: es → e.1 ≠ tid := by
    intro e es hp heq
    have : claimedFor tid w = 0 := hc
    cases i <;> simp only [Fleet.pending] at hp <;>
      simp [claimedFor, hp, List.filter_cons, heq] at this
  have a := fire_step_other triggers next now w i tid hn
  exact ⟨a.1.trans hs, a.2.1.trans hc, a.2.2.trans hj⟩

/-- A fired trigger stays fired through every step: it is not due any more. -/
theorem step_fired (triggers : List Trigger) (next : Trigger → Nat → Nat) (now : Nat)
    (w : Fleet) (a : Action) (tid : String) (k : Nat) (h : Fired tid now k w) :
    Fired tid now k (step triggers next now w a) := by
  obtain ⟨hs, hc, hj⟩ := h
  cases a with
  | claim i =>
    have b := claim_not_due triggers next now w i tid hs
    exact ⟨by rw [b.1]; exact hs, b.2.1.trans hc, b.2.2.trans hj⟩
  | fire i =>
    have hn : ∀ e es, w.pending i = e :: es → e.1 ≠ tid := by
      intro e es hp heq
      have : claimedFor tid w = 0 := hc
      cases i <;> simp only [Fleet.pending] at hp <;>
        simp [claimedFor, hp, List.filter_cons, heq] at this
    have b := fire_step_other triggers next now w i tid hn
    exact ⟨by rw [b.1]; exact hs, b.2.1.trans hc, b.2.2.trans hj⟩

/-- A claimed trigger stays claimed until the instance that holds it fires it;
that step submits its job. -/
theorem step_claimed (triggers : List Trigger) (next : Trigger → Nat → Nat) (now : Nat)
    (w : Fleet) (a : Action) (t : Trigger) (k : Nat)
    (hreg : triggers.find? (fun x => x.id = t.id) = some t)
    (hnext : t.perpetual = true → now < next t now) (h : Claimed t.id k w) :
    Claimed t.id k (step triggers next now w a) ∨ Fired t.id now k (step triggers next now w a) := by
  obtain ⟨hs, hc, hj⟩ := h
  cases a with
  | claim i =>
    have b := claim_not_due triggers next now w i t.id (by rw [hs]; simp)
    exact Or.inl ⟨b.1.trans hs, b.2.1.trans hc, b.2.2.trans hj⟩
  | fire i =>
    by_cases hn : ∀ e es, w.pending i = e :: es → e.1 ≠ t.id
    · have b := fire_step_other triggers next now w i t.id hn
      exact Or.inl ⟨b.1.trans hs, b.2.1.trans hc, b.2.2.trans hj⟩
    · right
      simp only [not_forall, not_not] at hn
      obtain ⟨e, es, hp, heq⟩ := hn
      obtain ⟨eid, sc⟩ := e
      simp only at heq
      subst heq
      have hst : step triggers next now w (.fire i)
          = fire triggers next i now (w.setPending i es) (t.id, sc) := by
        simp only [step, hp]
      have hf := fire_self triggers next i now (w.setPending i es) t sc hreg
      have hsp := setPending_fields w i es
      have hcl := claimedFor_setPending t.id w i es
      rw [hp] at hcl
      simp only [List.filter_cons, decide_True, if_true, List.length_cons] at hcl
      rw [hst]
      refine ⟨?_, ?_, ?_⟩
      · rw [hf.1, hsp.1, hs]
        intro e he
        by_cases hper : t.perpetual = true
        · simp only [hper, if_true, List.mem_singleton] at he
          rw [he]
          exact hnext hper
        · simp [hper] at he
      · rw [hf.2.2]
        have hle : ((es.filter fun e => decide (e.1 = t.id)).length) ≤
            claimedFor t.id (w.setPending i es) := by
          have := (setPending_fields w i es).2.2
          cases i <;> simp only [Fleet.pending] at this <;>
            simp only [claimedFor, this] <;> omega
        omega
      · rw [hf.2.1, hsp.2.1, hj]

/-- Runs preserve the fired phase. -/
theorem run_fired (triggers : List Trigger) (next : Trigger → Nat → Nat) (now : Nat)
    (tid : String) (k : Nat) (schedule : List Action) (w : Fleet) (h : Fired tid now k w) :
    Fired tid now k (run triggers next now schedule w) := by
  induction schedule generalizing w with
  | nil => exact h
  | cons a rest ih => exact ih _ (step_fired triggers next now w a tid k h)

/-- Runs take a claimed trigger to the claimed or the fired phase. -/
theorem run_claimed (triggers : List Trigger) (next : Trigger → Nat → Nat) (now : Nat)
    (t : Trigger) (k : Nat) (hreg : triggers.find? (fun x => x.id = t.id) = some t)
    (hnext : t.perpetual = true → now < next t now) (schedule : List Action) (w : Fleet)
    (h : Claimed t.id k w) :
    Claimed t.id k (run triggers next now schedule w) ∨
      Fired t.id now k (run triggers next now schedule w) := by
  induction schedule generalizing w with
  | nil => exact Or.inl h
  | cons a rest ih =>
    rcases step_claimed triggers next now w a t k hreg hnext h with h1 | h1
    · exact ih _ h1
    · exact Or.inr (run_fired triggers next now t.id k rest _ h1)

/-- Runs of a waiting trigger: whatever the interleaving, the trigger is
waiting, claimed or fired afterwards, and no longer waiting once some instance
has claimed. -/
theorem run_waiting (triggers : List Trigger) (next : Trigger → Nat → Nat) (now : Nat)
    (t : Trigger) (due k : Nat) (hreg : triggers.find? (fun x => x.id = t.id) = some t)
    (hdue : due ≤ now) (hnext : t.perpetual = true → now < next t now)
    (schedule : List Action) (w : Fleet) (h : Waiting t.id due k w) :
    ((∀ i, Action.claim i ∉ schedule) ∧ Waiting t.id due k (run triggers next now schedule w)) ∨
      Claimed t.id k (run triggers next now schedule w) ∨
      Fired t.id now k (run triggers next now schedule w) := by
  induction schedule generalizing w with
  | nil => exact Or.inl ⟨by simp, h⟩
  | cons a rest ih =>
    cases a with
    | claim i =>
      right
      exact run_claimed triggers next now t k hreg hnext rest _
        (claim_waiting triggers next now w i t.id due k hdue h)
    | fire i =>
      rcases ih _ (fire_waiting triggers next now w i t.id due k h) with h1 | h1
      · left
        refine ⟨?_, h1.2⟩
        intro j hj
        rcases List.mem_cons.1 hj with e | e
        · cases e
        · exact h1.1 j e
      · exact Or.inr h1

/-- C5: the distributed claim of a due trigger is mutually exclusive.  Two
scheduler instances run against the same shared store while one registered
trigger is due and waits in it; their steps - atomic claims of the due entries,
and the firing of claimed entries - interleave in any order.  Then at no point
have two jobs been submitted for the trigger, and once both instances have
claimed and every claimed entry has been fired, exactly one job has been
submitted for it, over all brokers (a perpetual trigger being re-inserted for a
later time). -/
theorem distributed_claim_mutually_exclusive (triggers : List Trigger)
    (next : Trigger → Nat → Nat) (t : Trigger) (due now : Nat) (w : Fleet)
    (schedule : List Action)
    (hreg : triggers.find? (fun x => x.id = t.id) = some t)
    (hstore : w.store.filter (fun x => x.1 = t.id) = [(t.id, due)]) (hdue : due ≤ now)
    (hfresh : claimedFor t.id w = 0)
    (hnext : t.perpetual = true → now < next t now) :
    jobsFor t.id (run triggers next now schedule w).pushed ≤ jobsFor t.id w.pushed + 1 ∧
    (Action.claim .A ∈ schedule → Action.claim .B ∈ schedule →
      (run triggers next now schedule w).pendingA = [] →
      (run triggers next now schedule w).pendingB = [] →
      jobsFor t.id (run triggers next now schedule w).pushed = jobsFor t.id w.pushed + 1) := by
  have h0 : Waiting t.id due (jobsFor t.id w.pushed) w := ⟨hstore, hfresh, rfl⟩
  have key := run_waiting triggers next now t due _ hreg hdue hnext schedule w h0
  constructor
  · rcases key with h | h | h
    · rw [h.2.2.2]
      omega
    · rw [h.2.2]
      omega
    · rw [h.2.2]
  · intro hA _ hpa hpb
    rcases key with h | h | h
    · exact absurd hA (h.1 .A)
    · have := h.2.1
      simp [claimedFor, hpa, hpb] at this
    · exact h.2.2

/-- Witness for C5: a cron trigger due at 100, re-inserted for 160 when it
fires.  Both instances claim at time 100, A first; then both fire what they
hold, and claim once more. -/
theorem distributed_claim_mutually_exclusive_witness :
    ([everyMinute].find? (fun x => x.id = everyMinute.id) = some everyMinute ∧
      fleet0.store.filter (fun x => x.1 = everyMinute.id) = [(everyMinute.id, 100)] ∧
      claimedFor everyMinute.id fleet0 = 0) ∧
    jobsFor everyMinute.id (run [everyMinute] (fun _ now => now + 60) 100
      [.claim .A, .claim .B, .fire .B, .fire .A, .claim .B, .fire .B] fleet0).pushed = 1 :=
  ⟨⟨by decide, by decide, by decide⟩,
    (distributed_claim_mutually_exclusive [everyMinute] (fun _ now => now + 60) everyMinute
      100 100 fleet0 [.claim .A, .claim .B, .fire .B, .fire .A, .claim .B, .fire .B]
      (by decide) (by decide) (by decide) (by decide) (fun _ => by decide)).2
      (by decide) (by decide) (by decide) (by decide)⟩

end scheduler

namespace url

open encoding

/-- Unfolding of `strings.Index` for a single byte. -/
theorem index_byte_cons (c x : Nat) (xs : Str) :
    index [c] (x :: xs) = if x = c then some 0 else (index [c] xs).map (· + 1) := by
  by_cases h : x = c
  · subst h
    simp [index, List.isPrefixOf]
  · have h2 : ¬ c = x := fun e => h e.symm
    simp [index, List.isPrefixOf, h, h2]

/-- Searching a single byte with `strings.Index` finds nothing exactly when the
byte is absent. -/
theorem index_byte_eq_none (c : Nat) (s : Str) : index [c] s = none ↔ c ∉ s := by
  induction s with
  | nil => simp [index]
  | cons x xs ih =>
    rw [index_byte_cons]
    by_cases hx : x = c
    · simp [hx]
    · have hx2 : ¬ c = x := fun h => hx h.symm
      simp [hx, ih, hx2]

/-- Searching a single byte with `strings.Index`: the string splits at the first
occurrence. -/
theorem index_byte_eq_some (c : Nat) (s : Str) (i : Nat) :
    index [c] s = some i ↔ ∃ a b, s = a ++ c :: b ∧ c ∉ a ∧ i = a.length := by
  induction s generalizing i with
  | nil => simp [index]
  | cons x xs ih =>
    rw [index_byte_cons]
    by_cases hx : x = c
    · subst hx
      simp only [if_true, Option.some.injEq]
      constructor
      · intro h
        exact ⟨[], xs, by simp, by simp, by simp [← h]⟩
      · rintro ⟨a, b, hs, ha, hi⟩
        cases a with
        | nil => simp [hi]
        | cons y ys =>
          simp only [List.cons_append, List.cons.injEq] at hs
          exact absurd (by simp [hs.1]) ha
    · simp only [hx, if_false, Option.map_eq_some']
      constructor
      · rintro ⟨j, hj, rfl⟩
        obtain ⟨a, b, hs, ha, hl⟩ := (ih j).1 hj
        refine ⟨x :: a, b, by simp [hs], ?_, by simp [hl]⟩
        intro hmem
        rcases List.mem_cons.1 hmem with h | h
        · exact hx h.symm
        · exact ha h
      · rintro ⟨a, b, hs, ha, hi⟩
        cases a with
        | nil =>
          simp only [List.nil_append, List.cons.injEq] at hs
          exact absurd hs.1 hx
        | cons y ys =>
          simp only [List.cons_append, List.cons.injEq] at hs
          refine ⟨ys.length, (ih _).2 ⟨ys, b, hs.2, ?_, rfl⟩, by simp [hi]⟩
          intro h
          exact ha (List.mem_cons_of_mem _ h)

/-- The bytes of the literal `"."`. -/
theorem ascii_dot : ascii "." = [46] := rfl

/-- The byte `#` is escaped in every part of a URL. -/
theorem shouldEscape_hash (mode : encoding) : shouldEscape 35 mode = true := by
  cases mode <;> decide

/-- A hexadecimal digit is never the byte `#`. -/
theorem hexDigit_ne_hash (n : Nat) : hexDigit n ≠ 35 := by
  unfold hexDigit
  split <;> omega

/-- The output of `escape` never contains the byte `#`. -/
theorem escape_no_hash (s : Str) (mode : encoding) : 35 ∉ escape s mode := by
  unfold escape
  simp only [List.mem_flatMap, not_exists, not_and]
  intro c _ hc
  by_cases h1 : c = 32 ∧ mode = encodeQueryComponent
  · rw [if_pos h1] at hc
    simp at hc
  · rw [if_neg h1] at hc
    by_cases h2 : shouldEscape c mode = true
    · rw [if_pos h2] at hc
      simp only [List.mem_cons, List.mem_singleton, List.not_mem_nil, or_false] at hc
      rcases hc with hc | hc | hc
      · omega
      · exact hexDigit_ne_hash _ hc.symm
      · exact hexDigit_ne_hash _ hc.symm
    · rw [if_neg h2] at hc
      simp only [List.mem_singleton] at hc
      subst hc
      exact h2 (shouldEscape_hash mode)

/-- Both parts of `split` consist of bytes of the string. -/
theorem split_subset (s c : Str) (cutc : Bool) :
    (∀ x ∈ (split s c cutc).1, x ∈ s) ∧ (∀ x ∈ (split s c cutc).2, x ∈ s) := by
  unfold split
  cases index c s with
  | none => simp
  | some i =>
    cases cutc
    · exact ⟨fun x hx => List.mem_of_mem_take hx, fun x hx => List.mem_of_mem_drop hx⟩
    · exact ⟨fun x hx => List.mem_of_mem_take hx, fun x hx => List.mem_of_mem_drop hx⟩

/-- What precedes the first `#` does not contain `#`. -/
theorem split_hash_fst (s : Str) : 35 ∉ (split s (ascii "#") true).1 := by
  have e : ascii "#" = [35] := rfl
  unfold split
  rw [e]
  cases h : index [35] s with
  | none => exact (index_byte_eq_none 35 s).1 h
  | some i =>
    obtain ⟨a, b, hs, ha, hi⟩ := (index_byte_eq_some 35 s i).1 h
    subst hs hi
    simpa using ha

/-- Both results of `getscheme` consist of bytes of the string. -/
theorem getschemeLoop_subset (rawurl : Str) (rest : Str) (i : Nat) (sch r : Str)
    (h : getschemeLoop rawurl i rest = .ok (sch, r)) :
    (∀ x ∈ sch, x ∈ rawurl) ∧ (∀ x ∈ r, x ∈ rawurl) := by
  induction rest generalizing i with
  | nil =>
    simp only [getschemeLoop, Except.ok.injEq, Prod.mk.injEq] at h
    obtain ⟨rfl, rfl⟩ := h
    simp
  | cons c cs ih =>
    unfold getschemeLoop at h
    split at h
    · exact ih _ h
    · split at h
      · split at h
        · simp only [Except.ok.injEq, Prod.mk.injEq] at h
          obtain ⟨rfl, rfl⟩ := h
          simp
        · exact ih _ h
      · split at h
        · split at h
          · cases h
          · simp only [Except.ok.injEq, Prod.mk.injEq] at h
            obtain ⟨rfl, rfl⟩ := h
            exact ⟨fun x hx => List.mem_of_mem_take hx, fun x hx => List.mem_of_mem_drop hx⟩
        · simp only [Except.ok.injEq, Prod.mk.injEq] at h
          obtain ⟨rfl, rfl⟩ := h
          simp

/-- The path given to `setPath` is the only source of `RawPath`; the other raw
fields are kept. -/
theorem setPath_fields (u v : URL) (p : Str) (h : URL.setPath u p = .ok v) :
    v.Opaque = u.Opaque ∧ v.RawQuery = u.RawQuery ∧ v.ForceQuery = u.ForceQuery ∧
      v.Scheme = u.Scheme ∧ (∀ x ∈ v.RawPath, x ∈ p) := by
  unfold URL.setPath at h
  split at h
  · cases h
  · split at h
    · simp only [Except.ok.injEq] at h
      subst h
      simp
    · simp only [Except.ok.injEq] at h
      subst h
      simp

/-- Cutting the query off keeps the opaque part and the raw path; the raw query
and the rest consist of bytes of the input. -/
theorem parseQuery_fields (u : URL) (rest : Str) (hq : u.RawQuery = []) :
    (parseQuery u rest).1.Opaque = u.Opaque ∧ (parseQuery u rest).1.RawPath = u.RawPath ∧
      (parseQuery u rest).1.Scheme = u.Scheme ∧
      (∀ x ∈ (parseQuery u rest).1.RawQuery, x ∈ rest) ∧
      (∀ x ∈ (parseQuery u rest).2, x ∈ rest) := by
  unfold parseQuery
  split
  · refine ⟨rfl, rfl, rfl, ?_, fun x hx => List.mem_of_mem_take hx⟩
    intro x hx
    simp [hq] at hx
  · exact ⟨rfl, rfl, rfl, (split_subset rest (ascii "?") true).2,
      (split_subset rest (ascii "?") true).1⟩

/-- After the query: the raw query is kept, the opaque part and the raw path
consist of bytes of the rest. -/
theorem parseHier_fields (u v : URL) (rest : Str) (viaRequest : Bool)
    (ho : u.Opaque = []) (hp : u.RawPath = []) (h : parseHier u rest viaRequest = .ok v) :
    v.RawQuery = u.RawQuery ∧ v.Scheme = u.Scheme ∧ (∀ x ∈ v.Opaque, x ∈ rest) ∧
      (∀ x ∈ v.RawPath, x ∈ rest) := by
  unfold parseHier at h
  split at h
  · simp only [Except.ok.injEq] at h
    subst h
    refine ⟨rfl, rfl, fun x hx => hx, ?_⟩
    intro x hx
    simp [hp] at hx
  · split at h
    · cases h
    · split at h
      · cases h
      · split at h
        · split at h
          · cases h
          · have hs := setPath_fields _ _ _ h
            refine ⟨hs.2.1, hs.2.2.2.1, ?_, ?_⟩
            · rw [hs.1]
              simp [ho]
            · intro x hx
              exact List.mem_of_mem_drop ((split_subset _ _ _).2 x (hs.2.2.2.2 x hx))
        · have hs := setPath_fields _ _ _ h
          refine ⟨hs.2.1, hs.2.2.2.1, ?_, hs.2.2.2.2⟩
          rw [hs.1]
          simp [ho]

/-- The raw fields of a URL parsed by `parse` consist of bytes of the input, and
its scheme is the lower-cased scheme found by `getscheme`. -/
theorem parse_raw_subset (rawurl : Str) (u : URL) (h : parse rawurl false = .ok u) :
    (∀ x ∈ u.Opaque, x ∈ rawurl) ∧ (∀ x ∈ u.RawQuery, x ∈ rawurl) ∧
      (∀ x ∈ u.RawPath, x ∈ rawurl) := by
  unfold parse at h
  split at h
  · cases h
  · split at h
    · simp only [Except.ok.injEq] at h
      subst h
      simp [URL.zero]
    · split at h
      · cases h
      · rename_i scheme rest hg
        have hsub := (getschemeLoop_subset rawurl rawurl 0 scheme rest hg).2
        have hq := parseQuery_fields { URL.zero with Scheme := toLower scheme } rest rfl
        have hh := parseHier_fields _ _ _ _ (hq.1.trans rfl) (hq.2.1.trans rfl) h
        refine ⟨fun x hx => hsub x (hq.2.2.2.2 x (hh.2.2.1 x hx)), ?_,
          fun x hx => hsub x (hq.2.2.2.2 x (hh.2.2.2 x hx))⟩
        intro x hx
        rw [hh.1] at hx
        exact hsub x (hq.2.2.2.1 x hx)

/-- The raw fields of a URL parsed by `url.Parse` do not contain the byte `#`. -/
theorem Parse_raw_no_hash (rawurl : Str) (u : URL) (h : Parse rawurl = .ok u) :
    35 ∉ u.Opaque ∧ 35 ∉ u.RawQuery ∧ 35 ∉ u.RawPath := by
  unfold Parse at h
  have hpre := split_hash_fst rawurl
  split at h
  · cases h
  · rename_i v hv
    have hs := parse_raw_subset _ v hv
    have key : 35 ∉ v.Opaque ∧ 35 ∉ v.RawQuery ∧ 35 ∉ v.RawPath :=
      ⟨fun hx => hpre (hs.1 _ hx), fun hx => hpre (hs.2.1 _ hx), fun hx => hpre (hs.2.2 _ hx)⟩
    split at h
    · simp only [Except.ok.injEq] at h
      subst h
      exact key
    · split at h
      · cases h
      · simp only [Except.ok.injEq] at h
        subst h
        exact key

/-- What `String` writes before the fragment holds no `#` when the scheme and
the raw fields of the URL hold none. -/
theorem stringNoFragment_no_hash (u : URL) (h1 : 35 ∉ u.Scheme) (h2 : 35 ∉ u.Opaque)
    (h3 : 35 ∉ u.RawQuery) (h4 : 35 ∉ u.RawPath) : 35 ∉ u.stringNoFragment := by
  have hstar : ascii "*" = [42] := rfl
  have hsl : ascii "//" = [47, 47] := rfl
  have hds : ascii "./" = [46, 47] := rfl
  have hpath : 35 ∉ u.EscapedPath := by
    unfold URL.EscapedPath
    split
    · exact h4
    · split
      · rw [hstar]
        simp
      · exact escape_no_hash _ _
  have huser : ∀ ui : Userinfo, 35 ∉ ui.String := by
    intro ui
    unfold Userinfo.String
    have a := escape_no_hash ui.username encodeUserPassword
    have b := escape_no_hash ui.password encodeUserPassword
    split <;> simp [a, b]
  have hhost := escape_no_hash u.Host encodeHost
  have hu : (35 : Nat) ∉ (match u.User with
      | some ui => ui.String ++ [64]
      | none => []) := by
    cases u.User with
    | none => simp
    | some ui => simp [huser ui]
  have ite_nm : ∀ (p : Prop) [Decidable p] (a b : Str), 35 ∉ a → 35 ∉ b →
      35 ∉ (if p then a else b) := by
    intro p _ a b ha hb
    split <;> assumption
  have app_nm : ∀ (a b : Str), 35 ∉ a → 35 ∉ b → 35 ∉ a ++ b := by
    intro a b ha hb hm
    rcases List.mem_append.1 hm with h | h
    · exact ha h
    · exact hb h
  have hscheme : 35 ∉ (if u.Scheme ≠ [] then u.Scheme ++ [58] else []) :=
    ite_nm _ _ _ (app_nm _ _ h1 (by simp)) (by simp)
  have hauth : 35 ∉ (if u.Scheme ≠ [] ∨ u.Host ≠ [] ∨ u.User ≠ none then
      ascii "//" ++ (match u.User with
        | some ui => ui.String ++ [64]
        | none => []) ++ (if u.Host ≠ [] then escape u.Host encodeHost else [])
      else []) := by
    apply ite_nm
    · apply app_nm
      · apply app_nm
        · rw [hsl]
          simp
        · exact hu
      · exact ite_nm _ _ _ hhost (by simp)
    · simp
  unfold URL.stringNoFragment
  apply ite_nm
  · apply app_nm
    · apply app_nm
      · apply ite_nm
        · exact app_nm _ _ hscheme h2
        · apply app_nm
          · apply ite_nm
            · apply app_nm
              · apply ite_nm
                · exact app_nm _ _ (app_nm _ _ hscheme hauth) (by simp)
                · exact app_nm _ _ hscheme hauth
              · rw [hds]
                simp
            · apply ite_nm
              · exact app_nm _ _ (app_nm _ _ hscheme hauth) (by simp)
              · exact app_nm _ _ hscheme hauth
          · exact hpath
      · simp
    · exact h3
  · apply ite_nm
    · exact app_nm _ _ hscheme h2
    · apply app_nm
      · apply ite_nm
        · apply app_nm
          · apply ite_nm
            · exact app_nm _ _ (app_nm _ _ hscheme hauth) (by simp)
            · exact app_nm _ _ hscheme hauth
          · rw [hds]
            simp
        · apply ite_nm
          · exact app_nm _ _ (app_nm _ _ hscheme hauth) (by simp)
          · exact app_nm _ _ hscheme hauth
      · exact hpath

end url

namespace auth

open url

/-- The host test of `checkRedirectParam` passes exactly for a host made of one
non-empty label, a dot, and the domain. -/
theorem notSubdomain_eq_false (host dom : Str) :
    notSubdomain host dom = false ↔ IsSubdomain host dom := by
  unfold notSubdomain IsSubdomain SplitN
  rw [ascii_dot]
  cases h : index [46] host with
  | none =>
    simp only [Bool.true_eq_false, false_iff]
    rintro ⟨label, -, -, rfl⟩
    have := (index_byte_eq_none 46 (label ++ [46] ++ dom)).1 h
    simp at this
  | some m =>
    obtain ⟨a, b, hs, ha, hm⟩ := (index_byte_eq_some 46 host m).1 h
    subst hs
    subst hm
    have e1 : List.take a.length (a ++ 46 :: b) = a := by simp
    have e2 : List.drop (a.length + [46].length) (a ++ 46 :: b) = b := by
      simp [List.drop_append_eq_append_drop]
    simp only [SplitN, e1, e2]
    simp only [Bool.or_eq_false_iff, decide_eq_false_iff_not, ne_eq, not_not]
    constructor
    · rintro ⟨hb, hne⟩
      exact ⟨a, hne, ha, by simp [hb]⟩
    · rintro ⟨label, hne, hl, heq⟩
      have key : a = label ∧ b = dom := by
        have h1 : index [46] (a ++ 46 :: b) = some a.length :=
          (index_byte_eq_some 46 _ _).2 ⟨a, b, rfl, ha, rfl⟩
        have h2 : index [46] (label ++ 46 :: dom) = some label.length :=
          (index_byte_eq_some 46 _ _).2 ⟨label, dom, rfl, hl, rfl⟩
        have heq2 : a ++ 46 :: b = label ++ 46 :: dom := by simpa using heq
        rw [heq2, h2] at h1
        have hlen : label.length = a.length := by simpa using h1
        have := List.append_inj heq2 hlen.symm
        simpa using this
      exact ⟨key.2, by rw [key.1]; exact hne⟩


/-- What `checkRedirectParam` returns for a redirect that parses. -/
theorem checkRedirectParam_of_parse (env : Env) (c : Context) (d : Str) (u : URL)
    (hp : env.net.Parse (redirectParam c d) = .ok u) :
    checkRedirectParam env c d =
      if u.Scheme ≠ ascii "http" ∧ u.Scheme ≠ ascii "https" then
        ([], some (.HTTPError 400 "bad url: bad scheme"))
      else if u.Host ≠ c.GetInstance.Domain ∧ notSubdomain u.Host c.GetInstance.Domain then
        ([], some (.HTTPError 400 "bad url: should be subdomain"))
      else (env.net.URLString { u with Fragment := [] } ++ ascii "#", none) := by
  unfold checkRedirectParam
  simp only [hp]

/-- The host test, as a proposition. -/
theorem host_rejected_iff (host dom : Str) :
    (host ≠ dom ∧ notSubdomain host dom = true) ↔ (host ≠ dom ∧ ¬ IsSubdomain host dom) := by
  rw [← notSubdomain_eq_false]
  simp

/-- What `checkRedirectParam` returns for a redirect that does not parse. -/
theorem checkRedirectParam_of_parse_error (env : Env) (c : Context) (d : Str) (e : String)
    (hp : env.net.Parse (redirectParam c d) = .error e) :
    checkRedirectParam env c d = ([], some (.HTTPError 400 "bad url: could not parse")) := by
  unfold checkRedirectParam
  simp only [hp]

/-- Acceptance: `checkRedirectParam` returns successfully exactly for an http(s) redirect
whose host is the instance domain or a sub-domain of it. -/
theorem checkRedirectParam_accepts_iff_aux (env : Env) (c : Context) (d : Str) :
    ∀ r, checkRedirectParam env c d = (r, none) ↔
      ∃ u, env.net.Parse (redirectParam c d) = .ok u ∧
        (u.Scheme = ascii "http" ∨ u.Scheme = ascii "https") ∧
        (u.Host = c.GetInstance.Domain ∨ IsSubdomain u.Host c.GetInstance.Domain) ∧
        r = env.net.URLString { u with Fragment := [] } ++ ascii "#" := by
  intro r
  constructor
  · intro h
    cases hp : env.net.Parse (redirectParam c d) with
    | error e =>
      rw [checkRedirectParam_of_parse_error env c d e hp] at h
      simp at h
    | ok u =>
      rw [checkRedirectParam_of_parse env c d u hp] at h
      by_cases hs : u.Scheme ≠ ascii "http" ∧ u.Scheme ≠ ascii "https"
      · rw [if_pos hs] at h
        simp at h
      · rw [if_neg hs] at h
        by_cases hh : u.Host ≠ c.GetInstance.Domain ∧
            notSubdomain u.Host c.GetInstance.Domain = true
        · rw [if_pos hh] at h
          simp at h
        · rw [if_neg hh] at h
          rw [host_rejected_iff] at hh
          refine ⟨u, rfl, ?_, ?_, ?_⟩
          · by_contra hc
            exact hs ⟨fun e => hc (Or.inl e), fun e => hc (Or.inr e)⟩
          · by_contra hc
            exact hh ⟨fun e => hc (Or.inl e), fun e => hc (Or.inr e)⟩
          · exact (congrArg Prod.fst h).symm
  · rintro ⟨u, hp, hs, hh, rfl⟩
    rw [checkRedirectParam_of_parse env c d u hp]
    have hs2 : ¬ (u.Scheme ≠ ascii "http" ∧ u.Scheme ≠ ascii "https") := by
      rintro ⟨h1, h2⟩
      exact hs.elim h1 h2
    have hh2 : ¬ (u.Host ≠ c.GetInstance.Domain ∧
        notSubdomain u.Host c.GetInstance.Domain = true) := by
      rw [host_rejected_iff]
      rintro ⟨h1, h2⟩
      exact hh.elim h1 h2
    rw [if_neg hs2, if_neg hh2]

/-- C6: `checkRedirectParam` rejects every redirect that is not an http or
https URL.  For the redirect parameter (or the default, when the parameter is
empty): if it fails URL parsing, or if its parsed scheme is neither "http" nor
"https", the result is the empty string and a 400 Bad Request error, whatever
the host is; so for the redirects " ", "foo.bar" and
"ftp://sub.cozy.example.net/foo" of the tests. -/
theorem checkRedirectParam_rejects_non_http (env : Env) (c : Context) (d : Str) :
    (redirectParam c d = if c.FormValue "redirect" = [] then d else c.FormValue "redirect") ∧
    (∀ e, env.net.Parse (redirectParam c d) = .error e →
      checkRedirectParam env c d = ([], some (.HTTPError 400 "bad url: could not parse"))) ∧
    (∀ u, env.net.Parse (redirectParam c d) = .ok u →
      u.Scheme ≠ ascii "http" → u.Scheme ≠ ascii "https" →
      checkRedirectParam env c d = ([], some (.HTTPError 400 "bad url: bad scheme"))) ∧
    checkRedirectParam testEnv (request " " "") (testInstance.SubDomain "home")
      = ([], some (.HTTPError 400 "bad url: bad scheme")) ∧
    checkRedirectParam testEnv (request "foo.bar" "") (testInstance.SubDomain "home")
      = ([], some (.HTTPError 400 "bad url: bad scheme")) ∧
    checkRedirectParam testEnv (request "ftp://sub.cozy.example.net/foo" "")
        (testInstance.SubDomain "home")
      = ([], some (.HTTPError 400 "bad url: bad scheme")) ∧
    checkRedirectParam testEnv (request "http://sub.cozy.example.net/%zz" "")
        (testInstance.SubDomain "home")
      = ([], some (.HTTPError 400 "bad url: could not parse")) := by
  refine ⟨rfl, ?_, ?_, by decide, by decide, by decide, by decide⟩
  · intro e he
    exact checkRedirectParam_of_parse_error env c d e he
  · intro u hu h1 h2
    rw [checkRedirectParam_of_parse env c d u hu, if_pos ⟨h1, h2⟩]

/-- C7, as stated, fails: an http(s) redirect whose host is not a sub-domain of
the instance domain is not always rejected.  The host of
"https://cozy.example.net/foo/bar" is the instance domain `cozy.example.net`
itself: it is not a label, a dot and the domain, and it does not end in
".cozy.example.net"; yet `checkRedirectParam` returns the redirect with no
error, not the 400 "bad url: should be subdomain". -/
theorem checkRedirectParam_lets_instance_domain_through :
    (url.std.Parse (ascii "https://cozy.example.net/foo/bar")).toOption.map
        (fun u => (u.Scheme, u.Host)) = some (ascii "https", testInstance.Domain) ∧
    testInstance.Domain = ascii "cozy.example.net" ∧
    ¬ IsSubdomain testInstance.Domain testInstance.Domain ∧
    (ascii "." ++ testInstance.Domain).isSuffixOf testInstance.Domain = false ∧
    checkRedirectParam testEnv (request "https://cozy.example.net/foo/bar" "")
        (testInstance.SubDomain "home")
      = (ascii "https://cozy.example.net/foo/bar#", none) ∧
    checkRedirectParam testEnv (request "https://cozy.example.net/foo/bar" "")
        (testInstance.SubDomain "home")
      ≠ ([], some (.HTTPError 400 "bad url: should be subdomain")) := by
  refine ⟨by decide, by decide, ?_, by decide, by decide, by decide⟩
  intro h
  exact absurd ((notSubdomain_eq_false _ _).2 h) (by decide)

/-- C7, amended: which redirects `checkRedirectParam` lets through.  It returns
successfully exactly for an http(s) redirect whose host is the instance domain
itself or one non-empty label, a dot and the instance domain; every other
http(s) redirect (a host with an empty first label, a host other than the domain
that does not end in the dot and the domain) gets the 400 error "bad url: should
be subdomain".  So every redirect it returns successfully has a host of the
instance: the domain or one label under it.  The instance domain itself is let
through: "https://cozy.example.net/foo/bar" on the instance `cozy.example.net`
is returned as "https://cozy.example.net/foo/bar#". -/
theorem checkRedirectParam_accepts_iff (env : Env) (c : Context) (d : Str) :
    (∀ r, checkRedirectParam env c d = (r, none) ↔
      ∃ u, env.net.Parse (redirectParam c d) = .ok u ∧
        (u.Scheme = ascii "http" ∨ u.Scheme = ascii "https") ∧
        (u.Host = c.GetInstance.Domain ∨ IsSubdomain u.Host c.GetInstance.Domain) ∧
        r = env.net.URLString { u with Fragment := [] } ++ ascii "#") ∧
    (∀ u, env.net.Parse (redirectParam c d) = .ok u →
      (u.Scheme = ascii "http" ∨ u.Scheme = ascii "https") →
      u.Host ≠ c.GetInstance.Domain → ¬ IsSubdomain u.Host c.GetInstance.Domain →
      checkRedirectParam env c d = ([], some (.HTTPError 400 "bad url: should be subdomain"))) ∧
    checkRedirectParam testEnv (request "https://.cozy.example.net/foo/bar" "")
        (testInstance.SubDomain "home")
      = ([], some (.HTTPError 400 "bad url: should be subdomain")) ∧
    checkRedirectParam testEnv (request "https://evil.example.org/cozy.example.net" "")
        (testInstance.SubDomain "home")
      = ([], some (.HTTPError 400 "bad url: should be subdomain")) ∧
    checkRedirectParam testEnv (request "https://cozy.example.net/foo/bar" "")
        (testInstance.SubDomain "home")
      = (ascii "https://cozy.example.net/foo/bar#", none) := by
  refine ⟨checkRedirectParam_accepts_iff_aux env c d, ?_, by decide, by decide, by decide⟩
  · intro u hp hs h1 h2
    rw [checkRedirectParam_of_parse env c d u hp]
    have hs2 : ¬ (u.Scheme ≠ ascii "http" ∧ u.Scheme ≠ ascii "https") := by
      rintro ⟨a, b⟩
      exact hs.elim a b
    rw [if_neg hs2, if_pos ((host_rejected_iff _ _).2 ⟨h1, h2⟩)]

/-- C8, as stated, fails: a redirect to the instance domain itself is not
rejected.  For the anonymous request GET
/auth/login?redirect=https://cozy.example.net/foo/bar on the instance
`cozy.example.net`, `checkRedirectParam` returns no error and `loginForm` renders
the login page with status 200: it returns no error, so no 400. -/
theorem loginForm_instance_domain_not_rejected :
    (url.std.Parse (ascii "https://cozy.example.net/foo/bar")).toOption.map URL.Host
      = some testInstance.Domain ∧
    (checkRedirectParam testEnv (request "https://cozy.example.net/foo/bar" "")
        (testInstance.SubDomain "home")).2 = none ∧
    (loginForm testEnv (request "https://cozy.example.net/foo/bar" "")).reply
      = .Render 200 "login.html"
          [("InvalidPassphrase", .bool false),
            ("Redirect", .str (ascii "https://cozy.example.net/foo/bar#"))] ∧
    (∀ err, (loginForm testEnv (request "https://cozy.example.net/foo/bar" "")).reply
      ≠ .Err err) := by
  refine ⟨by decide, by decide, by decide, ?_⟩
  intro err h
  have e : (loginForm testEnv (request "https://cozy.example.net/foo/bar" "")).reply
      = .Render 200 "login.html"
          [("InvalidPassphrase", .bool false),
            ("Redirect", .str (ascii "https://cozy.example.net/foo/bar#"))] := by decide
  rw [e] at h
  cases h

/-- C8, amended: a redirect whose host is exactly the instance domain is
accepted.  For every http(s) redirect whose parsed host equals the instance
domain, `checkRedirectParam` returns the redirect with an empty fragment and no
error, and `loginForm` (GET /auth/login) calls nothing else and renders the login
page with status 200 (or redirects to it with 303 when the user is already
logged in).  So for "https://cozy.example.net/foo/bar" on the instance
`cozy.example.net`. -/
theorem loginForm_accepts_instance_domain (env : Env) (c : Context) :
    (∀ u, env.net.Parse (redirectParam c (c.GetInstance.SubDomain env.HomeSlug)) = .ok u →
      (u.Scheme = ascii "http" ∨ u.Scheme = ascii "https") →
      u.Host = c.GetInstance.Domain →
      checkRedirectParam env c (c.GetInstance.SubDomain env.HomeSlug)
          = (env.net.URLString { u with Fragment := [] } ++ ascii "#", none) ∧
        loginForm env c =
          { effects := []
            reply :=
              if IsLoggedIn c then
                .Redirect 303 (env.net.URLString { u with Fragment := [] } ++ ascii "#")
              else
                .Render 200 "login.html"
                  [("InvalidPassphrase", .bool false),
                    ("Redirect", .str (env.net.URLString { u with Fragment := [] } ++ ascii "#"))] }) ∧
    loginForm testEnv (request "https://cozy.example.net/foo/bar" "") =
      { effects := []
        reply := .Render 200 "login.html"
          [("InvalidPassphrase", .bool false),
            ("Redirect", .str (ascii "https://cozy.example.net/foo/bar#"))] } := by
  refine ⟨?_, by decide⟩
  intro u hp hs hh
  have hs2 : ¬ (u.Scheme ≠ ascii "http" ∧ u.Scheme ≠ ascii "https") := by
    rintro ⟨a, b⟩
    exact hs.elim a b
  have hh2 : ¬ (u.Host ≠ c.GetInstance.Domain ∧
      notSubdomain u.Host c.GetInstance.Domain = true) := by
    rintro ⟨a, _⟩
    exact a hh
  have key := checkRedirectParam_of_parse env c _ u hp
  rw [if_neg hs2, if_neg hh2] at key
  refine ⟨key, ?_⟩
  unfold loginForm
  rw [key]
  by_cases hl : IsLoggedIn c = true
  · simp [hl]
  · simp [hl]


/-- C9, as stated, fails: the text of the fragment can remain in the result.
The redirect "https://sub.cozy.example.net/foo#foo" has the fragment "foo"; it
is accepted and returned as "https://sub.cozy.example.net/foo#", in which "foo"
still appears (as the path). -/
theorem checkRedirectParam_fragment_text_remains :
    (url.Parse (ascii "https://sub.cozy.example.net/foo#foo")).toOption.map URL.Fragment
      = some (ascii "foo") ∧
    checkRedirectParam testEnv (request "https://sub.cozy.example.net/foo#foo" "")
        (testInstance.SubDomain "home")
      = (ascii "https://sub.cozy.example.net/foo#", none) ∧
    ascii "foo" <:+: ascii "https://sub.cozy.example.net/foo#" := by
  refine ⟨by decide, by decide, ⟨ascii "https://sub.cozy.example.net/", ascii "#", by decide⟩⟩

/-- C9, amended: the fragment of a redirect is always overridden by an empty
one.  For every redirect that `checkRedirectParam` accepts (the redirect
parameter, or the default when the parameter is empty), the returned string is
the parsed URL rendered with an empty fragment, followed by "#"; it ends in "#";
it does not depend on the fragment of the input (two redirects whose parsed URLs
differ only in the fragment are returned as the same string); and, with Go's
`net/url`, it is the rendering of scheme, user, host, path and query of the
parsed URL - what `String` writes before the fragment - followed by "#", the
only "#" in it. -/
theorem checkRedirectParam_overrides_fragment (env : Env) (c : Context) (d r : Str)
    (h : checkRedirectParam env c d = (r, none)) :
    ∃ u, env.net.Parse (redirectParam c d) = .ok u ∧
      r = env.net.URLString { u with Fragment := [] } ++ ascii "#" ∧
      r.getLast? = some 35 ∧
      (∀ (c2 : Context) (d2 : Str) (u2 : URL),
        c2.GetInstance.Domain = c.GetInstance.Domain →
        env.net.Parse (redirectParam c2 d2) = .ok u2 →
        { u2 with Fragment := [] } = { u with Fragment := [] } →
        checkRedirectParam env c2 d2 = (r, none)) ∧
      (env.net = url.std →
        r = u.stringNoFragment ++ ascii "#" ∧
        35 ∉ u.stringNoFragment ∧
        u.String = u.stringNoFragment ++
          (if u.Fragment ≠ [] then 35 :: escape u.Fragment .encodeFragment else [])) := by
  obtain ⟨u, hp, hsch, _, hr⟩ := ((checkRedirectParam_accepts_iff_aux env c d) r).1 h
  refine ⟨u, hp, hr, ?_, ?_, ?_⟩
  · rw [hr]
    simp [ascii]
  · intro c2 d2 u2 hd hp2 hu
    have e1 : u2.Scheme = u.Scheme := by
      have := congrArg URL.Scheme hu
      exact this
    have e2 : u2.Host = u.Host := by
      have := congrArg URL.Host hu
      exact this
    have k1 := checkRedirectParam_of_parse env c d u hp
    have k2 := checkRedirectParam_of_parse env c2 d2 u2 hp2
    rw [h] at k1
    rw [k2, hu, e1, e2, hd]
    exact k1.symm
  · intro hn
    refine ⟨?_, ?_, ?_⟩
    · rw [hr, hn]
      rfl
    · rw [hn] at hp
      have hraw := Parse_raw_no_hash _ u hp
      have hs : 35 ∉ u.Scheme := by
        rcases hsch with e | e <;> rw [e] <;> decide
      exact stringNoFragment_no_hash u hs hraw.1 hraw.2.1 hraw.2.2
    · unfold URL.String
      by_cases hf : u.Fragment ≠ []
      · simp [hf]
      · simp [hf]

/-- Witness for C9: the redirect of the tests,
"https://sub.cozy.example.net/foo/bar?query=foo#myfragment", is returned as
"https://sub.cozy.example.net/foo/bar?query=foo#". -/
theorem checkRedirectParam_overrides_fragment_witness :
    checkRedirectParam testEnv
        (request "https://sub.cozy.example.net/foo/bar?query=foo#myfragment" "")
        (testInstance.SubDomain "home")
      = (ascii "https://sub.cozy.example.net/foo/bar?query=foo#", none) ∧
    checkRedirectParam testEnv (request "" "") (testInstance.SubDomain "home")
      = (ascii "https://home.cozy.example.net/#", none) ∧
    ∃ u, testEnv.net.Parse (redirectParam
          (request "https://sub.cozy.example.net/foo/bar?query=foo#myfragment" "")
          (testInstance.SubDomain "home")) = .ok u ∧
      ascii "https://sub.cozy.example.net/foo/bar?query=foo#"
        = testEnv.net.URLString { u with Fragment := [] } ++ ascii "#" ∧
      (ascii "https://sub.cozy.example.net/foo/bar?query=foo#").getLast? = some 35 :=
  ⟨by decide, by decide,
    (checkRedirectParam_overrides_fragment testEnv
      (request "https://sub.cozy.example.net/foo/bar?query=foo#myfragment" "")
      (testInstance.SubDomain "home")
      (ascii "https://sub.cozy.example.net/foo/bar?query=foo#") (by decide)).imp
      fun _ hu => ⟨hu.1, hu.2.1, hu.2.2.1⟩⟩

/-- C10, as stated, fails: an accepted passphrase does not always give a 303.
On the test instance with a session store that fails, an anonymous POST
/auth/login with the right passphrase and no redirect parameter has an
acceptable redirect and an accepted passphrase, yet the handler returns the
error of `NewSession`: no redirect, and no cookie. -/
theorem login_good_passphrase_without_redirect :
    IsLoggedIn (request "" "MyPassphrase") = false ∧
    checkRedirectParam brokenStoreEnv (request "" "MyPassphrase")
        (testInstance.SubDomain "home")
      = (ascii "https://home.cozy.example.net/#", none) ∧
    testInstance.CheckPassphrase (ascii "MyPassphrase") = none ∧
    login brokenStoreEnv (request "" "MyPassphrase") =
      { effects := [.CheckPassphrase (ascii "MyPassphrase"), .NewSession]
        reply := .Err (.other "session store unavailable") } ∧
    (login brokenStoreEnv (request "" "MyPassphrase")).cookies = [] := by
  refine ⟨by decide, by decide, by decide, by decide, by decide⟩

/-- C10, amended: outcome of POST /auth/login for a request that is not already
logged in and carries an acceptable redirect.  If the instance rejects the
passphrase, the response is 401 Unauthorized rendering the login page with
InvalidPassphrase = true, and no cookie is set.  If the instance accepts it and
the session and its cookie are created, the response is 303 See Other to the
checked redirect and exactly that one session cookie is set.  If the instance
accepts it and creating the session or its cookie fails, the handler returns
that error and sets no cookie.  Without a redirect parameter the checked
redirect is the home sub-domain, parsed and rendered with an empty fragment,
followed by "#". -/
theorem login_outcome (env : Env) (c : Context) (r : Str)
    (hr : checkRedirectParam env c (c.GetInstance.SubDomain env.HomeSlug) = (r, none))
    (hl : IsLoggedIn c = false) :
    (∀ e, c.GetInstance.CheckPassphrase (c.FormValue "passphrase") = some e →
      login env c =
        { effects := [.CheckPassphrase (c.FormValue "passphrase")]
          reply := .Render 401 "login.html"
            [("InvalidPassphrase", .bool true), ("Redirect", .str r)] } ∧
      (login env c).cookies = []) ∧
    (c.GetInstance.CheckPassphrase (c.FormValue "passphrase") = none →
      (∀ s ck, env.NewSession c.GetInstance = .ok s → env.ToCookie s = .ok ck →
        (login env c).reply = .Redirect 303 r ∧ (login env c).cookies = [ck]) ∧
      (∀ e, env.NewSession c.GetInstance = .error e →
        (login env c).reply = .Err e ∧ (login env c).cookies = []) ∧
      (∀ s e, env.NewSession c.GetInstance = .ok s → env.ToCookie s = .error e →
        (login env c).reply = .Err e ∧ (login env c).cookies = [])) ∧
    (c.FormValue "redirect" = [] →
      ∃ u, env.net.Parse (c.GetInstance.SubDomain env.HomeSlug) = .ok u ∧
        r = env.net.URLString { u with Fragment := [] } ++ ascii "#") := by
  refine ⟨?_, ?_, ?_⟩
  · intro e he
    simp [login, hr, hl, he, Result.cookies]
  · intro hc
    refine ⟨?_, ?_, ?_⟩
    · intro s ck hs hck
      simp [login, hr, hl, hc, redirectSuccessLogin, hs, hck, Result.cookies]
    · intro e hs
      simp [login, hr, hl, hc, redirectSuccessLogin, hs, Result.cookies]
    · intro s e hs hck
      simp [login, hr, hl, hc, redirectSuccessLogin, hs, hck, Result.cookies]
  · intro hempty
    obtain ⟨u, hp, _, _, hu⟩ := ((checkRedirectParam_accepts_iff_aux env c _) r).1 hr
    refine ⟨u, ?_, hu⟩
    rw [← hp]
    simp [redirectParam, hempty]

/-- Witness for C10: the requests of the tests.  With the right passphrase and
no redirect parameter the answer is 303 to "https://home.cozy.example.net/#"
with one session cookie; with the passphrase "Nope" it is 401 without cookie. -/
theorem login_outcome_witness :
    (checkRedirectParam testEnv (request "" "MyPassphrase")
        ((request "" "MyPassphrase").GetInstance.SubDomain testEnv.HomeSlug)
      = (ascii "https://home.cozy.example.net/#", none) ∧
    IsLoggedIn (request "" "MyPassphrase") = false) ∧
    ((login testEnv (request "" "MyPassphrase")).reply
        = .Redirect 303 (ascii "https://home.cozy.example.net/#") ∧
      (login testEnv (request "" "MyPassphrase")).cookies
        = [{ name := "cozysessid", value := ascii "s1" }]) ∧
    (login testEnv (request "" "Nope") =
        { effects := [.CheckPassphrase (ascii "Nope")]
          reply := .Render 401 "login.html"
            [("InvalidPassphrase", .bool true),
              ("Redirect", .str (ascii "https://home.cozy.example.net/#"))] } ∧
      (login testEnv (request "" "Nope")).cookies = []) :=
  ⟨⟨by decide, by decide⟩,
    ((login_outcome testEnv (request "" "MyPassphrase") (ascii "https://home.cozy.example.net/#")
      (by decide) (by decide)).2.1 (by decide)).1 { id := ascii "s1" }
      { name := "cozysessid", value := ascii "s1" } rfl rfl,
    (login_outcome testEnv (request "" "Nope") (ascii "https://home.cozy.example.net/#")
      (by decide) (by decide)).1 (.other "invalid passphrase") (by decide)⟩

end auth

namespace hex

open url

/-- The loop of `hex.Decode` over a string of `2 * n` bytes fails exactly when
some byte is not a hexadecimal digit. -/
theorem decodePairs_error_iff_aux (n : Nat) :
    ∀ s : Str, s.length = 2 * n →
      ((∃ e, decodePairs s = .error e) ↔ ∃ c ∈ s, fromHexChar c = none) := by
  induction n with
  | zero =>
    intro s hs
    have : s = [] := List.length_eq_zero.1 (by omega)
    subst this
    simp [decodePairs]
  | succ n ih =>
    intro s hs
    match s, hs with
    | a :: b :: rest, hs =>
      have hr : rest.length = 2 * n := by
        simp only [List.length_cons] at hs
        omega
      have ih' := ih rest hr
      unfold decodePairs
      cases ha : fromHexChar a with
      | none => simp [ha]
      | some x =>
        cases hb : fromHexChar b with
        | none =>
          simp only [List.mem_cons, exists_eq_or_imp, ha, hb]
          simp
        | some y =>
          cases hd : decodePairs rest with
          | error e =>
            have := ih'.1 ⟨e, hd⟩
            simp only [List.mem_cons, exists_eq_or_imp, ha, hb]
            simpa using this
          | ok bytes =>
            have hn : ¬ ∃ c ∈ rest, fromHexChar c = none := by
              intro hc
              obtain ⟨e, he⟩ := ih'.2 hc
              rw [hd] at he
              cases he
            simp only [List.mem_cons, exists_eq_or_imp, ha, hb]
            simpa using hn
    | [_], hs => simp at hs; omega
    | [], hs => simp at hs

/-- The loop of `hex.Decode` over a string of even length fails exactly when some
byte is not a hexadecimal digit. -/
theorem decodePairs_error_iff (s : Str) (h : s.length % 2 = 0) :
    (∃ e, decodePairs s = .error e) ↔ ∃ c ∈ s, fromHexChar c = none :=
  decodePairs_error_iff_aux (s.length / 2) s (by omega)

/-- Go's `hex.DecodeString` fails exactly on the strings that are not valid
hexadecimal: those of odd length and those with a byte that is not a
hexadecimal digit. -/
theorem DecodeString_error_iff (s : Str) :
    (∃ e, DecodeString s = .error e) ↔
      (s.length % 2 = 1 ∨ ∃ c ∈ s, fromHexChar c = none) := by
  unfold DecodeString
  by_cases h : s.length % 2 = 1
  · simp [h]
  · have h0 : s.length % 2 = 0 := by omega
    simp only [h, if_false, false_or]
    exact decodePairs_error_iff s h0

end hex

namespace auth

open url

/-- Every error of `checkRedirectParam` is a 400 Bad Request error. -/
theorem checkRedirectParam_error_is_400 (env : Env) (c : Context) (d r : Str) (err : Error)
    (h : checkRedirectParam env c d = (r, some err)) :
    ∃ message, err = .HTTPError 400 message := by
  cases hp : env.net.Parse (redirectParam c d) with
  | error e =>
    rw [checkRedirectParam_of_parse_error env c d e hp] at h
    simp only [Prod.mk.injEq, Option.some.injEq] at h
    exact ⟨_, h.2.symm⟩
  | ok u =>
    rw [checkRedirectParam_of_parse env c d u hp] at h
    split at h
    · simp only [Prod.mk.injEq, Option.some.injEq] at h
      exact ⟨_, h.2.symm⟩
    · split at h
      · simp only [Prod.mk.injEq, Option.some.injEq] at h
        exact ⟨_, h.2.symm⟩
      · simp at h

/-- C11: an invalid redirect makes login fail before the passphrase is looked
at.  For every POST /auth/login whose redirect is rejected by
`checkRedirectParam`, the handler returns that error, a 400 Bad Request error,
whatever the passphrase is and whether or not the user is logged in; it has
called nothing: no `CheckPassphrase`, no session is created, no cookie is set. -/
theorem login_rejects_bad_redirect_first (env : Env) (c : Context) (r : Str) (err : Error)
    (h : checkRedirectParam env c (c.GetInstance.SubDomain env.HomeSlug) = (r, some err)) :
    login env c = { effects := [], reply := .Err err } ∧
    (login env c).cookies = [] ∧
    (∀ p, Effect.CheckPassphrase p ∉ (login env c).effects) ∧
    Effect.NewSession ∉ (login env c).effects ∧
    ∃ message, err = .HTTPError 400 message := by
  have hl : login env c = { effects := [], reply := .Err err } := by
    simp [login, h]
  refine ⟨hl, ?_, ?_, ?_, checkRedirectParam_error_is_400 env c _ r err h⟩
  · rw [hl]
    rfl
  · intro p
    rw [hl]
    simp
  · rw [hl]
    simp

/-- Witness for C11: the request of the tests, with the redirect "foo.bar" and
the right passphrase, gets the 400 error and nothing is called. -/
theorem login_rejects_bad_redirect_first_witness :
    (checkRedirectParam testEnv (request "foo.bar" "MyPassphrase")
        ((request "foo.bar" "MyPassphrase").GetInstance.SubDomain testEnv.HomeSlug)
      = ([], some (.HTTPError 400 "bad url: bad scheme")) ∧
      testInstance.CheckPassphrase (ascii "MyPassphrase") = none) ∧
    login testEnv (request "foo.bar" "MyPassphrase")
      = { effects := [], reply := .Err (.HTTPError 400 "bad url: bad scheme") } :=
  ⟨⟨by decide, by decide⟩,
    (login_rejects_bad_redirect_first testEnv (request "foo.bar" "MyPassphrase") []
      (.HTTPError 400 "bad url: bad scheme") (by decide)).1⟩

/-- C12, as stated, fails: a register token that decodes and is accepted does not
always give a 303.  On the test instance with a session store that fails, POST
/register with the right token is accepted by `RegisterPassphrase`, yet the
handler returns the error of `NewSession`: no redirect, and no cookie. -/
theorem register_good_token_without_redirect :
    testEnv.DecodeString (ascii "deadbeef") = .ok [222, 173, 190, 239] ∧
    testInstance.RegisterPassphrase (ascii "MyPassphrase") [222, 173, 190, 239] = none ∧
    register brokenStoreEnv
        (formRequest [("registerToken", "deadbeef"), ("passphrase", "MyPassphrase")]) =
      { effects := [.RegisterPassphrase (ascii "MyPassphrase") [222, 173, 190, 239], .NewSession]
        reply := .Err (.other "session store unavailable") } ∧
    (register brokenStoreEnv
        (formRequest [("registerToken", "deadbeef"), ("passphrase", "MyPassphrase")])).cookies
      = [] := by
  refine ⟨rfl, by decide, by decide, by decide⟩

/-- C12, amended: POST /register succeeds only with a correct register token.
If the token does not decode (with Go's `hex.DecodeString`: a string of odd
length such as "BADBEEF" or "XYZ", or one with a byte that is not a hexadecimal
digit), the handler returns a 400 Bad Request error without calling
`RegisterPassphrase`; if the decoded token is refused by `RegisterPassphrase`,
it returns a 400 Bad Request error; in both cases no cookie is set.  If the token
decodes and is accepted and the session and its cookie are created, the response
is 303 See Other to the onboarding sub-domain with exactly that one session
cookie; if creating the session or its cookie fails, the handler returns that
error and sets no cookie. -/
theorem register_outcome (env : Env) (c : Context) :
    (∀ err, env.DecodeString (c.FormValue "registerToken") = .error err →
      register env c = { effects := [], reply := .Err (.JSONAPI 400 err) }) ∧
    (∀ token err, env.DecodeString (c.FormValue "registerToken") = .ok token →
      c.GetInstance.RegisterPassphrase (c.FormValue "passphrase") token = some err →
      register env c =
        { effects := [.RegisterPassphrase (c.FormValue "passphrase") token]
          reply := .Err (.JSONAPI 400 err) } ∧
      (register env c).cookies = []) ∧
    (∀ token, env.DecodeString (c.FormValue "registerToken") = .ok token →
      c.GetInstance.RegisterPassphrase (c.FormValue "passphrase") token = none →
      (∀ s ck, env.NewSession c.GetInstance = .ok s → env.ToCookie s = .ok ck →
        (register env c).reply = .Redirect 303 (c.GetInstance.SubDomain env.OnboardingSlug) ∧
        (register env c).cookies = [ck]) ∧
      (∀ e, env.NewSession c.GetInstance = .error e →
        (register env c).reply = .Err e ∧ (register env c).cookies = []) ∧
      (∀ s e, env.NewSession c.GetInstance = .ok s → env.ToCookie s = .error e →
        (register env c).reply = .Err e ∧ (register env c).cookies = [])) ∧
    (∀ s : Str, (∃ e, hex.DecodeString s = .error e) ↔
      (s.length % 2 = 1 ∨ ∃ b ∈ s, hex.fromHexChar b = none)) ∧
    register testEnv (formRequest [("registerToken", "BADBEEF"), ("passphrase", "MyPassphrase")])
      = { effects := []
          reply := .Err (.JSONAPI 400 (.other "encoding/hex: odd length hex string")) } ∧
    register testEnv (formRequest [("registerToken", "XYZ"), ("passphrase", "MyPassphrase")])
      = { effects := []
          reply := .Err (.JSONAPI 400 (.other "encoding/hex: odd length hex string")) } ∧
    register testEnv (formRequest [("registerToken", "deadbeef"), ("passphrase", "MyPassphrase")])
      = { effects := [.RegisterPassphrase (ascii "MyPassphrase") [222, 173, 190, 239],
            .NewSession, .ToCookie { id := ascii "s1" },
            .SetCookie { name := "cozysessid", value := ascii "s1" }]
          reply := .Redirect 303 (ascii "https://onboarding.cozy.example.net/") } ∧
    register testEnv (formRequest [("registerToken", "dezz"), ("passphrase", "MyPassphrase")])
      = { effects := []
          reply := .Err (.JSONAPI 400 (.other "encoding/hex: invalid byte: U+007A 'z'")) } := by
  refine ⟨?_, ?_, ?_, hex.DecodeString_error_iff, by decide, by decide, by decide, by decide⟩
  · intro err he
    simp [register, he, jsonapi.NewError]
  · intro token err ht hr
    simp [register, ht, hr, jsonapi.BadRequest, Result.cookies]
  · intro token ht hr
    refine ⟨?_, ?_, ?_⟩
    · intro s ck hs hck
      simp [register, ht, hr, redirectSuccessLogin, hs, hck, Result.cookies]
    · intro e hs
      simp [register, ht, hr, redirectSuccessLogin, hs, Result.cookies]
    · intro s e hs hck
      simp [register, ht, hr, redirectSuccessLogin, hs, hck, Result.cookies]

/-- Cutting a string at the first occurrence of a byte, as `strings.Index` finds
it. -/
theorem take_index_eq_takeWhile (b : Nat) (s : Str) :
    (match index [b] s with
      | none => s
      | some m => s.take m) = s.takeWhile (fun x => x ≠ b) := by
  induction s with
  | nil => simp [index]
  | cons x xs ih =>
    rw [index_byte_cons]
    by_cases hx : x = b
    · simp [hx]
    · simp only [hx, if_false]
      cases hi : index [b] xs with
      | none =>
        rw [hi] at ih
        simp only [Option.map_none', List.takeWhile_cons, ne_eq, hx, not_false_eq_true,
          decide_True, if_true]
        simp only at ih
        rw [← ih]
      | some m =>
        rw [hi] at ih
        simp only [Option.map_some', List.take_succ_cons, List.takeWhile_cons, ne_eq, hx,
          not_false_eq_true, decide_True, if_true]
        simp only at ih
        rw [← ih]

/-- The content type `registerClient` tests is the `Content-Type` header up to
its first `;`. -/
theorem contentType_eq_takeWhile (c : Context) :
    contentType c = (c.Header "Content-Type").takeWhile (fun x => x ≠ 59) := by
  unfold contentType
  by_cases h : c.Header "Content-Type" = []
  · simp [h]
  · rw [if_pos h]
    have hsemi : ascii ";" = [59] := rfl
    obtain ⟨x, xs, hx⟩ := List.exists_cons_of_ne_nil h
    have key := take_index_eq_takeWhile 59 (c.Header "Content-Type")
    rw [← key]
    unfold Split
    rw [hsemi, hx]
    simp only [List.length_cons, SplitN]
    cases index [59] (x :: xs) <;> simp

/-- C13: `registerClient` accepts only JSON bodies.  For every request whose
`Content-Type` header, cut at its first ";", is not exactly "application/json"
(a missing header, "application/x-www-form-urlencoded"), the response is 400 Bad
Request with the JSON body {"error": "bad_content_type"}, and no client is bound
or created; a header that is "application/json", alone or followed by ";" and
parameters, passes this check: the body is bound. -/
theorem registerClient_content_type (env : Env) (c : Context) :
    ((c.Header "Content-Type").takeWhile (fun x => x ≠ 59) ≠ ascii "application/json" →
      registerClient env c =
        { effects := [], reply := .JSON 400 (.map [("error", .text "bad_content_type")]) }) ∧
    ((c.Header "Content-Type").takeWhile (fun x => x ≠ 59) = ascii "application/json" →
      (registerClient env c).effects.head? = some .Bind) ∧
    (∀ parameters : Str,
      c.Header "Content-Type" = ascii "application/json" ++ ascii ";" ++ parameters →
      (registerClient env c).effects.head? = some .Bind) ∧
    registerClient testEnv (jsonRequest "")
      = { effects := [], reply := .JSON 400 (.map [("error", .text "bad_content_type")]) } ∧
    registerClient testEnv (jsonRequest "application/x-www-form-urlencoded")
      = { effects := [], reply := .JSON 400 (.map [("error", .text "bad_content_type")]) } ∧
    (registerClient testEnv (jsonRequest "application/json; charset=utf-8")).effects
      = [.Bind, .CreateClient { clientA with CouchID := [] }] := by
  have hpass : (c.Header "Content-Type").takeWhile (fun x => x ≠ 59) = ascii "application/json" →
      (registerClient env c).effects.head? = some .Bind := by
    intro h
    unfold registerClient
    rw [contentType_eq_takeWhile, h]
    simp only [ne_eq, not_true_eq_false, if_false]
    cases c.Bind with
    | error e => rfl
    | ok client =>
      simp only []
      cases hcc : env.CreateClient client <;> rfl
  refine ⟨?_, hpass, ?_, by decide, by decide, by decide⟩
  · intro h
    unfold registerClient
    rw [contentType_eq_takeWhile, if_pos h]
  · intro parameters hp
    apply hpass
    rw [hp]
    have h1 : ascii ";" = [59] := rfl
    rw [h1, List.append_assoc, List.takeWhile_append_of_pos]
    · simp
    · decide

end auth

namespace auth

open url

/-- C14: `checkAuthorizeParams` reports no error (false, nil) if and only if
state, client_id, redirect_uri and scope are all non-empty, client_id names a
registered client document, and that client accepts the redirect_uri.  In every
other case it reports hasError = true after rendering a 400 error page whose
message is that of the first failing check, in the order state, client_id,
redirect_uri, scope ("The <name> parameter is mandatory"), then "The client must
be registered", then "The redirect_uri parameter doesn't match the registered
ones". -/
theorem checkAuthorizeParams_first_failing_check (env : Env) (store : Store)
    (params : authorizeParams) :
    ((checkAuthorizeParams env store params).hasError = false ↔
      (params.state ≠ [] ∧ params.clientID ≠ [] ∧ params.redirectURI ≠ [] ∧ params.scope ≠ [] ∧
        ∃ client, store.GetClient params.clientID = some client ∧
          env.AcceptRedirectURI client params.redirectURI = true)) ∧
    ((checkAuthorizeParams env store params).hasError = false →
      (checkAuthorizeParams env store params).page = none) ∧
    ((checkAuthorizeParams env store params).hasError = true →
      ∃ message, (checkAuthorizeParams env store params).page
        = some (.Render 400 "error.html" [("Error", .text message)])) ∧
    (params.state = [] →
      (checkAuthorizeParams env store params).page
        = some (errorPage 400 "The state parameter is mandatory")) ∧
    (params.state ≠ [] → params.clientID = [] →
      (checkAuthorizeParams env store params).page
        = some (errorPage 400 "The client_id parameter is mandatory")) ∧
    (params.state ≠ [] → params.clientID ≠ [] → params.redirectURI = [] →
      (checkAuthorizeParams env store params).page
        = some (errorPage 400 "The redirect_uri parameter is mandatory")) ∧
    (params.state ≠ [] → params.clientID ≠ [] → params.redirectURI ≠ [] → params.scope = [] →
      (checkAuthorizeParams env store params).page
        = some (errorPage 400 "The scope parameter is mandatory")) ∧
    (params.state ≠ [] → params.clientID ≠ [] → params.redirectURI ≠ [] → params.scope ≠ [] →
      store.GetClient params.clientID = none →
      (checkAuthorizeParams env store params).page
        = some (errorPage 400 "The client must be registered")) ∧
    (params.state ≠ [] → params.clientID ≠ [] → params.redirectURI ≠ [] → params.scope ≠ [] →
      ∀ client, store.GetClient params.clientID = some client →
      env.AcceptRedirectURI client params.redirectURI = false →
      (checkAuthorizeParams env store params).page
        = some (errorPage 400 "The redirect_uri parameter doesn't match the registered ones")) := by
  unfold checkAuthorizeParams
  by_cases h1 : params.state = []
  · simp [h1, Checked.hasError, Checked.page, errorPage]
  by_cases h2 : params.clientID = []
  · simp [h1, h2, Checked.hasError, Checked.page, errorPage]
  by_cases h3 : params.redirectURI = []
  · simp [h1, h2, h3, Checked.hasError, Checked.page, errorPage]
  by_cases h4 : params.scope = []
  · simp [h1, h2, h3, h4, Checked.hasError, Checked.page, errorPage]
  cases h5 : store.GetClient params.clientID with
  | none => simp [h1, h2, h3, h4, h5, Checked.hasError, Checked.page, errorPage]
  | some client =>
    cases h6 : env.AcceptRedirectURI client params.redirectURI <;>
      simp [h1, h2, h3, h4, h5, h6, Checked.hasError, Checked.page, errorPage]

/-- C15: `authorizeForm` supports only the code response type.  For every GET
/auth/authorize whose response_type query parameter is not exactly "code" (so
"token", or an absent parameter), the response is the 400 error page saying
"Invalid response type", whatever the other parameters and the store are and
whether or not the user is logged in, and the client store is not queried. -/
theorem authorizeForm_only_code (env : Env) (c : Context) (store : Store) :
    (c.QueryParam "response_type" ≠ ascii "code" →
      authorizeForm env c store =
        { effects := []
          reply := .Render 400 "error.html" [("Error", .text "Invalid response type")] }) ∧
    (∀ loggedIn : Bool,
      authorizeForm testEnv
          (queryRequest loggedIn
            [("response_type", "token"), ("state", "123456"), ("scope", "files:read"),
              ("redirect_uri", "https://example.org/oauth/callback"), ("client_id", "clientA")])
          testStore =
        { effects := []
          reply := .Render 400 "error.html" [("Error", .text "Invalid response type")] } ∧
      authorizeForm testEnv
          (queryRequest loggedIn
            [("state", "123456"), ("scope", "files:read"),
              ("redirect_uri", "https://example.org/oauth/callback"), ("client_id", "clientA")])
          testStore =
        { effects := []
          reply := .Render 400 "error.html" [("Error", .text "Invalid response type")] }) ∧
    (authorizeForm testEnv
        (queryRequest true
          [("response_type", "code"), ("state", "123456"), ("scope", "files:read"),
            ("redirect_uri", "https://example.org/oauth/callback"), ("client_id", "clientA")])
        testStore).effects = [.GetClient (ascii "clientA")] := by
  refine ⟨?_, ?_, by decide⟩
  · intro h
    simp [authorizeForm, h, errorPage]
  · intro loggedIn
    cases loggedIn <;> exact ⟨by decide, by decide⟩

end auth

namespace auth

open url

/-- The last lines of `accessToken` leave the store alone and answer 200 with the
token response, or 500. -/
theorem sendAccessToken_spec (env : Env) (client : Client) (out : accessTokenReponse)
    (effects : List Effect) (store : Store) :
    (sendAccessToken env client out effects store).2 = store ∧
    (sendAccessToken env client out effects store).1.effects
      = effects ++ [.CreateJWT client.CouchID .AccessTokenAudience out.Scope] ∧
    ((∃ access, env.CreateJWT client .AccessTokenAudience out.Scope = .ok access ∧
        (sendAccessToken env client out effects store).1.reply
          = .JSON 200 (.token { out with Access := access })) ∨
      ((∃ e, env.CreateJWT client .AccessTokenAudience out.Scope = .error e) ∧
        (sendAccessToken env client out effects store).1.reply
          = jsonError 500 "Can't generate access token")) := by
  unfold sendAccessToken
  cases h : env.CreateJWT client .AccessTokenAudience out.Scope <;> simp

/-- With a missing, unknown or wrong credential `accessToken` answers 400, leaves
the store alone, and has at most looked the client up. -/
theorem accessToken_unauthenticated (env : Env) (c : Context) (store : Store)
    (h : ¬ ∃ client, Authenticated c store client) :
    (accessToken env c store).2 = store ∧
    (∃ message, (accessToken env c store).1.reply = jsonError 400 message) ∧
    ((accessToken env c store).1.effects = [] ∨
      (accessToken env c store).1.effects = [.GetClient (c.FormValue "client_id")]) := by
  unfold accessToken
  by_cases h1 : c.FormValue "grant_type" = []
  · simp [h1]
  by_cases h2 : c.FormValue "client_id" = []
  · simp [h1, h2]
  by_cases h3 : c.FormValue "client_secret" = []
  · simp [h1, h2, h3]
  cases h4 : store.GetClient (c.FormValue "client_id") with
  | none => simp [h1, h2, h3, h4]
  | some client =>
    have h5 : c.FormValue "client_secret" ≠ client.ClientSecret := by
      intro h5
      exact h ⟨client, h1, h2, h3, h4, h5⟩
    simp [h1, h2, h3, h4, ConstantTimeCompare, h5]

/-- With the credentials of a registered client `accessToken` goes on to the
grant named by grant_type. -/
theorem accessToken_authenticated (env : Env) (c : Context) (store : Store) (client : Client)
    (h : Authenticated c store client) :
    accessToken env c store =
      if c.FormValue "grant_type" = ascii "authorization_code" then
        authorizationCodeGrant env c client
          { TokenType := "bearer", Scope := [], Access := [], Refresh := [] }
          [.GetClient (c.FormValue "client_id")] store
      else if c.FormValue "grant_type" = ascii "refresh_token" then
        refreshTokenGrant env c client
          { TokenType := "bearer", Scope := [], Access := [], Refresh := [] }
          [.GetClient (c.FormValue "client_id")] store
      else
        ({ effects := [.GetClient (c.FormValue "client_id")],
           reply := jsonError 400 "invalid grant type" }, store) := by
  obtain ⟨h1, h2, h3, h4, h5⟩ := h
  have h3' : client.ClientSecret ≠ [] := h5 ▸ h3
  unfold accessToken
  simp [h1, h2, h3', h4, ConstantTimeCompare, h5]

/-- An answer 200 of the authorization_code grant carries the token response of
the access code, and the access code has been deleted unless the store failed
to delete it. -/
theorem authorizationCodeGrant_ok (env : Env) (c : Context) (client : Client)
    (out : accessTokenReponse) (effects : List Effect) (store : Store) (body : Body)
    (h : (authorizationCodeGrant env c client out effects store).1.reply = .JSON 200 body) :
    ∃ accessCode refresh access,
      c.FormValue "code" ≠ [] ∧
      store.GetAccessCode (c.FormValue "code") = some accessCode ∧
      env.CreateJWT client .RefreshTokenAudience accessCode.Scope = .ok refresh ∧
      env.CreateJWT client .AccessTokenAudience accessCode.Scope = .ok access ∧
      body = .token { out with Scope := accessCode.Scope, Refresh := refresh, Access := access } ∧
      (authorizationCodeGrant env c client out effects store).2
        = (match env.DeleteDocError with
          | some _ => store
          | none => store.DeleteAccessCode accessCode) := by
  unfold authorizationCodeGrant at h ⊢
  by_cases h1 : c.FormValue "code" = []
  · simp [h1, jsonError] at h
  cases h2 : store.GetAccessCode (c.FormValue "code") with
  | none => simp [h1, h2, jsonError] at h
  | some accessCode =>
    cases h3 : env.CreateJWT client .RefreshTokenAudience accessCode.Scope with
    | error e => simp [h1, h2, h3, jsonError] at h
    | ok refresh =>
      simp only [h1, if_false, h2, h3] at h ⊢
      cases h4 : env.DeleteDocError with
      | some err =>
        simp only [h4] at h ⊢
        have hs := sendAccessToken_spec env client
          { out with Scope := accessCode.Scope, Refresh := refresh }
          (effects ++ [.GetAccessCode (c.FormValue "code"),
            .CreateJWT client.CouchID .RefreshTokenAudience accessCode.Scope,
            .DeleteAccessCode accessCode.Code,
            .LogError "[oauth] Failed to delete the access code: %s" err]) store
        rcases hs.2.2 with ⟨access, ha, hr⟩ | ⟨_, hr⟩
        · rw [hr] at h
          simp only [Reply.JSON.injEq, true_and] at h
          exact ⟨accessCode, refresh, access, h1, rfl, h3, ha, h.symm, hs.1⟩
        · rw [hr] at h
          simp [jsonError] at h
      | none =>
        simp only [h4] at h ⊢
        have hs := sendAccessToken_spec env client
          { out with Scope := accessCode.Scope, Refresh := refresh }
          (effects ++ [.GetAccessCode (c.FormValue "code"),
            .CreateJWT client.CouchID .RefreshTokenAudience accessCode.Scope,
            .DeleteAccessCode accessCode.Code]) (store.DeleteAccessCode accessCode)
        rcases hs.2.2 with ⟨access, ha, hr⟩ | ⟨_, hr⟩
        · rw [hr] at h
          simp only [Reply.JSON.injEq, true_and] at h
          exact ⟨accessCode, refresh, access, h1, rfl, h3, ha, h.symm, hs.1⟩
        · rw [hr] at h
          simp [jsonError] at h

/-- An answer 200 of the refresh_token grant carries a bearer token response. -/
theorem refreshTokenGrant_ok (env : Env) (c : Context) (client : Client)
    (out : accessTokenReponse) (effects : List Effect) (store : Store) (body : Body)
    (h : (refreshTokenGrant env c client out effects store).1.reply = .JSON 200 body) :
    ∃ out2 : accessTokenReponse, body = .token out2 ∧ out2.TokenType = out.TokenType := by
  unfold refreshTokenGrant at h
  cases h1 : env.ValidRefreshToken client (c.FormValue "refresh_token") with
  | none => simp [h1, jsonError] at h
  | some scope =>
    simp only [h1] at h
    have hs := sendAccessToken_spec env client { out with Scope := scope }
      (effects ++ [.ValidRefreshToken client.CouchID (c.FormValue "refresh_token")]) store
    rcases hs.2.2 with ⟨access, _, hr⟩ | ⟨_, hr⟩
    · rw [hr] at h
      simp only [Reply.JSON.injEq, true_and] at h
      exact ⟨_, h.symm, rfl⟩
    · rw [hr] at h
      simp [jsonError] at h

/-- A deleted access code is not found any more. -/
theorem GetAccessCode_after_delete (store : Store) (code : Str) (accessCode : AccessCode)
    (h : store.GetAccessCode code = some accessCode) :
    (store.DeleteAccessCode accessCode).GetAccessCode code = none ∧
    ∀ id, (store.DeleteAccessCode accessCode).GetClient id = store.GetClient id := by
  have hc : accessCode.Code = code := by
    have := List.find?_some h
    simpa using this
  refine ⟨?_, fun _ => rfl⟩
  unfold Store.GetAccessCode Store.DeleteAccessCode
  simp only [List.find?_eq_none, List.mem_filter, decide_eq_true_eq, hc]
  intro x hx
  simpa using hx.2

end auth

namespace auth

open url

/-- The outcome of the last lines of `accessToken` does not depend on the store,
which they hand back as it is. -/
theorem sendAccessToken_store (env : Env) (client : Client) (out : accessTokenReponse)
    (effects : List Effect) (s s0 : Store) :
    sendAccessToken env client out effects s
      = ((sendAccessToken env client out effects s0).1, s) := by
  unfold sendAccessToken
  cases env.CreateJWT client .AccessTokenAudience out.Scope <;> rfl

/-- The last lines of `accessToken` hand the store back as it is. -/
theorem sendAccessToken_snd (env : Env) (client : Client) (out : accessTokenReponse)
    (effects : List Effect) (s : Store) : (sendAccessToken env client out effects s).2 = s :=
  (sendAccessToken_spec env client out effects s).1

/-- Replacing the client id recorded in an access-code document changes neither
its id nor its scope. -/
theorem withClient_fields (a : AccessCode) (code clientID : Str) :
    (a.withClient code clientID).Code = a.Code ∧ (a.withClient code clientID).Scope = a.Scope := by
  unfold AccessCode.withClient
  split <;> exact ⟨rfl, rfl⟩

/-- Reading an access code from the store in which a recorded client id has been
replaced. -/
theorem withCodeClient_GetAccessCode (store : Store) (code clientID k : Str) :
    (store.withCodeClient code clientID).GetAccessCode k
      = (store.GetAccessCode k).map fun a => a.withClient code clientID := by
  unfold Store.withCodeClient Store.GetAccessCode
  simp only [List.find?_map]
  congr 2
  funext a
  simp [Function.comp, (withClient_fields a code clientID).1]

/-- Deleting an access code commutes with replacing a recorded client id. -/
theorem withCodeClient_DeleteAccessCode (store : Store) (code clientID : Str) (a : AccessCode) :
    (store.withCodeClient code clientID).DeleteAccessCode (a.withClient code clientID)
      = (store.DeleteAccessCode a).withCodeClient code clientID := by
  unfold Store.withCodeClient Store.DeleteAccessCode
  simp only [List.filter_map, Store.mk.injEq, true_and]
  congr 2
  funext x
  simp [Function.comp, (withClient_fields x code clientID).1, (withClient_fields a code clientID).1]

/-- The authorization_code grant does not look at the client id recorded in the
access-code document. -/
theorem authorizationCodeGrant_withCodeClient (env : Env) (c : Context) (client : Client)
    (out : accessTokenReponse) (effects : List Effect) (store : Store) (code clientID : Str) :
    authorizationCodeGrant env c client out effects (store.withCodeClient code clientID)
      = ((authorizationCodeGrant env c client out effects store).1,
          (authorizationCodeGrant env c client out effects store).2.withCodeClient
            code clientID) := by
  unfold authorizationCodeGrant
  by_cases h1 : c.FormValue "code" = []
  · simp [h1]
  simp only [h1, if_false, withCodeClient_GetAccessCode]
  cases h2 : store.GetAccessCode (c.FormValue "code") with
  | none => simp
  | some a =>
    have hf := withClient_fields a code clientID
    simp only [Option.map_some', hf.1, hf.2]
    cases h3 : env.CreateJWT client .RefreshTokenAudience a.Scope with
    | error e => simp
    | ok refresh =>
      simp only []
      cases h4 : env.DeleteDocError with
      | some err =>
        simp only []
        rw [sendAccessToken_store env client _ _ (store.withCodeClient code clientID) store,
          sendAccessToken_snd]
      | none =>
        simp only []
        rw [withCodeClient_DeleteAccessCode,
          sendAccessToken_store env client _ _
            ((store.DeleteAccessCode a).withCodeClient code clientID) (store.DeleteAccessCode a),
          sendAccessToken_snd]

/-- The refresh_token grant does not look at the access codes. -/
theorem refreshTokenGrant_store (env : Env) (c : Context) (client : Client)
    (out : accessTokenReponse) (effects : List Effect) (s s0 : Store) :
    refreshTokenGrant env c client out effects s
      = ((refreshTokenGrant env c client out effects s0).1, s) := by
  unfold refreshTokenGrant
  cases env.ValidRefreshToken client (c.FormValue "refresh_token") with
  | none => rfl
  | some scope =>
    simp only []
    rw [sendAccessToken_store env client _ _ s s0]

/-- The outcome of `accessToken` does not depend on the client id recorded in an
access-code document. -/
theorem accessToken_withCodeClient (env : Env) (c : Context) (store : Store)
    (code clientID : Str) :
    accessToken env c (store.withCodeClient code clientID)
      = ((accessToken env c store).1, (accessToken env c store).2.withCodeClient code clientID) := by
  have hg : ∀ id, (store.withCodeClient code clientID).GetClient id = store.GetClient id :=
    fun _ => rfl
  unfold accessToken
  by_cases h1 : c.FormValue "grant_type" = []
  · simp [h1]
  by_cases h2 : c.FormValue "client_id" = []
  · simp [h1, h2]
  by_cases h3 : c.FormValue "client_secret" = []
  · simp [h1, h2, h3]
  simp only [h1, h2, h3, if_false, hg]
  cases h4 : store.GetClient (c.FormValue "client_id") with
  | none => simp
  | some client =>
    simp only []
    by_cases h5 : ConstantTimeCompare (c.FormValue "client_secret") client.ClientSecret = 0
    · simp [h5]
    simp only [h5, if_false]
    by_cases h6 : c.FormValue "grant_type" = ascii "authorization_code"
    · simp only [h6, if_true]
      exact authorizationCodeGrant_withCodeClient env c client _ _ store code clientID
    simp only [h6, if_false]
    by_cases h7 : c.FormValue "grant_type" = ascii "refresh_token"
    · simp only [h7, if_true]
      rw [refreshTokenGrant_store env c client _ _ (store.withCodeClient code clientID) store]
      have hsnd : (refreshTokenGrant env c client
          { TokenType := "bearer", Scope := [], Access := [], Refresh := [] }
          [.GetClient (c.FormValue "client_id")] store).2 = store := by
        rw [refreshTokenGrant_store env c client _ _ store store]
      rw [hsnd]
    · simp [h7]

end auth

namespace auth

open url

/-- An answer 200 of `accessToken` is given to an authenticated client only. -/
theorem accessToken_ok_authenticated (env : Env) (c : Context) (store : Store) (body : Body)
    (h : (accessToken env c store).1.reply = .JSON 200 body) :
    ∃ client, Authenticated c store client := by
  by_contra hn
  obtain ⟨message, hm⟩ := (accessToken_unauthenticated env c store hn).2.1
  rw [hm] at h
  simp [jsonError] at h

/-- C16: an access code can be used only once - unless the store fails to delete
it.  When `couchdb.DeleteDoc` works, after any accessToken request with
grant_type authorization_code that answers 200 the access-code document is gone
from the store, and a second request with the same parameters answers 400
"invalid code".  When `couchdb.DeleteDoc` fails the handler only logs the error:
on the test instance the request answers 200, the access code stays in the
store, and the same request answers 200 again. -/
theorem accessToken_code_used_once (env : Env) (c : Context) (store : Store) :
    (env.DeleteDocError = none → c.FormValue "grant_type" = ascii "authorization_code" →
      ∀ body, (accessToken env c store).1.reply = .JSON 200 body →
        (accessToken env c store).2.GetAccessCode (c.FormValue "code") = none ∧
        (accessToken env c (accessToken env c store).2).1.reply = jsonError 400 "invalid code") ∧
    ((accessToken deleteFailsEnv
        (formRequest [("grant_type", "authorization_code"), ("client_id", "clientA"),
          ("client_secret", "secretA"), ("code", "code1")]) testStore).1.reply
      = .JSON 200 (.token
          { TokenType := "bearer", Scope := ascii "files:read",
            Access := ascii "access:clientA:files:read",
            Refresh := ascii "refresh:clientA:files:read" }) ∧
      (accessToken deleteFailsEnv
        (formRequest [("grant_type", "authorization_code"), ("client_id", "clientA"),
          ("client_secret", "secretA"), ("code", "code1")]) testStore).2 = testStore ∧
      (accessToken deleteFailsEnv
        (formRequest [("grant_type", "authorization_code"), ("client_id", "clientA"),
          ("client_secret", "secretA"), ("code", "code1")])
        (accessToken deleteFailsEnv
          (formRequest [("grant_type", "authorization_code"), ("client_id", "clientA"),
            ("client_secret", "secretA"), ("code", "code1")]) testStore).2).1.reply
      = .JSON 200 (.token
          { TokenType := "bearer", Scope := ascii "files:read",
            Access := ascii "access:clientA:files:read",
            Refresh := ascii "refresh:clientA:files:read" })) := by
  refine ⟨?_, by decide, by decide, by decide⟩
  intro hd hg body h
  obtain ⟨client, hauth⟩ := accessToken_ok_authenticated env c store body h
  have h1 := accessToken_authenticated env c store client hauth
  rw [if_pos hg] at h1
  rw [h1] at h
  obtain ⟨accessCode, refresh, access, hcode, hget, _, _, _, hstore⟩ :=
    authorizationCodeGrant_ok env c client _ _ store body h
  rw [hd] at hstore
  simp only at hstore
  have hdel := GetAccessCode_after_delete store _ accessCode hget
  rw [h1, hstore]
  refine ⟨hdel.1, ?_⟩
  have hauth2 : Authenticated c (store.DeleteAccessCode accessCode) client := by
    obtain ⟨a1, a2, a3, a4, a5⟩ := hauth
    exact ⟨a1, a2, a3, (hdel.2 _).trans a4, a5⟩
  rw [accessToken_authenticated env c _ client hauth2, if_pos hg]
  unfold authorizationCodeGrant
  simp [hcode, hdel.1]

/-- C19: `accessToken` issues tokens only to an authenticated client.  Every
request that is answered 200 has non-empty grant_type, client_id and
client_secret, names a client registered in the store, and its client_secret is
that client's stored secret; the response then has token_type "bearer".  With a
missing, unknown or wrong credential, whatever the grant type is, the answer is
a 400 error, the store is left as it was, and the handler has at most looked the
client up: no JWT is created, no access code is read or deleted.  So it is on the
test instance for a wrong secret and for an unknown client. -/
theorem accessToken_authenticates_client (env : Env) (c : Context) (store : Store) :
    (∀ body, (accessToken env c store).1.reply = .JSON 200 body →
      (∃ client, c.FormValue "grant_type" ≠ [] ∧ c.FormValue "client_id" ≠ [] ∧
        c.FormValue "client_secret" ≠ [] ∧
        store.GetClient (c.FormValue "client_id") = some client ∧
        c.FormValue "client_secret" = client.ClientSecret) ∧
      ∃ out : accessTokenReponse, body = .token out ∧ out.TokenType = "bearer") ∧
    ((c.FormValue "grant_type" = [] ∨ c.FormValue "client_id" = [] ∨
        c.FormValue "client_secret" = [] ∨
        store.GetClient (c.FormValue "client_id") = none ∨
        (∃ client, store.GetClient (c.FormValue "client_id") = some client ∧
          c.FormValue "client_secret" ≠ client.ClientSecret)) →
      (accessToken env c store).2 = store ∧
      (∃ message, (accessToken env c store).1.reply = jsonError 400 message) ∧
      (∀ e ∈ (accessToken env c store).1.effects, e = .GetClient (c.FormValue "client_id")) ∧
      (∀ id audience scope, Effect.CreateJWT id audience scope ∉ (accessToken env c store).1.effects) ∧
      (∀ code, Effect.GetAccessCode code ∉ (accessToken env c store).1.effects ∧
        Effect.DeleteAccessCode code ∉ (accessToken env c store).1.effects)) ∧
    accessToken testEnv
        (formRequest [("grant_type", "authorization_code"), ("client_id", "clientA"),
          ("client_secret", "secretB"), ("code", "code1")]) testStore
      = ({ effects := [.GetClient (ascii "clientA")]
           reply := jsonError 400 "invalid client_secret" }, testStore) ∧
    accessToken testEnv
        (formRequest [("grant_type", "refresh_token"), ("client_id", "clientC"),
          ("client_secret", "secretA"), ("refresh_token", "files:read")]) testStore
      = ({ effects := [.GetClient (ascii "clientC")]
           reply := jsonError 400 "the client must be registered" }, testStore) := by
  refine ⟨?_, ?_, by decide, by decide⟩
  · intro body h
    obtain ⟨client, hauth⟩ := accessToken_ok_authenticated env c store body h
    refine ⟨⟨client, hauth⟩, ?_⟩
    rw [accessToken_authenticated env c store client hauth] at h
    split at h
    · obtain ⟨accessCode, refresh, access, _, _, _, _, hb, _⟩ :=
        authorizationCodeGrant_ok env c client _ _ store body h
      exact ⟨_, hb, rfl⟩
    · split at h
      · obtain ⟨out2, hb, ht⟩ := refreshTokenGrant_ok env c client _ _ store body h
        exact ⟨out2, hb, ht⟩
      · simp [jsonError] at h
  · intro hbad
    have hn : ¬ ∃ client, Authenticated c store client := by
      rintro ⟨client, a1, a2, a3, a4, a5⟩
      rcases hbad with h | h | h | h | ⟨cl, h, hne⟩
      · exact a1 h
      · exact a2 h
      · exact a3 h
      · rw [h] at a4
        cases a4
      · rw [h] at a4
        cases a4
        exact hne a5
    obtain ⟨hs, hm, he⟩ := accessToken_unauthenticated env c store hn
    have hall : ∀ e ∈ (accessToken env c store).1.effects,
        e = .GetClient (c.FormValue "client_id") := by
      intro e hmem
      rcases he with he | he
      · rw [he] at hmem
        cases hmem
      · rw [he] at hmem
        simpa using hmem
    refine ⟨hs, hm, hall, ?_, ?_⟩
    · intro id audience scope hmem
      cases hall _ hmem
    · intro code
      exact ⟨fun hmem => (by cases hall _ hmem), fun hmem => (by cases hall _ hmem)⟩

/-- C20, as stated, fails: an authenticated client redeeming a code does not
always get 200.  On the test instance the client B, with its own credentials,
redeems the code issued to the client A while no JWT can be created: the answer
is 500 "Can't generate refresh token", not 200, and the code is not deleted. -/
theorem accessToken_without_jwt_is_500 :
    testStore.GetClient (ascii "clientB") = some clientB ∧
    clientB.ClientSecret = ascii "secretB" ∧
    (testStore.GetAccessCode (ascii "code1")).map AccessCode.ClientID = some (ascii "clientA") ∧
    accessToken jwtFailsEnv
        (formRequest [("grant_type", "authorization_code"), ("client_id", "clientB"),
          ("client_secret", "secretB"), ("code", "code1")]) testStore
      = ({ effects := [.GetClient (ascii "clientB"), .GetAccessCode (ascii "code1"),
             .CreateJWT (ascii "clientB") .RefreshTokenAudience (ascii "files:read")]
           reply := jsonError 500 "Can't generate refresh token" }, testStore) ∧
    (∀ body, (accessToken jwtFailsEnv
        (formRequest [("grant_type", "authorization_code"), ("client_id", "clientB"),
          ("client_secret", "secretB"), ("code", "code1")]) testStore).1.reply
      ≠ .JSON 200 body) := by
  refine ⟨by decide, by decide, by decide, by decide, ?_⟩
  intro body h
  have e : (accessToken jwtFailsEnv
        (formRequest [("grant_type", "authorization_code"), ("client_id", "clientB"),
          ("client_secret", "secretB"), ("code", "code1")]) testStore).1.reply
      = jsonError 500 "Can't generate refresh token" := by decide
  rw [e] at h
  simp [jsonError] at h

/-- C20, amended: in the authorization_code grant the access code is not tied to
the requesting client.  Two runs of `accessToken` that differ only in the client
id recorded inside a stored access-code document give the same response and make
the same calls, and leave stores that differ only in that recorded id.  An
authenticated client B redeeming a stored code - whatever client id is recorded
in it, so also a code issued to a client A - gets, when the refresh token and
the access token can be created for B, 200 with token_type "bearer", the scope
of that code and those two tokens; the calls are the lookup of B, the lookup of
the code, the creation of the refresh token for B, the deletion of the code and
the creation of the access token for B, and when the store deletes the document
the code is gone from the store.  When the refresh token cannot be created the
answer is 500 "Can't generate refresh token" and the store is as before; when
the access token cannot be created the answer is 500 "Can't generate access
token".  On the test instance the client B redeems the code issued to the client
A in this way. -/
theorem accessToken_code_not_tied_to_client (env : Env) (c : Context) (store : Store)
    (code clientID : Str) :
    (accessToken env c (store.withCodeClient code clientID)).1 = (accessToken env c store).1 ∧
    (accessToken env c (store.withCodeClient code clientID)).2
      = (accessToken env c store).2.withCodeClient code clientID ∧
    (∀ (clientB : Client) (accessCode : AccessCode),
      (c.FormValue "grant_type" ≠ [] ∧ c.FormValue "client_id" ≠ [] ∧
        c.FormValue "client_secret" ≠ [] ∧
        store.GetClient (c.FormValue "client_id") = some clientB ∧
        c.FormValue "client_secret" = clientB.ClientSecret) →
      c.FormValue "grant_type" = ascii "authorization_code" →
      c.FormValue "code" ≠ [] →
      store.GetAccessCode (c.FormValue "code") = some accessCode →
      (∀ refresh access,
        env.CreateJWT clientB .RefreshTokenAudience accessCode.Scope = .ok refresh →
        env.CreateJWT clientB .AccessTokenAudience accessCode.Scope = .ok access →
        (accessToken env c store).1.reply
          = .JSON 200 (.token
              { TokenType := "bearer", Scope := accessCode.Scope,
                Access := access, Refresh := refresh }) ∧
        (env.DeleteDocError = none →
          (accessToken env c store).1.effects
            = [.GetClient (c.FormValue "client_id"), .GetAccessCode (c.FormValue "code"),
                .CreateJWT clientB.CouchID .RefreshTokenAudience accessCode.Scope,
                .DeleteAccessCode accessCode.Code,
                .CreateJWT clientB.CouchID .AccessTokenAudience accessCode.Scope] ∧
          (accessToken env c store).2 = store.DeleteAccessCode accessCode ∧
          (accessToken env c store).2.GetAccessCode (c.FormValue "code") = none)) ∧
      (∀ e, env.CreateJWT clientB .RefreshTokenAudience accessCode.Scope = .error e →
        accessToken env c store
          = ({ effects := [.GetClient (c.FormValue "client_id"),
                 .GetAccessCode (c.FormValue "code"),
                 .CreateJWT clientB.CouchID .RefreshTokenAudience accessCode.Scope]
               reply := jsonError 500 "Can't generate refresh token" }, store)) ∧
      (∀ refresh e,
        env.CreateJWT clientB .RefreshTokenAudience accessCode.Scope = .ok refresh →
        env.CreateJWT clientB .AccessTokenAudience accessCode.Scope = .error e →
        (accessToken env c store).1.reply = jsonError 500 "Can't generate access token")) ∧
    (testStore.GetAccessCode (ascii "code1")).map AccessCode.ClientID = some (ascii "clientA") ∧
    accessToken testEnv
        (formRequest [("grant_type", "authorization_code"), ("client_id", "clientB"),
          ("client_secret", "secretB"), ("code", "code1")]) testStore
      = ({ effects := [.GetClient (ascii "clientB"), .GetAccessCode (ascii "code1"),
             .CreateJWT (ascii "clientB") .RefreshTokenAudience (ascii "files:read"),
             .DeleteAccessCode (ascii "code1"),
             .CreateJWT (ascii "clientB") .AccessTokenAudience (ascii "files:read")]
           reply := .JSON 200 (.token
             { TokenType := "bearer", Scope := ascii "files:read",
               Access := ascii "access:clientB:files:read",
               Refresh := ascii "refresh:clientB:files:read" }) },
          { testStore with codes := [] }) ∧
    (accessToken testEnv
        (formRequest [("grant_type", "authorization_code"), ("client_id", "clientB"),
          ("client_secret", "secretB"), ("code", "code1")])
        (testStore.withCodeClient (ascii "code1") (ascii "clientB"))).1
      = (accessToken testEnv
        (formRequest [("grant_type", "authorization_code"), ("client_id", "clientB"),
          ("client_secret", "secretB"), ("code", "code1")]) testStore).1 := by
  have key := accessToken_withCodeClient env c store code clientID
  refine ⟨?_, ?_, ?_, by decide, by decide, by decide⟩
  · rw [key]
  · rw [key]
  · intro clientB accessCode hauth hg hcode hget
    have h1 := accessToken_authenticated env c store clientB hauth
    rw [if_pos hg] at h1
    have hdel := GetAccessCode_after_delete store _ accessCode hget
    refine ⟨?_, ?_, ?_⟩
    · intro refresh access hr ha
      rw [h1]
      constructor
      · unfold authorizationCodeGrant sendAccessToken
        cases hd : env.DeleteDocError <;> simp [hcode, hget, hr, ha]
      · intro hd
        unfold authorizationCodeGrant sendAccessToken
        simp [hcode, hget, hr, ha, hd, hdel.1]
    · intro e hr
      rw [h1]
      unfold authorizationCodeGrant
      simp [hcode, hget, hr]
    · intro refresh e hr ha
      rw [h1]
      unfold authorizationCodeGrant sendAccessToken
      cases hd : env.DeleteDocError <;> simp [hcode, hget, hr, ha]

end auth

namespace settings

/-- C17: `diskUsage` checks permissions but allows every request from the
logged-in user.  The handler returns the permission error, without calling
`vfs.DiskUsage`, exactly when `permissions.Allow` fails and the requester is not
logged in; in every other case (permission granted, or denied but logged in) it
goes on to `vfs.DiskUsage` and, when that succeeds, answers 200 with `Used` equal
to the value returned, and otherwise returns the error of `vfs.DiskUsage`. -/
theorem diskUsage_outcome (c : Context) :
    (∀ err, c.Allow = some err → c.IsLoggedIn = false →
      diskUsage c = { effects := [.Allow, .IsLoggedIn], reply := .Err err }) ∧
    ((c.Allow = none ∨ c.IsLoggedIn = true) →
      (∀ used, c.DiskUsage = .ok used → (diskUsage c).reply = .Data 200 { Used := used }) ∧
      (∀ err, c.DiskUsage = .error err → (diskUsage c).reply = .Err err)) ∧
    (Effect.DiskUsage ∈ (diskUsage c).effects ↔ ¬ (c.Allow ≠ none ∧ c.IsLoggedIn = false)) := by
  unfold diskUsage
  cases ha : c.Allow <;> cases hl : c.IsLoggedIn <;> cases hd : c.DiskUsage <;> simp

end settings

namespace client

open url

/-- The loop of `readAppManifest` stops at the first event that carries an error
or is named "error", with the error of that event. -/
theorem readLoop_error (pre post : List SSEEvent) (evt : SSEEvent) (lastevt : Option SSEEvent)
    (hpre : ∀ e ∈ pre, e.isError = false) (hevt : evt.isError = true) :
    readLoop lastevt (pre ++ evt :: post) = .error evt.toError := by
  induction pre generalizing lastevt with
  | nil =>
    simp only [List.nil_append, readLoop, SSEEvent.toError]
    cases he : evt.Error with
    | some err => rfl
    | none =>
      have : evt.Name = ascii "error" := by
        simpa [SSEEvent.isError, he] using hevt
      simp [this]
  | cons e pre ih =>
    have h1 := hpre e (List.mem_cons_self _ _)
    simp only [SSEEvent.isError, Bool.or_eq_false_iff, decide_eq_false_iff_not, ne_eq,
      not_not] at h1
    simp only [List.cons_append, readLoop, h1.1, h1.2, if_false]
    exact ih _ (fun x hx => hpre x (List.mem_cons_of_mem _ hx))

/-- The loop of `readAppManifest` over events without error ends with the last of
them. -/
theorem readLoop_ok (pre : List SSEEvent) (last : SSEEvent) (lastevt : Option SSEEvent)
    (h : ∀ e ∈ pre ++ [last], e.isError = false) :
    readLoop lastevt (pre ++ [last]) = .ok (some last) := by
  induction pre generalizing lastevt with
  | nil =>
    have h1 := h last (by simp)
    simp only [SSEEvent.isError, Bool.or_eq_false_iff, decide_eq_false_iff_not, ne_eq,
      not_not] at h1
    simp [readLoop, h1.1, h1.2]
  | cons e rest ih =>
    have h1 := h e (by simp)
    simp only [SSEEvent.isError, Bool.or_eq_false_iff, decide_eq_false_iff_not, ne_eq,
      not_not] at h1
    simp only [List.cons_append, readLoop, h1.1, h1.2, if_false]
    exact ih _ (fun x hx => h x (List.mem_cons_of_mem _ hx))

/-- C18: `readAppManifest` decodes the last event sent.  For every finite event
stream: if some event carries an Error or has the name "error", the result is
the error of the first such event (its Error, or else an error whose message is
its data) and no manifest; if the stream is empty the result is the error "No
application data was sent"; otherwise the result is what decoding the data of
the last event gives, so that two streams without error event that end with the
same event give the same result.  Two streams are evaluated with a decoder that
makes the data the id of the manifest. -/
theorem readAppManifest_last_event (readJSONAPI : Str → Except Error AppManifest) :
    (∀ (pre post : List SSEEvent) (evt : SSEEvent),
      (∀ e ∈ pre, e.isError = false) → evt.isError = true →
      readAppManifest readJSONAPI (pre ++ evt :: post) = (none, some evt.toError)) ∧
    readAppManifest readJSONAPI []
      = (none, some (.New (ascii "No application data was sent"))) ∧
    (∀ (pre : List SSEEvent) (last : SSEEvent),
      (∀ e ∈ pre ++ [last], e.isError = false) →
      readAppManifest readJSONAPI (pre ++ [last]) =
        (match readJSONAPI last.Data with
          | .ok app => (some app, none)
          | .error err => (none, some err)) ∧
      readAppManifest readJSONAPI (pre ++ [last]) = readAppManifest readJSONAPI [last]) ∧
    (∀ evt : SSEEvent, evt.isError = true →
      evt.toError = (match evt.Error with
        | some err => err
        | none => .New evt.Data) ∧
      (evt.Error ≠ none ∨ evt.Name = ascii "error")) ∧
    readAppManifest idManifest
        [{ Name := ascii "state", Data := ascii "first", Error := none },
          { Name := ascii "state", Data := ascii "second", Error := none }]
      = (some { ID := ascii "second", Rev := [], Name := [], Slug := [], Source := [],
                State := [] }, none) ∧
    readAppManifest idManifest
        [{ Name := ascii "state", Data := ascii "first", Error := none },
          { Name := ascii "error", Data := ascii "boom", Error := none },
          { Name := ascii "state", Data := ascii "second", Error := none }]
      = (none, some (.New (ascii "boom"))) := by
  refine ⟨?_, rfl, ?_, ?_, by decide, by decide⟩
  · intro pre post evt hpre hevt
    simp only [readAppManifest, readLoop_error pre post evt none hpre hevt]
  · intro pre last h
    have key : ∀ l : List SSEEvent, (∀ e ∈ l ++ [last], e.isError = false) →
        readAppManifest readJSONAPI (l ++ [last]) =
          (match readJSONAPI last.Data with
            | .ok app => (some app, none)
            | .error err => (none, some err)) := by
      intro l hl
      simp only [readAppManifest, readLoop_ok l last none hl]
      cases readJSONAPI last.Data <;> rfl
    refine ⟨key pre h, ?_⟩
    rw [key pre h]
    have := key [] (by
      intro e he
      exact h e (List.mem_append_right _ (by simpa using he)))
    simpa using this.symm
  · intro evt hevt
    refine ⟨rfl, ?_⟩
    simpa [SSEEvent.isError] using hevt

end client

namespace auth

open url

/-- The part of a string after its first dot is at least as long as the part
after any of its dots. -/
theorem first_dot_rest (a b x rest : Str) (ha : 46 ∉ a)
    (h : a ++ 46 :: b = x ++ 46 :: rest) : rest.length ≤ b.length := by
  rcases List.append_eq_append_iff.1 h with ⟨a', hx, hb⟩ | ⟨c', ha', hb⟩
  · have := congrArg List.length hb
    simp at this
    omega
  · cases c' with
    | nil =>
      simp at hb
      simp [hb]
    | cons y ys =>
      simp only [List.cons_append, List.cons.injEq] at hb
      exact absurd (by simp [ha', ← hb.1]) ha

/-- Embeds the result of `strings.SplitN(host, ".", 2)` for a host with a dot: the
part before the first dot and the part after it. -/
theorem SplitN_dot (host x rest : Str) (h : host = x ++ 46 :: rest) :
    ∃ p0 p1, SplitN host (ascii ".") 2 = [p0, p1] ∧ 46 ∉ p0 ∧ host = p0 ++ 46 :: p1 ∧
      rest.length ≤ p1.length := by
  rw [ascii_dot]
  cases hi : index [46] host with
  | none =>
    have := (index_byte_eq_none 46 host).1 hi
    rw [h] at this
    simp at this
  | some m =>
    obtain ⟨a, b, hs, ha, hm⟩ := (index_byte_eq_some 46 host m).1 hi
    refine ⟨a, b, ?_, ha, hs, first_dot_rest a b x rest ha (hs ▸ h)⟩
    subst hm
    have e1 : List.take a.length (a ++ 46 :: b) = a := by simp
    have e2 : List.drop (a.length + [46].length) (a ++ 46 :: b) = b := by
      simp [List.drop_append_eq_append_drop]
    simp only [SplitN, hi]
    rw [hs, e1, e2]

/-- A host with a dot followed by more than the domain is rejected by the host
test of `checkRedirectParam`: the part after its first dot is not the domain. -/
theorem host_rejected_of_long_rest (host dom x rest : Str) (h : host = x ++ 46 :: rest)
    (hlen : dom.length < rest.length) :
    (∃ p0 p1, SplitN host (ascii ".") 2 = [p0, p1] ∧ p1 ≠ dom) ∧
    host ≠ dom ∧ notSubdomain host dom = true := by
  obtain ⟨p0, p1, hsplit, -, -, hle⟩ := SplitN_dot host x rest h
  have hne : p1 ≠ dom := by
    intro e
    rw [e] at hle
    omega
  refine ⟨⟨p0, p1, hsplit, hne⟩, ?_, ?_⟩
  · intro e
    have := congrArg List.length (h.symm.trans e)
    simp at this
    omega
  · simp [notSubdomain, hsplit, hne]

/-- The instance domain followed by a colon and a port without dot is rejected by
the host test of `checkRedirectParam`: it has no dot at all, or the part after
its first dot is not the domain. -/
theorem host_rejected_of_port (host dom port : Str) (h : host = dom ++ 58 :: port)
    (hport : 46 ∉ port) :
    (SplitN host (ascii ".") 2 = [host] ∨
      ∃ p0 p1, SplitN host (ascii ".") 2 = [p0, p1] ∧ p1 ≠ dom) ∧
    host ≠ dom ∧ notSubdomain host dom = true := by
  have hhost : host ≠ dom := by
    intro e
    have := congrArg List.length (h.symm.trans e)
    simp at this
  cases hi : index [46] host with
  | none =>
    have hsplit : SplitN host (ascii ".") 2 = [host] := by
      rw [ascii_dot]
      simp [SplitN, hi]
    exact ⟨Or.inl hsplit, hhost, by simp [notSubdomain, hsplit]⟩
  | some m =>
    obtain ⟨a, b, hs, ha, -⟩ := (index_byte_eq_some 46 host m).1 hi
    obtain ⟨p0, p1, hsplit, hp0, hp, -⟩ := SplitN_dot host a b hs
    have hne : p1 ≠ dom := by
      intro e
      have hc := congrArg (List.count 46) (hp.symm.trans h)
      rw [e] at hc
      simp [List.count_cons, List.count_eq_zero_of_not_mem hp0,
        List.count_eq_zero_of_not_mem hport] at hc
    exact ⟨Or.inr ⟨p0, p1, hsplit, hne⟩, hhost, by simp [notSubdomain, hsplit, hne]⟩

/-- What `checkRedirectParam` returns for an http(s) redirect whose host fails the
host test. -/
theorem checkRedirectParam_of_host_rejected (env : Env) (c : Context) (d : Str) (u : URL)
    (hp : env.net.Parse (redirectParam c d) = .ok u)
    (hs : u.Scheme = ascii "http" ∨ u.Scheme = ascii "https")
    (h1 : u.Host ≠ c.GetInstance.Domain)
    (h2 : notSubdomain u.Host c.GetInstance.Domain = true) :
    checkRedirectParam env c d = ([], some (.HTTPError 400 "bad url: should be subdomain")) := by
  rw [checkRedirectParam_of_parse env c d u hp]
  have hs2 : ¬ (u.Scheme ≠ ascii "http" ∧ u.Scheme ≠ ascii "https") := by
    rintro ⟨n1, n2⟩
    rcases hs with e | e
    · exact n1 e
    · exact n2 e
  rw [if_neg hs2, if_pos ⟨h1, h2⟩]

/-- C21: `checkRedirectParam` accepts a host different from the instance domain
only when it is exactly one non-empty label, a dot, and the instance domain.
For every http(s) redirect whose parsed host is a deeper sub-domain
(a "." b "." domain), or carries a port after a sub-domain (sub "." domain ":"
port) or after the domain itself (domain ":" port, the port holding no dot, as
every numeric port), the part after the first dot of the host - or the whole
host when it has no dot - differs from the domain, and the redirect is rejected
with 400 "bad url: should be subdomain".  Three such redirects are evaluated on
the test instance. -/
theorem checkRedirectParam_rejects_deeper_and_port (env : Env) (c : Context) (d : Str) :
    (∀ u r, env.net.Parse (redirectParam c d) = .ok u →
      checkRedirectParam env c d = (r, none) → u.Host ≠ c.GetInstance.Domain →
      ∃ label : Str, label ≠ [] ∧ 46 ∉ label ∧
        u.Host = label ++ ascii "." ++ c.GetInstance.Domain) ∧
    (∀ u, env.net.Parse (redirectParam c d) = .ok u →
      (u.Scheme = ascii "http" ∨ u.Scheme = ascii "https") →
      (∀ a b : Str, u.Host = a ++ ascii "." ++ b ++ ascii "." ++ c.GetInstance.Domain →
        (∃ p0 p1, SplitN u.Host (ascii ".") 2 = [p0, p1] ∧ p1 ≠ c.GetInstance.Domain) ∧
        checkRedirectParam env c d
          = ([], some (.HTTPError 400 "bad url: should be subdomain"))) ∧
      (∀ sub port : Str,
        u.Host = sub ++ ascii "." ++ c.GetInstance.Domain ++ ascii ":" ++ port →
        (∃ p0 p1, SplitN u.Host (ascii ".") 2 = [p0, p1] ∧ p1 ≠ c.GetInstance.Domain) ∧
        checkRedirectParam env c d
          = ([], some (.HTTPError 400 "bad url: should be subdomain"))) ∧
      (∀ port : Str, 46 ∉ port → u.Host = c.GetInstance.Domain ++ ascii ":" ++ port →
        (SplitN u.Host (ascii ".") 2 = [u.Host] ∨
          ∃ p0 p1, SplitN u.Host (ascii ".") 2 = [p0, p1] ∧ p1 ≠ c.GetInstance.Domain) ∧
        u.Host ≠ c.GetInstance.Domain ∧
        checkRedirectParam env c d
          = ([], some (.HTTPError 400 "bad url: should be subdomain")))) ∧
    checkRedirectParam testEnv (request "https://a.b.cozy.example.net/foo" "")
        (testInstance.SubDomain "home")
      = ([], some (.HTTPError 400 "bad url: should be subdomain")) ∧
    checkRedirectParam testEnv (request "https://sub.cozy.example.net:8080/foo" "")
        (testInstance.SubDomain "home")
      = ([], some (.HTTPError 400 "bad url: should be subdomain")) ∧
    checkRedirectParam testEnv (request "http://cozy.example.net:8080/foo" "")
        (testInstance.SubDomain "home")
      = ([], some (.HTTPError 400 "bad url: should be subdomain")) ∧
    checkRedirectParam testEnv (request "https://sub.cozy.example.net/foo" "")
        (testInstance.SubDomain "home")
      = (ascii "https://sub.cozy.example.net/foo#", none) := by
  refine ⟨?_, ?_, by decide, by decide, by decide, by decide⟩
  · intro u r hp hacc hne
    obtain ⟨u2, hp2, -, hhost, -⟩ := (checkRedirectParam_accepts_iff_aux env c d r).1 hacc
    rw [hp] at hp2
    cases hp2
    rcases hhost with e | hsub
    · exact absurd e hne
    · exact hsub
  · intro u hp hs
    refine ⟨?_, ?_, ?_⟩
    · intro a b hh
      have hform : u.Host = a ++ 46 :: (b ++ 46 :: c.GetInstance.Domain) := by
        rw [hh, ascii_dot]
        simp
      obtain ⟨h1, h2, h3⟩ := host_rejected_of_long_rest u.Host c.GetInstance.Domain a _ hform
        (by simp; omega)
      exact ⟨h1, checkRedirectParam_of_host_rejected env c d u hp hs h2 h3⟩
    · intro sub port hh
      have hcolon : ascii ":" = [58] := rfl
      have hform : u.Host = sub ++ 46 :: (c.GetInstance.Domain ++ 58 :: port) := by
        rw [hh, ascii_dot, hcolon]
        simp
      obtain ⟨h1, h2, h3⟩ := host_rejected_of_long_rest u.Host c.GetInstance.Domain sub _ hform
        (by simp)
      exact ⟨h1, checkRedirectParam_of_host_rejected env c d u hp hs h2 h3⟩
    · intro port hport hh
      have hcolon : ascii ":" = [58] := rfl
      have hform : u.Host = c.GetInstance.Domain ++ 58 :: port := by
        rw [hh, hcolon]
        simp
      obtain ⟨h1, h2, h3⟩ := host_rejected_of_port u.Host c.GetInstance.Domain port hform hport
      exact ⟨h1, h2, checkRedirectParam_of_host_rejected env c d u hp hs h2 h3⟩

end auth
